import Mathlib

/-!
Verification of the board-representation and move layer of the apery_rust
Shogi engine (files src/movegen.rs and src/position.rs).

Conventions of the shallow embedding:
* machine integers become Nat (with explicit masks where overflow matters);
* a Square is a Nat in 0..80, column-major: sq = file * 9 + rank, file 0 is
  the rightmost file "1", rank 0 is the top rank "a" (types.rs is not part
  of the sources; the encoding is fixed by the spec and by the assertions
  in movegen.rs, e.g. DELTA_N = -1);
* a Piece is a Nat: piece type in bits 0..3 (promotion is bit 3), color is
  bit 4 (movegen.rs asserts PROMOTE_FLAG >> 4 == Piece::PROMOTION, so the
  moved-piece field is 5 bits wide);
* a Bitboard is a Nat whose bits 0..80 are board squares (bitboard.rs is
  not part of the sources; modelled from the spec, section "Bitboard");
* a Move is the raw 32-bit value of movegen.rs (a Nat), absence being 0.
-/

/-- Color: 0 = Black, 1 = White. -/
def Color.BLACK : Nat := 0

/-- White color code. -/
def Color.WHITE : Nat := 1

/-- Color inverse: flips Black and White. -/
def colorInverse (c : Nat) : Nat := 1 - c

/-- PieceType codes in declaration order of the spec data model. -/
def PieceType.OCCUPIED : Nat := 0

/-- Pawn piece type. -/
def PieceType.PAWN : Nat := 1

/-- Lance piece type. -/
def PieceType.LANCE : Nat := 2

/-- Knight piece type. -/
def PieceType.KNIGHT : Nat := 3

/-- Silver piece type. -/
def PieceType.SILVER : Nat := 4

/-- Bishop piece type. -/
def PieceType.BISHOP : Nat := 5

/-- Rook piece type. -/
def PieceType.ROOK : Nat := 6

/-- Gold piece type. -/
def PieceType.GOLD : Nat := 7

/-- King piece type. -/
def PieceType.KING : Nat := 8

/-- Promoted pawn piece type (pawn with promotion bit 3). -/
def PieceType.PRO_PAWN : Nat := 9

/-- Promoted lance piece type. -/
def PieceType.PRO_LANCE : Nat := 10

/-- Promoted knight piece type. -/
def PieceType.PRO_KNIGHT : Nat := 11

/-- Promoted silver piece type. -/
def PieceType.PRO_SILVER : Nat := 12

/-- Horse (promoted bishop) piece type. -/
def PieceType.HORSE : Nat := 13

/-- Dragon (promoted rook) piece type. -/
def PieceType.DRAGON : Nat := 14

/-- Piece: empty square. -/
def Piece.EMPTY : Nat := 0

/-- Promotion bit of a piece code (movegen.rs: PROMOTE_FLAG >> 4 == Piece::PROMOTION). -/
def Piece.PROMOTION : Nat := 8

/-- Color bit of a piece code: white pieces are black codes plus 16. -/
def Piece.COLOR_SHIFT_VALUE : Nat := 16

/-- Piece constructor from color and piece type. -/
def Piece.new (c pt : Nat) : Nat := c * 16 + pt

/-- Piece type of a piece code (low four bits). -/
def pieceTypeOf (pc : Nat) : Nat := pc % 16

/-- Color of a piece code (bit 4). -/
def colorOf (pc : Nat) : Nat := pc / 16

/-- Black pawn piece code. -/
def Piece.B_PAWN : Nat := 1

/-- Black king piece code. -/
def Piece.B_KING : Nat := 8

/-- White pawn piece code. -/
def Piece.W_PAWN : Nat := 17

/-- White king piece code. -/
def Piece.W_KING : Nat := 24

/-- A piece code denotes an actual piece: its type is one of the fourteen
real piece types (not OCCUPIED) and the code is at most W_DRAGON = 30. -/
def isRealPiece (pc : Nat) : Prop :=
  pc < 32 ∧ 1 ≤ pc % 16 ∧ pc % 16 ≤ 14

instance (pc : Nat) : Decidable (isRealPiece pc) := by
  unfold isRealPiece; infer_instance

/-! Move encoding, from movegen.rs (struct Move).  The 32-bit layout:
bits 0-6 to-square, bit 7 promote flag, bit 8 drop flag, bits 9-15
from-square or dropped piece, bits 16-20 moved piece. -/

/-- Move to-square mask (movegen.rs Move::TO_MASK). -/
def Move.TO_MASK : Nat := 0x7f

/-- Move promote flag (movegen.rs Move::PROMOTE_FLAG). -/
def Move.PROMOTE_FLAG : Nat := 1 <<< 7

/-- Move drop flag (movegen.rs Move::DROP_FLAG). -/
def Move.DROP_FLAG : Nat := 1 <<< 8

/-- Unpromote move constructor (movegen.rs Move::new_unpromote). -/
def Move.new_unpromote (from_ to_ pc : Nat) : Nat :=
  (pc <<< 16) ||| (from_ <<< 9) ||| to_

/-- Promote move constructor (movegen.rs Move::new_promote). -/
def Move.new_promote (from_ to_ pc : Nat) : Nat :=
  Move.PROMOTE_FLAG ||| Move.new_unpromote from_ to_ pc

/-- Drop move constructor (movegen.rs Move::new_drop). -/
def Move.new_drop (pc to_ : Nat) : Nat :=
  Move.DROP_FLAG ||| (pc <<< 9) ||| to_

/-- Null-move sentinel (movegen.rs Move::NULL): 1 | (1 << 9). -/
def Move.NULL : Nat := 1 ||| (1 <<< 9)

/-- Win sentinel (movegen.rs Move::WIN): 2 | (2 << 9). -/
def Move.WIN : Nat := 2 ||| (2 <<< 9)

/-- Resign sentinel (movegen.rs Move::RESIGN): 3 | (3 << 9). -/
def Move.RESIGN : Nat := 3 ||| (3 <<< 9)

/-- Normal-move predicate on the raw value of an Option Move, absence being
the zero pattern (movegen.rs IsNormalMove::is_normal_move):
(val & 0x1ff) != (val >> 9). -/
def is_normal_move (v : Nat) : Bool :=
  (v &&& 0x1ff) != (v >>> 9)

/-- Move accessor: to-square (movegen.rs Move::to). -/
def Move.to_ (v : Nat) : Nat := v &&& Move.TO_MASK

/-- Move accessor: from-square (movegen.rs Move::from). -/
def Move.from_ (v : Nat) : Nat := (v &&& 0xfe00) >>> 9

/-- Move accessor: dropped piece (movegen.rs Move::piece_dropped). -/
def Move.piece_dropped (v : Nat) : Nat := (v &&& 0x3e00) >>> 9

/-- Move accessor: dropped piece type (movegen.rs Move::piece_type_dropped). -/
def Move.piece_type_dropped (v : Nat) : Nat := (v &&& 0x1e00) >>> 9

/-- Move accessor: drop flag test (movegen.rs Move::is_drop). -/
def Move.is_drop (v : Nat) : Bool := (v &&& Move.DROP_FLAG) != 0

/-- Move accessor: promotion flag test (movegen.rs Move::is_promotion). -/
def Move.is_promotion (v : Nat) : Bool := (v &&& Move.PROMOTE_FLAG) != 0

/-- Move accessor: moved piece before the move (movegen.rs
Move::piece_moved_before_move). -/
def Move.piece_moved_before_move (v : Nat) : Nat :=
  if Move.is_drop v then Move.piece_dropped v
  else (v &&& 0x1f0000) >>> 16

/-- Move accessor: moved piece after the move, promoted form when the
promote flag is set (movegen.rs Move::piece_moved_after_move). -/
def Move.piece_moved_after_move (v : Nat) : Nat :=
  if Move.is_drop v then Move.piece_dropped v
  else ((v &&& 0x1f0000) >>> 16) ||| ((v &&& Move.PROMOTE_FLAG) >>> 4)

/-! USI move-string parsing, from movegen.rs Move::new_from_usi_str.
The character-level helpers live in types.rs, which is not among the
sources; they are modelled from the spec, section "EXTERNAL INTERFACES"
(USI move string grammar). -/

/-- Modelled from the spec: types.rs PieceType::new_from_str_for_drop_move;
maps the USI upper-case letter of a droppable piece to its piece type. -/
def PieceType.new_from_str_for_drop_move (s : String) : Option Nat :=
  if s = "P" then some PieceType.PAWN
  else if s = "L" then some PieceType.LANCE
  else if s = "N" then some PieceType.KNIGHT
  else if s = "S" then some PieceType.SILVER
  else if s = "G" then some PieceType.GOLD
  else if s = "B" then some PieceType.BISHOP
  else if s = "R" then some PieceType.ROOK
  else none

/-- Modelled from the spec: types.rs File::new_from_usi_char; USI files are
the digits 1..9, file 0 being "1". -/
def File.new_from_usi_char (c : Char) : Option Nat :=
  if '1' ≤ c ∧ c ≤ '9' then some (c.toNat - 49) else none

/-- Modelled from the spec: types.rs Rank::new_from_usi_char; USI ranks are
the letters a..i, rank 0 being "a". -/
def Rank.new_from_usi_char (c : Char) : Option Nat :=
  if 'a' ≤ c ∧ c ≤ 'i' then some (c.toNat - 97) else none

/-- Square from file and rank, column-major (types.rs Square::new). -/
def Square.new (f r : Nat) : Nat := f * 9 + r

/-- The move value constructed by movegen.rs Move::new_from_usi_str before
the pseudo-legal and legality checks at the end of that function; none is
returned for a malformed string.  stm is the side to move and pieceOn the
board array of the position argument. -/
def usiMoveBeforeValidation (s : String) (stm : Nat) (pieceOn : Nat → Nat) :
    Option Nat :=
  let v := s.toList
  if v.length < 4 then none
  else
    match PieceType.new_from_str_for_drop_move (v.getD 0 ' ').toString with
    | some pt =>
      let pc := Piece.new stm pt
      if v.getD 1 ' ' ≠ '*' then none
      else if v.length ≠ 4 then none
      else
        match File.new_from_usi_char (v.getD 2 ' '),
              Rank.new_from_usi_char (v.getD 3 ' ') with
        | some file, some rank => some (Move.new_drop pc (Square.new file rank))
        | _, _ => none
    | none =>
      match File.new_from_usi_char (v.getD 0 ' '),
            Rank.new_from_usi_char (v.getD 1 ' '),
            File.new_from_usi_char (v.getD 2 ' '),
            Rank.new_from_usi_char (v.getD 3 ' ') with
      | some ff, some rf, some ft, some rt =>
        let from_ := Square.new ff rf
        let to_ := Square.new ft rt
        let pc := pieceOn from_
        if v.length = 4 then some (Move.new_unpromote from_ to_ pc)
        else if v.length = 5 then
          if v.getD 4 ' ' ≠ '+' then none
          else some (Move.new_promote from_ to_ pc)
        else none
      | _, _, _, _ => none

/-- Example board for the zero-move construction: White king on square 72
(file 9, rank a), Black king on square 8 (file 1, rank i), square 0
(file 1, rank a) empty. -/
def c5Board : Nat → Nat := fun sq =>
  if sq = 72 then Piece.W_KING else if sq = 8 then Piece.B_KING else Piece.EMPTY

/-! Hand: per-color pool of captured pieces.  hand.rs is not among the
sources; modelled from the spec, section "Hand": seven per-type counters
with num, exist, plus_one, minus_one and the pointwise dominance test
is_equal_or_superior. -/

/-- Modelled from the spec: a Hand holds one counter per droppable piece
type (hand.rs packs them in one 32-bit word; the packing is an
implementation detail of is_equal_or_superior, which the spec defines
pointwise). -/
structure Hand where
  pawn : Nat
  lance : Nat
  knight : Nat
  silver : Nat
  bishop : Nat
  rook : Nat
  gold : Nat
deriving DecidableEq, Repr

/-- Hand with no pieces (hand.rs Hand(0)). -/
def Hand.zero : Hand := ⟨0, 0, 0, 0, 0, 0, 0⟩

/-- Number of pieces of a droppable type in a hand (hand.rs Hand::num). -/
def Hand.num (h : Hand) (pt : Nat) : Nat :=
  if pt = PieceType.PAWN then h.pawn
  else if pt = PieceType.LANCE then h.lance
  else if pt = PieceType.KNIGHT then h.knight
  else if pt = PieceType.SILVER then h.silver
  else if pt = PieceType.BISHOP then h.bishop
  else if pt = PieceType.ROOK then h.rook
  else if pt = PieceType.GOLD then h.gold
  else 0

/-- Whether the hand holds at least one piece of the type (hand.rs
Hand::exist). -/
def Hand.exist (h : Hand) (pt : Nat) : Bool := h.num pt != 0

/-- Whether the hand holds any non-pawn piece (hand.rs
Hand::except_pawn_exist). -/
def Hand.except_pawn_exist (h : Hand) : Bool :=
  (h.lance + h.knight + h.silver + h.bishop + h.rook + h.gold) != 0

/-- Add one piece of the type to the hand (hand.rs Hand::plus_one). -/
def Hand.plus_one (h : Hand) (pt : Nat) : Hand :=
  if pt = PieceType.PAWN then { h with pawn := h.pawn + 1 }
  else if pt = PieceType.LANCE then { h with lance := h.lance + 1 }
  else if pt = PieceType.KNIGHT then { h with knight := h.knight + 1 }
  else if pt = PieceType.SILVER then { h with silver := h.silver + 1 }
  else if pt = PieceType.BISHOP then { h with bishop := h.bishop + 1 }
  else if pt = PieceType.ROOK then { h with rook := h.rook + 1 }
  else if pt = PieceType.GOLD then { h with gold := h.gold + 1 }
  else h

/-- Remove one piece of the type from the hand (hand.rs Hand::minus_one;
callers guarantee the count is positive). -/
def Hand.minus_one (h : Hand) (pt : Nat) : Hand :=
  if pt = PieceType.PAWN then { h with pawn := h.pawn - 1 }
  else if pt = PieceType.LANCE then { h with lance := h.lance - 1 }
  else if pt = PieceType.KNIGHT then { h with knight := h.knight - 1 }
  else if pt = PieceType.SILVER then { h with silver := h.silver - 1 }
  else if pt = PieceType.BISHOP then { h with bishop := h.bishop - 1 }
  else if pt = PieceType.ROOK then { h with rook := h.rook - 1 }
  else if pt = PieceType.GOLD then { h with gold := h.gold - 1 }
  else h

/-- Pointwise dominance of hands (hand.rs Hand::is_equal_or_superior;
the spec defines it field by field). -/
def Hand.is_equal_or_superior (h other : Hand) : Bool :=
  other.pawn ≤ h.pawn ∧ other.lance ≤ h.lance ∧ other.knight ≤ h.knight
    ∧ other.silver ≤ h.silver ∧ other.bishop ≤ h.bishop
    ∧ other.rook ≤ h.rook ∧ other.gold ≤ h.gold

/-- The droppable piece types in hand order (types.rs
PieceType::ALL_HAND; this order is also used by EvalList::new in
position.rs). -/
def PieceType.ALL_HAND : List Nat :=
  [PieceType.PAWN, PieceType.LANCE, PieceType.KNIGHT, PieceType.SILVER,
   PieceType.BISHOP, PieceType.ROOK, PieceType.GOLD]

/-- Single-square bitboard (bitboard.rs Bitboard::square_mask). -/
def squareMask (sq : Nat) : Nat := 1 <<< sq

/-- Membership of a square in a bitboard (bitboard.rs Bitboard::is_set). -/
def bbIsSet (bb sq : Nat) : Bool := bb.testBit sq

/-- PositionBase, from position.rs: the raw board state.  The board array
and the indexed bitboard arrays become functions from indices. -/
structure PositionBase where
  board : Nat → Nat
  byTypeBB : Nat → Nat
  byColorBB : Nat → Nat
  goldsBB : Nat
  hands : Nat → Hand
  gamePly : Int
  kingSquares : Nat → Nat
  sideToMove : Nat

/-- Piece lookup (position.rs PositionBase::piece_on). -/
def PositionBase.piece_on (pos : PositionBase) (sq : Nat) : Nat := pos.board sq

/-- Color bitboard (position.rs PositionBase::pieces_c). -/
def PositionBase.pieces_c (pos : PositionBase) (c : Nat) : Nat := pos.byColorBB c

/-- Type bitboard (position.rs PositionBase::pieces_p). -/
def PositionBase.pieces_p (pos : PositionBase) (pt : Nat) : Nat := pos.byTypeBB pt

/-- Color-and-type bitboard (position.rs PositionBase::pieces_cp). -/
def PositionBase.pieces_cp (pos : PositionBase) (c pt : Nat) : Nat :=
  pos.pieces_c c &&& pos.pieces_p pt

/-- Occupancy bitboard (position.rs PositionBase::occupied_bb). -/
def PositionBase.occupied_bb (pos : PositionBase) : Nat :=
  pos.byTypeBB PieceType.OCCUPIED

/-- Hand of a color (position.rs PositionBase::hand). -/
def PositionBase.hand (pos : PositionBase) (c : Nat) : Hand := pos.hands c

/-- King square of a color (position.rs PositionBase::king_square). -/
def PositionBase.king_square (pos : PositionBase) (c : Nat) : Nat :=
  pos.kingSquares c

/-- Toggle the occupancy, type and color bitboards at a square
(position.rs PositionBase::xor_bbs). -/
def PositionBase.xor_bbs (pos : PositionBase) (c pt sq : Nat) : PositionBase :=
  { pos with
    byTypeBB := Function.update
      (Function.update pos.byTypeBB PieceType.OCCUPIED
        (pos.byTypeBB PieceType.OCCUPIED ^^^ squareMask sq))
      pt ((Function.update pos.byTypeBB PieceType.OCCUPIED
        (pos.byTypeBB PieceType.OCCUPIED ^^^ squareMask sq)) pt ^^^ squareMask sq)
    byColorBB := Function.update pos.byColorBB c (pos.byColorBB c ^^^ squareMask sq) }

/-- Place a piece on an empty square (position.rs
PositionBase::put_piece). -/
def PositionBase.put_piece (pos : PositionBase) (pc sq : Nat) : PositionBase :=
  let pos1 := pos.xor_bbs (colorOf pc) (pieceTypeOf pc) sq
  { pos1 with board := Function.update pos1.board sq pc }

/-- Remove a piece from its square (position.rs
PositionBase::remove_piece). -/
def PositionBase.remove_piece (pos : PositionBase) (pc sq : Nat) : PositionBase :=
  let pos1 := pos.xor_bbs (colorOf pc) (pieceTypeOf pc) sq
  { pos1 with board := Function.update pos1.board sq Piece.EMPTY }

/-- Replace a captured enemy piece by a new own piece at a square
(position.rs PositionBase::exchange_pieces). -/
def PositionBase.exchange_pieces (pos : PositionBase) (pcNew sq : Nat) : PositionBase :=
  let ptNew := pieceTypeOf pcNew
  let pcOld := pos.piece_on sq
  let ptOld := pieceTypeOf pcOld
  let colorOld := colorOf pcOld
  let colorNew := colorInverse colorOld
  { pos with
    byTypeBB := Function.update
      (Function.update pos.byTypeBB ptOld (pos.byTypeBB ptOld ^^^ squareMask sq))
      ptNew ((Function.update pos.byTypeBB ptOld
        (pos.byTypeBB ptOld ^^^ squareMask sq)) ptNew ^^^ squareMask sq)
    byColorBB := Function.update
      (Function.update pos.byColorBB colorOld
        (pos.byColorBB colorOld ^^^ squareMask sq))
      colorNew ((Function.update pos.byColorBB colorOld
        (pos.byColorBB colorOld ^^^ squareMask sq)) colorNew ^^^ squareMask sq)
    board := Function.update pos.board sq pcNew }

/-- Recompute the cached gold-movers aggregate (position.rs
PositionBase::set_golds_bb). -/
def PositionBase.set_golds_bb (pos : PositionBase) : PositionBase :=
  { pos with goldsBB :=
      pos.byTypeBB PieceType.GOLD ||| pos.byTypeBB PieceType.PRO_PAWN
        ||| pos.byTypeBB PieceType.PRO_LANCE ||| pos.byTypeBB PieceType.PRO_KNIGHT
        ||| pos.byTypeBB PieceType.PRO_SILVER }

/-- Gold-movers bitboard (position.rs PositionBase::pieces_golds). -/
def PositionBase.pieces_golds (pos : PositionBase) : Nat := pos.goldsBB

/-! Huffman-coded position, from position.rs: the canonical 32-byte
bitstream snapshot. -/

/-- A Huffman code: an accumulated value and its length in bits
(position.rs struct HuffmanCode). -/
structure HuffmanCode where
  value : Nat
  bit_length : Nat
deriving DecidableEq, Repr

/-- Board-occupant Huffman code of a piece (position.rs
HuffmanCode::new); EMPTY is the single bit 0. -/
def HuffmanCode.new (pc : Nat) : HuffmanCode :=
  if pc = Piece.EMPTY then ⟨0b0, 1⟩
  else if pc = 1 then ⟨0b1, 4⟩         -- B_PAWN
  else if pc = 2 then ⟨0b11, 6⟩        -- B_LANCE
  else if pc = 3 then ⟨0b111, 6⟩       -- B_KNIGHT
  else if pc = 4 then ⟨0b1011, 6⟩      -- B_SILVER
  else if pc = 5 then ⟨0b11111, 8⟩     -- B_BISHOP
  else if pc = 6 then ⟨0b111111, 8⟩    -- B_ROOK
  else if pc = 7 then ⟨0b1111, 6⟩      -- B_GOLD
  else if pc = 9 then ⟨0b1001, 4⟩      -- B_PRO_PAWN
  else if pc = 10 then ⟨0b100011, 6⟩   -- B_PRO_LANCE
  else if pc = 11 then ⟨0b100111, 6⟩   -- B_PRO_KNIGHT
  else if pc = 12 then ⟨0b101011, 6⟩   -- B_PRO_SILVER
  else if pc = 13 then ⟨0b10011111, 8⟩ -- B_HORSE
  else if pc = 14 then ⟨0b10111111, 8⟩ -- B_DRAGON
  else if pc = 17 then ⟨0b101, 4⟩      -- W_PAWN
  else if pc = 18 then ⟨0b10011, 6⟩    -- W_LANCE
  else if pc = 19 then ⟨0b10111, 6⟩    -- W_KNIGHT
  else if pc = 20 then ⟨0b11011, 6⟩    -- W_SILVER
  else if pc = 21 then ⟨0b1011111, 8⟩  -- W_BISHOP
  else if pc = 22 then ⟨0b1111111, 8⟩  -- W_ROOK
  else if pc = 23 then ⟨0b101111, 6⟩   -- W_GOLD
  else if pc = 25 then ⟨0b1101, 4⟩     -- W_PRO_PAWN
  else if pc = 26 then ⟨0b110011, 6⟩   -- W_PRO_LANCE
  else if pc = 27 then ⟨0b110111, 6⟩   -- W_PRO_KNIGHT
  else if pc = 28 then ⟨0b111011, 6⟩   -- W_PRO_SILVER
  else if pc = 29 then ⟨0b11011111, 8⟩ -- W_HORSE
  else if pc = 30 then ⟨0b11111111, 8⟩ -- W_DRAGON
  else ⟨0, 0⟩

/-- Hand-piece Huffman code for a color and droppable type (position.rs
HuffmanCode::new_from_color_and_hand_piece_type). -/
def HuffmanCode.new_from_color_and_hand_piece_type (c pt : Nat) : HuffmanCode :=
  if c = Color.BLACK then
    if pt = PieceType.PAWN then ⟨0b0, 3⟩
    else if pt = PieceType.LANCE then ⟨0b1, 5⟩
    else if pt = PieceType.KNIGHT then ⟨0b11, 5⟩
    else if pt = PieceType.SILVER then ⟨0b101, 5⟩
    else if pt = PieceType.GOLD then ⟨0b111, 5⟩
    else if pt = PieceType.BISHOP then ⟨0b11111, 7⟩
    else if pt = PieceType.ROOK then ⟨0b111111, 7⟩
    else ⟨0, 0⟩
  else
    if pt = PieceType.PAWN then ⟨0b100, 3⟩
    else if pt = PieceType.LANCE then ⟨0b10001, 5⟩
    else if pt = PieceType.KNIGHT then ⟨0b10011, 5⟩
    else if pt = PieceType.SILVER then ⟨0b10101, 5⟩
    else if pt = PieceType.GOLD then ⟨0b10111, 5⟩
    else if pt = PieceType.BISHOP then ⟨0b1011111, 7⟩
    else if pt = PieceType.ROOK then ⟨0b1111111, 7⟩
    else ⟨0, 0⟩

/-- Board-occupant decoding of a Huffman code (position.rs impl
TryFrom of HuffmanCode for Piece); none is the Err case. -/
def pieceTryFromHuffman (hc : HuffmanCode) : Option Nat :=
  if hc = ⟨0b0, 1⟩ then some Piece.EMPTY
  else if hc = ⟨0b1, 4⟩ then some 1
  else if hc = ⟨0b11, 6⟩ then some 2
  else if hc = ⟨0b111, 6⟩ then some 3
  else if hc = ⟨0b1011, 6⟩ then some 4
  else if hc = ⟨0b11111, 8⟩ then some 5
  else if hc = ⟨0b111111, 8⟩ then some 6
  else if hc = ⟨0b1111, 6⟩ then some 7
  else if hc = ⟨0b1001, 4⟩ then some 9
  else if hc = ⟨0b100011, 6⟩ then some 10
  else if hc = ⟨0b100111, 6⟩ then some 11
  else if hc = ⟨0b101011, 6⟩ then some 12
  else if hc = ⟨0b10011111, 8⟩ then some 13
  else if hc = ⟨0b10111111, 8⟩ then some 14
  else if hc = ⟨0b101, 4⟩ then some 17
  else if hc = ⟨0b10011, 6⟩ then some 18
  else if hc = ⟨0b10111, 6⟩ then some 19
  else if hc = ⟨0b11011, 6⟩ then some 20
  else if hc = ⟨0b1011111, 8⟩ then some 21
  else if hc = ⟨0b1111111, 8⟩ then some 22
  else if hc = ⟨0b101111, 6⟩ then some 23
  else if hc = ⟨0b1101, 4⟩ then some 25
  else if hc = ⟨0b110011, 6⟩ then some 26
  else if hc = ⟨0b110111, 6⟩ then some 27
  else if hc = ⟨0b111011, 6⟩ then some 28
  else if hc = ⟨0b11011111, 8⟩ then some 29
  else if hc = ⟨0b11111111, 8⟩ then some 30
  else none

/-- Hand decoding of a Huffman code (position.rs impl TryFrom of
HuffmanCode for ColorAndPieceTypeForHand).  As in the source, every arm
- including each white-hand code - yields Color::BLACK. -/
def colorAndPieceTypeForHandTryFrom (hc : HuffmanCode) : Option (Nat × Nat) :=
  if hc = ⟨0b0, 3⟩ then some (Color.BLACK, PieceType.PAWN)
  else if hc = ⟨0b100, 3⟩ then some (Color.BLACK, PieceType.PAWN)
  else if hc = ⟨0b1, 5⟩ then some (Color.BLACK, PieceType.LANCE)
  else if hc = ⟨0b10001, 5⟩ then some (Color.BLACK, PieceType.LANCE)
  else if hc = ⟨0b11, 5⟩ then some (Color.BLACK, PieceType.KNIGHT)
  else if hc = ⟨0b10011, 5⟩ then some (Color.BLACK, PieceType.KNIGHT)
  else if hc = ⟨0b101, 5⟩ then some (Color.BLACK, PieceType.SILVER)
  else if hc = ⟨0b10101, 5⟩ then some (Color.BLACK, PieceType.SILVER)
  else if hc = ⟨0b111, 5⟩ then some (Color.BLACK, PieceType.GOLD)
  else if hc = ⟨0b10111, 5⟩ then some (Color.BLACK, PieceType.GOLD)
  else if hc = ⟨0b11111, 7⟩ then some (Color.BLACK, PieceType.BISHOP)
  else if hc = ⟨0b1011111, 7⟩ then some (Color.BLACK, PieceType.BISHOP)
  else if hc = ⟨0b111111, 7⟩ then some (Color.BLACK, PieceType.ROOK)
  else if hc = ⟨0b1111111, 7⟩ then some (Color.BLACK, PieceType.ROOK)
  else none

/-- Bit-stream state: the 256-bit buffer as one Nat plus the bit cursor
(position.rs BitStreamReader and BitStreamWriter keep a byte index and a
bit index; cursor = index * 8 + bit). -/
structure BitStream where
  buf : Nat
  cursor : Nat
deriving Repr

/-- Write bits LSB-first at the cursor (position.rs
BitStreamWriter::put_bits_from_lsb; put_bit ors single bits, so writing
n bits ors value mod 2 to the n at the cursor). -/
def BitStream.putBits (bs : BitStream) (v len : Nat) : BitStream :=
  { buf := bs.buf ||| ((v % 2 ^ len) <<< bs.cursor), cursor := bs.cursor + len }

/-- Read one bit at the cursor (position.rs
BitStreamReader::get_bit_from_lsb; a read past the 32-byte slice panics
in the source and yields 0 here - no decoded input in this development
reads past the end). -/
def BitStream.getBit (bs : BitStream) : Nat × BitStream :=
  ((bs.buf >>> bs.cursor) &&& 1, { bs with cursor := bs.cursor + 1 })

/-- Read several bits LSB-first (position.rs
BitStreamReader::get_bits_from_lsb). -/
def BitStream.getBits (bs : BitStream) (len : Nat) : Nat × BitStream :=
  ((bs.buf >>> bs.cursor) % 2 ^ len, { bs with cursor := bs.cursor + len })

/-- Huffman-coded position: 32-byte buffer (here one 256-bit Nat) plus
the game ply (position.rs struct HuffmanCodedPosition). -/
structure HuffmanCodedPosition where
  buf : Nat
  ply : Int
deriving Repr

/-- All board squares in ascending order (types.rs Square::ALL). -/
def Square.ALL : List Nat := List.range 81

/-- Encoder (position.rs HuffmanCodedPosition::from): header of
side-to-move and the two king squares, then a code per non-king square,
then the hand codes per color and hand type. -/
def HuffmanCodedPosition.from_ (pos : PositionBase) : HuffmanCodedPosition :=
  let bs : BitStream := ⟨0, 0⟩
  let bs := bs.putBits pos.sideToMove 1
  let bs := bs.putBits (pos.king_square Color.BLACK) 7
  let bs := bs.putBits (pos.king_square Color.WHITE) 7
  let bs := Square.ALL.foldl (fun bs sq =>
    let pc := pos.piece_on sq
    if pc = Piece.B_KING ∨ pc = Piece.W_KING then bs
    else
      let hc := HuffmanCode.new pc
      bs.putBits hc.value hc.bit_length) bs
  let bs := [Color.BLACK, Color.WHITE].foldl (fun bs c =>
    let hand := pos.hand c
    PieceType.ALL_HAND.foldl (fun bs pt =>
      let hc := HuffmanCode.new_from_color_and_hand_piece_type c pt
      (List.range (hand.num pt)).foldl (fun bs _ =>
        bs.putBits hc.value hc.bit_length) bs) bs) bs
  { buf := bs.buf, ply := pos.gamePly }

/-- One board-occupant code read: accumulate bits until a code matches,
failing after eight bits (the inner loop of
PositionBase::new_from_huffman_coded_position). -/
def readBoardCode (bs : BitStream) (hc : HuffmanCode) : Nat → Option (Nat × BitStream)
  | 0 => none
  | fuel + 1 =>
    let (bit, bs) := bs.getBit
    let hc : HuffmanCode := ⟨hc.value ||| (bit <<< hc.bit_length), hc.bit_length + 1⟩
    match pieceTryFromHuffman hc with
    | some pc => some (pc, bs)
    | none => if hc.bit_length ≥ 8 then none else readBoardCode bs hc fuel

/-- One hand code read: accumulate bits until a hand code matches,
failing after seven bits (the second inner loop of
PositionBase::new_from_huffman_coded_position). -/
def readHandCode (bs : BitStream) (hc : HuffmanCode) : Nat → Option (Nat × Nat × BitStream)
  | 0 => none
  | fuel + 1 =>
    let (bit, bs) := bs.getBit
    let hc : HuffmanCode := ⟨hc.value ||| (bit <<< hc.bit_length), hc.bit_length + 1⟩
    match colorAndPieceTypeForHandTryFrom hc with
    | some (c, pt) => some (c, pt, bs)
    | none => if hc.bit_length ≥ 7 then none else readHandCode bs hc fuel

/-- The hand-decoding loop: read hand codes while the byte index is short
of 32 (the while loop of PositionBase::new_from_huffman_coded_position). -/
def decodeHands (pos : PositionBase) (bs : BitStream) : Nat → Option PositionBase
  | 0 => none
  | fuel + 1 =>
    if bs.cursor / 8 = 32 then some pos
    else
      match readHandCode bs ⟨0, 0⟩ 7 with
      | none => none
      | some (c, pt, bs) =>
        decodeHands
          { pos with hands := Function.update pos.hands c ((pos.hands c).plus_one pt) }
          bs fuel

/-- Decoder (position.rs PositionBase::new_from_huffman_coded_position):
read the header, place both kings, one code per remaining square, then
hand codes until the buffer is exhausted. -/
def PositionBase.new_from_huffman_coded_position (hcp : HuffmanCodedPosition) :
    Option PositionBase :=
  let bs : BitStream := ⟨hcp.buf, 0⟩
  let pos : PositionBase :=
    { board := fun _ => Piece.EMPTY, byTypeBB := fun _ => 0,
      byColorBB := fun _ => 0, goldsBB := 0, hands := fun _ => Hand.zero,
      gamePly := 0, kingSquares := fun _ => 0, sideToMove := Color.BLACK }
  let (stm, bs) := bs.getBit
  let pos := { pos with sideToMove := stm }
  let (ksqB, bs) := bs.getBits 7
  let (ksqW, bs) := bs.getBits 7
  let pos := { pos with kingSquares := fun c => if c = Color.BLACK then ksqB else ksqW }
  let pos := pos.put_piece Piece.B_KING (pos.king_square Color.BLACK)
  let pos := pos.put_piece Piece.W_KING (pos.king_square Color.WHITE)
  let step := fun (acc : Option (PositionBase × BitStream)) (sq : Nat) =>
    match acc with
    | none => none
    | some (pos, bs) =>
      if sq = pos.king_square Color.BLACK ∨ sq = pos.king_square Color.WHITE then
        some (pos, bs)
      else
        match readBoardCode bs ⟨0, 0⟩ 8 with
        | none => none
        | some (pc, bs) =>
          if pc ≠ Piece.EMPTY then some (pos.put_piece pc sq, bs)
          else some (pos, bs)
  match Square.ALL.foldl step (some (pos, bs)) with
  | none => none
  | some (pos, bs) =>
    match decodeHands pos bs 300 with
    | none => none
    | some pos =>
      some { pos.set_golds_bb with gamePly := hcp.ply }

/-- The failing input for the Huffman round trip: Black king on square 8,
White king on square 72, White holding one pawn, Black to move, ply 1. -/
def c1Pos : PositionBase :=
  let pos : PositionBase :=
    { board := fun _ => Piece.EMPTY, byTypeBB := fun _ => 0,
      byColorBB := fun _ => 0, goldsBB := 0,
      hands := fun c => if c = Color.WHITE then { Hand.zero with pawn := 1 } else Hand.zero,
      gamePly := 1,
      kingSquares := fun c => if c = Color.BLACK then 8 else 72,
      sideToMove := Color.BLACK }
  (pos.put_piece Piece.B_KING 8).put_piece Piece.W_KING 72

/-! Board geometry and attack tables.  bitboard.rs and types.rs are not
among the sources; everything in this section is modelled from the spec
(sections "Bitboard" and "AttackTables") over the fixed square encoding
sq = file * 9 + rank. -/

/-- File of a square (types.rs File::new). -/
def fileOf (sq : Nat) : Nat := sq / 9

/-- Rank of a square (types.rs Rank::new). -/
def rankOf (sq : Nat) : Nat := sq % 9

/-- Rank index seen from a color: for White the board is mirrored
(types.rs RankAsBlack conversions). -/
def rankAsBlack (us r : Nat) : Nat := if us = Color.BLACK then r else 8 - r

/-- Whether a rank lies in the opponent promotion zone of a color
(types.rs Rank::is_opponent_field): the three ranks nearest the
opponent's back rank. -/
def isOpponentField (us r : Nat) : Bool := rankAsBlack us r < 3

/-- Whether a rank is strictly in front (nearer the opponent's back rank)
of the given relative rank (types.rs Rank::is_in_front_of); the relative
rank RANKk is k - 1. -/
def isInFrontOf (us rab r : Nat) : Bool := rankAsBlack us r < rab

/-- Relative rank constant RANK1 (the opponent's back rank). -/
def RankAsBlack.RANK1 : Nat := 0

/-- Relative rank constant RANK2. -/
def RankAsBlack.RANK2 : Nat := 1

/-- Relative rank constant RANK3. -/
def RankAsBlack.RANK3 : Nat := 2

/-- Relative rank constant RANK4. -/
def RankAsBlack.RANK4 : Nat := 3

/-- Absolute rank of a relative rank for a color (types.rs
Rank::new_from_color_and_rank_as_black). -/
def rankFromRankAsBlack (us rab : Nat) : Nat :=
  if us = Color.BLACK then rab else 8 - rab

/-- All 81 board squares as a bitboard. -/
def Bitboard.ALL : Nat := 2 ^ 81 - 1

/-- Complement within the board (the spec's "complement-within-board"
negation of bitboard.rs). -/
def bbNot (bb : Nat) : Nat := Bitboard.ALL ^^^ (bb &&& Bitboard.ALL)

/-- Set squares of a bitboard in ascending order (bitboard iteration of
bitboard.rs; the spec fixes ascending order). -/
def bbSquares (bb : Nat) : List Nat := (List.range 81).filter (fun sq => bb.testBit sq)

/-- Number of set squares (bitboard.rs count_ones). -/
def bbCountOnes (bb : Nat) : Nat := (bbSquares bb).length

/-- Least set square (bitboard.rs lsb_unchecked; undefined on the empty
board, where 81 is returned here). -/
def bbLsb (bb : Nat) : Nat := (bbSquares bb).headD 81

/-- Emptiness test of a bitboard (bitboard.rs to_bool is nonemptiness). -/
def bbToBool (bb : Nat) : Bool := bb != 0

/-- Mask of one file. -/
def fileMask (f : Nat) : Nat :=
  (List.range 9).foldl (fun acc r => acc ||| squareMask (f * 9 + r)) 0

/-- Mask of one rank. -/
def rankMask (r : Nat) : Nat :=
  (List.range 9).foldl (fun acc f => acc ||| squareMask (f * 9 + r)) 0

/-- Opponent promotion-zone mask of a color (bitboard.rs
Bitboard::opponent_field_mask). -/
def opponentFieldMask (c : Nat) : Nat :=
  if c = Color.BLACK then rankMask 0 ||| rankMask 1 ||| rankMask 2
  else rankMask 6 ||| rankMask 7 ||| rankMask 8

/-- Forward rank direction of a color: Black moves toward rank 0. -/
def forwardDelta (c : Nat) : Int := if c = Color.BLACK then -1 else 1

/-- Union of the single-step targets of a list of (file, rank) offsets
that stay on the board. -/
def stepTargets (sq : Nat) (offs : List (Int × Int)) : Nat :=
  offs.foldl (fun acc off =>
    let f : Int := (fileOf sq : Nat) + off.1
    let r : Int := (rankOf sq : Nat) + off.2
    if 0 ≤ f ∧ f < 9 ∧ 0 ≤ r ∧ r < 9 then
      acc ||| squareMask (f.toNat * 9 + r.toNat)
    else acc) 0

/-- Ray walk: squares reachable from (f, r) in direction (df, dr) up to
and including the first occupied square. -/
def rayGo (occ : Nat) (df dr : Int) : Int → Int → Nat → Nat
  | _, _, 0 => 0
  | f, r, fuel + 1 =>
    let f2 := f + df
    let r2 := r + dr
    if 0 ≤ f2 ∧ f2 < 9 ∧ 0 ≤ r2 ∧ r2 < 9 then
      let sq2 := f2.toNat * 9 + r2.toNat
      if occ.testBit sq2 then squareMask sq2
      else squareMask sq2 ||| rayGo occ df dr f2 r2 fuel
    else 0

/-- Slider attack along one direction under an occupancy. -/
def rayAttack (sq : Nat) (df dr : Int) (occ : Nat) : Nat :=
  rayGo occ df dr (fileOf sq) (rankOf sq) 8

/-- King steps (AttackTables king). -/
def kingAttack (sq : Nat) : Nat :=
  stepTargets sq [(0, -1), (0, 1), (1, 0), (-1, 0), (1, 1), (1, -1), (-1, 1), (-1, -1)]

/-- Pawn step of a color (AttackTables pawn). -/
def pawnAttack (c sq : Nat) : Nat := stepTargets sq [(0, forwardDelta c)]

/-- Knight jumps of a color (AttackTables knight). -/
def knightAttack (c sq : Nat) : Nat :=
  stepTargets sq [(1, 2 * forwardDelta c), (-1, 2 * forwardDelta c)]

/-- Silver steps of a color (AttackTables silver): forward and the four
diagonals. -/
def silverAttack (c sq : Nat) : Nat :=
  stepTargets sq [(0, forwardDelta c), (1, -1), (-1, -1), (1, 1), (-1, 1)]

/-- Gold steps of a color (AttackTables gold): the king steps except the
two backward diagonals. -/
def goldAttack (c sq : Nat) : Nat :=
  stepTargets sq
    [(0, forwardDelta c), (1, forwardDelta c), (-1, forwardDelta c),
     (1, 0), (-1, 0), (0, -(forwardDelta c))]

/-- Lance reach of a color along its file under an occupancy
(AttackTables lance). -/
def lanceAttack (c sq : Nat) (occ : Nat) : Nat := rayAttack sq 0 (forwardDelta c) occ

/-- Bishop attack under an occupancy (AttackTables bishop). -/
def bishopAttack (sq occ : Nat) : Nat :=
  rayAttack sq 1 1 occ ||| rayAttack sq 1 (-1) occ
    ||| rayAttack sq (-1) 1 occ ||| rayAttack sq (-1) (-1) occ

/-- Rook attack under an occupancy (AttackTables rook). -/
def rookAttack (sq occ : Nat) : Nat :=
  rayAttack sq 0 1 occ ||| rayAttack sq 0 (-1) occ
    ||| rayAttack sq 1 0 occ ||| rayAttack sq (-1) 0 occ

/-- Bishop attack on the empty board (magic pseudo_attack). -/
def bishopPseudoAttack (sq : Nat) : Nat := bishopAttack sq 0

/-- Rook attack on the empty board (magic pseudo_attack). -/
def rookPseudoAttack (sq : Nat) : Nat := rookAttack sq 0

/-- Lance attack on the empty board (lance pseudo_attack). -/
def lancePseudoAttack (c sq : Nat) : Nat := lanceAttack c sq 0

/-- Attack dispatcher by piece type (bitboard.rs AttackTables::attack):
promoted minor pieces move as gold, horse and dragon add the king step. -/
def attackTable (pt c sq occ : Nat) : Nat :=
  if pt = PieceType.PAWN then pawnAttack c sq
  else if pt = PieceType.LANCE then lanceAttack c sq occ
  else if pt = PieceType.KNIGHT then knightAttack c sq
  else if pt = PieceType.SILVER then silverAttack c sq
  else if pt = PieceType.BISHOP then bishopAttack sq occ
  else if pt = PieceType.ROOK then rookAttack sq occ
  else if pt = PieceType.GOLD then goldAttack c sq
  else if pt = PieceType.KING then kingAttack sq
  else if pt = PieceType.PRO_PAWN then goldAttack c sq
  else if pt = PieceType.PRO_LANCE then goldAttack c sq
  else if pt = PieceType.PRO_KNIGHT then goldAttack c sq
  else if pt = PieceType.PRO_SILVER then goldAttack c sq
  else if pt = PieceType.HORSE then bishopAttack sq occ ||| kingAttack sq
  else if pt = PieceType.DRAGON then rookAttack sq occ ||| kingAttack sq
  else 0

/-- The eight queen directions. -/
def QUEEN_DIRS : List (Int × Int) :=
  [(0, -1), (0, 1), (1, 0), (-1, 0), (1, 1), (1, -1), (-1, 1), (-1, -1)]

/-- Walk from (f, r) in direction (df, dr) looking for square b; returns
the mask of squares strictly passed before reaching b. -/
def betweenInDir (b : Nat) (df dr : Int) : Int → Int → Nat → Option Nat
  | _, _, 0 => none
  | f, r, fuel + 1 =>
    let f2 := f + df
    let r2 := r + dr
    if 0 ≤ f2 ∧ f2 < 9 ∧ 0 ≤ r2 ∧ r2 < 9 then
      let sq2 := f2.toNat * 9 + r2.toNat
      if sq2 = b then some 0
      else
        match betweenInDir b df dr f2 r2 fuel with
        | some acc => some (acc ||| squareMask sq2)
        | none => none
    else none

/-- Squares strictly between two aligned squares, empty otherwise
(bitboard.rs Bitboard::between_mask). -/
def betweenMask (a b : Nat) : Nat :=
  QUEEN_DIRS.foldl (fun acc d =>
    match betweenInDir b d.1 d.2 (fileOf a) (rankOf a) 8 with
    | some m => acc ||| m
    | none => acc) 0

/-- The full queen line through two aligned squares, empty otherwise
(bitboard.rs Bitboard::line_mask). -/
def lineMask (a b : Nat) : Nat :=
  QUEEN_DIRS.foldl (fun acc d =>
    match betweenInDir b d.1 d.2 (fileOf a) (rankOf a) 8 with
    | some _ =>
      acc ||| squareMask a ||| rayAttack a d.1 d.2 0 ||| rayAttack a (-d.1) (-d.2) 0
    | none => acc) 0

/-- Modelled from the spec: the alignment predicate of bitboard.rs,
true iff the three squares are collinear and the third is not strictly
between the first two. -/
def is_aligned_and_sq2_is_not_between_sq0_and_sq1 (s0 s1 s2 : Nat) : Bool :=
  bbIsSet (lineMask s0 s1) s2 ∧ !bbIsSet (betweenMask s0 s1) s2

/-- Relation classifier of an ordered square pair (bitboard.rs
Relation::new); the tag names the direction of travel from the first
square to the second, rank 0 being north. -/
inductive Relation where
  | misc
  | fileNS
  | fileSN
  | rankEW
  | diag
deriving DecidableEq, Repr

/-- Relation of an ordered pair of squares. -/
def Relation.new (a b : Nat) : Relation :=
  let fa := fileOf a
  let ra := rankOf a
  let fb := fileOf b
  let rb := rankOf b
  if a = b then .misc
  else if fa = fb then (if ra < rb then .fileNS else .fileSN)
  else if ra = rb then .rankEW
  else if max fa fb - min fa fb = max ra rb - min ra rb then .diag
  else .misc

/-- Diagonal test of a relation (bitboard.rs Relation::is_diag). -/
def Relation.is_diag : Relation → Bool
  | .diag => true
  | _ => false

/-! Piece helpers, from types.rs (not among the sources; the promote and
demote operations are fixed by the spec: the promotion bit is bit 3). -/

/-- Promote a piece code (types.rs Piece::to_promote): set bit 3. -/
def Piece.to_promote (pc : Nat) : Nat := pc ||| Piece.PROMOTION

/-- Demote a piece code (types.rs Piece::to_demote): clear bit 3. -/
def Piece.to_demote (pc : Nat) : Nat := pc &&& 0b10111

/-- Whether a piece can promote (types.rs Piece::is_promotable): pawn,
lance, knight, silver, bishop or rook. -/
def Piece.is_promotable (pc : Nat) : Bool :=
  1 ≤ pieceTypeOf pc ∧ pieceTypeOf pc ≤ 6

/-- Whether a piece is a king (types.rs Piece::is_king). -/
def Piece.is_king (pc : Nat) : Bool := pieceTypeOf pc = PieceType.KING

/-- Promote a piece type (types.rs PieceType::to_promote). -/
def PieceType.to_promote (pt : Nat) : Nat := pt + 8

/-- Demote a promoted piece type, identity otherwise (types.rs
PieceType::to_demote_if_possible). -/
def PieceType.to_demote_if_possible (pt : Nat) : Nat :=
  if 9 ≤ pt ∧ pt ≤ 14 then pt - 8 else pt

/-! Piece values.  piecevalue.rs is not among the sources; modelled from
the spec ("material: cumulative piece value") with the standard apery
magnitudes.  No claim proved below depends on the numbers, except that
capture_piece_type_value of the king is zero, which position.rs itself
states in the comment inside see_ge. -/

/-- Modelled from the spec: piecevalue.rs piece_type_value. -/
def pieceTypeValue (pt : Nat) : Int :=
  if pt = PieceType.PAWN then 90
  else if pt = PieceType.LANCE then 315
  else if pt = PieceType.KNIGHT then 405
  else if pt = PieceType.SILVER then 495
  else if pt = PieceType.BISHOP then 855
  else if pt = PieceType.ROOK then 990
  else if pt = PieceType.GOLD then 540
  else if pt = PieceType.PRO_PAWN then 540
  else if pt = PieceType.PRO_LANCE then 540
  else if pt = PieceType.PRO_KNIGHT then 540
  else if pt = PieceType.PRO_SILVER then 540
  else if pt = PieceType.HORSE then 945
  else if pt = PieceType.DRAGON then 1395
  else 0

/-- Modelled from the spec: piecevalue.rs capture_piece_type_value; the
exchange value of capturing a piece of the type (zero for the king, as
the comment in Position::see_ge states). -/
def capturePieceTypeValue (pt : Nat) : Int :=
  if pt = PieceType.KING then 0
  else pieceTypeValue pt + pieceTypeValue (PieceType.to_demote_if_possible pt)

/-- Modelled from the spec: piecevalue.rs capture_piece_value. -/
def capturePieceValue (pc : Nat) : Int := capturePieceTypeValue (pieceTypeOf pc)

/-- Modelled from the spec: piecevalue.rs promote_piece_type_value; the
material gained by promoting a piece of the type. -/
def promotePieceTypeValue (pt : Nat) : Int :=
  pieceTypeValue (PieceType.to_promote pt) - pieceTypeValue pt

/-! Attackers, from position.rs (PositionBase::attackers_to and its
variants): a piece of the attacking color attacks the square iff the
square is reachable by the inverse-color attack from the target. -/

/-- Union of two type bitboards (position.rs PositionBase::pieces_pp). -/
def PositionBase.pieces_pp (pos : PositionBase) (pt0 pt1 : Nat) : Nat :=
  pos.pieces_p pt0 ||| pos.pieces_p pt1

/-- Union of three type bitboards (position.rs
PositionBase::pieces_ppp). -/
def PositionBase.pieces_ppp (pos : PositionBase) (pt0 pt1 pt2 : Nat) : Nat :=
  pos.pieces_pp pt0 pt1 ||| pos.pieces_p pt2

/-- Color-restricted union of three type bitboards (position.rs
PositionBase::pieces_cppp). -/
def PositionBase.pieces_cppp (pos : PositionBase) (c pt0 pt1 pt2 : Nat) : Nat :=
  pos.pieces_c c &&& pos.pieces_ppp pt0 pt1 pt2

/-- Color-restricted union of four type bitboards (position.rs
PositionBase::pieces_cpppp). -/
def PositionBase.pieces_cpppp (pos : PositionBase) (c pt0 pt1 pt2 pt3 : Nat) : Nat :=
  pos.pieces_c c &&& (pos.pieces_ppp pt0 pt1 pt2 ||| pos.pieces_p pt3)

/-- Empty-square bitboard (position.rs PositionBase::empty_bb). -/
def PositionBase.empty_bb (pos : PositionBase) : Nat :=
  Bitboard.ALL &&& bbNot pos.occupied_bb

/-- Attackers of a color to a square under an occupancy (position.rs
PositionBase::attackers_to). -/
def PositionBase.attackers_to (pos : PositionBase) (c to_ occupied : Nat) : Nat :=
  let opp := colorInverse c
  let golds := pos.pieces_golds
  ((pawnAttack opp to_ &&& pos.pieces_p PieceType.PAWN)
    ||| (lanceAttack opp to_ occupied &&& pos.pieces_p PieceType.LANCE)
    ||| (knightAttack opp to_ &&& pos.pieces_p PieceType.KNIGHT)
    ||| (silverAttack opp to_
      &&& pos.pieces_ppp PieceType.SILVER PieceType.KING PieceType.DRAGON)
    ||| (goldAttack opp to_
      &&& (golds ||| pos.pieces_pp PieceType.KING PieceType.HORSE))
    ||| (bishopAttack to_ occupied
      &&& pos.pieces_pp PieceType.BISHOP PieceType.HORSE)
    ||| (rookAttack to_ occupied
      &&& pos.pieces_pp PieceType.ROOK PieceType.DRAGON))
    &&& pos.pieces_c c

/-- Attackers excluding the king (position.rs
PositionBase::attackers_to_except_king). -/
def PositionBase.attackers_to_except_king (pos : PositionBase) (c to_ occupied : Nat) : Nat :=
  let opp := colorInverse c
  let golds := pos.pieces_golds
  ((pawnAttack opp to_ &&& pos.pieces_p PieceType.PAWN)
    ||| (lanceAttack opp to_ occupied &&& pos.pieces_p PieceType.LANCE)
    ||| (knightAttack opp to_ &&& pos.pieces_p PieceType.KNIGHT)
    ||| (silverAttack opp to_ &&& pos.pieces_pp PieceType.SILVER PieceType.DRAGON)
    ||| (goldAttack opp to_ &&& (golds ||| pos.pieces_p PieceType.HORSE))
    ||| (bishopAttack to_ occupied
      &&& pos.pieces_pp PieceType.BISHOP PieceType.HORSE)
    ||| (rookAttack to_ occupied
      &&& pos.pieces_pp PieceType.ROOK PieceType.DRAGON))
    &&& pos.pieces_c c

/-- Attackers excluding king, lance and pawn (position.rs
PositionBase::attackers_to_except_king_lance_pawn). -/
def PositionBase.attackers_to_except_king_lance_pawn
    (pos : PositionBase) (c to_ occupied : Nat) : Nat :=
  let opp := colorInverse c
  let golds := pos.pieces_golds
  ((knightAttack opp to_ &&& pos.pieces_p PieceType.KNIGHT)
    ||| (silverAttack opp to_ &&& pos.pieces_pp PieceType.SILVER PieceType.DRAGON)
    ||| (goldAttack opp to_ &&& (golds ||| pos.pieces_p PieceType.HORSE))
    ||| (bishopAttack to_ occupied
      &&& pos.pieces_pp PieceType.BISHOP PieceType.HORSE)
    ||| (rookAttack to_ occupied
      &&& pos.pieces_pp PieceType.ROOK PieceType.DRAGON))
    &&& pos.pieces_c c

/-- Attackers of both colors (position.rs
PositionBase::attackers_to_both_color). -/
def PositionBase.attackers_to_both_color (pos : PositionBase) (to_ occupied : Nat) : Nat :=
  let golds := pos.pieces_golds
  (((pawnAttack Color.BLACK to_ &&& pos.pieces_p PieceType.PAWN)
      ||| (lanceAttack Color.BLACK to_ occupied &&& pos.pieces_p PieceType.LANCE)
      ||| (knightAttack Color.BLACK to_ &&& pos.pieces_p PieceType.KNIGHT)
      ||| (silverAttack Color.BLACK to_ &&& pos.pieces_p PieceType.SILVER)
      ||| (goldAttack Color.BLACK to_ &&& golds))
    &&& pos.pieces_c Color.WHITE)
  ||| (((pawnAttack Color.WHITE to_ &&& pos.pieces_p PieceType.PAWN)
      ||| (lanceAttack Color.WHITE to_ occupied &&& pos.pieces_p PieceType.LANCE)
      ||| (knightAttack Color.WHITE to_ &&& pos.pieces_p PieceType.KNIGHT)
      ||| (silverAttack Color.WHITE to_ &&& pos.pieces_p PieceType.SILVER)
      ||| (goldAttack Color.WHITE to_ &&& golds))
    &&& pos.pieces_c Color.BLACK)
  ||| (bishopAttack to_ occupied &&& pos.pieces_pp PieceType.BISHOP PieceType.HORSE)
  ||| (rookAttack to_ occupied &&& pos.pieces_pp PieceType.ROOK PieceType.DRAGON)
  ||| (kingAttack to_
    &&& pos.pieces_ppp PieceType.KING PieceType.HORSE PieceType.DRAGON)

/-- Blockers and pinners against a target square (position.rs
PositionBase::slider_blockers_and_pinners): walk each sniper ray and mark
the single interposed piece, of either color, as a blocker, and the
sniper as a pinner when the blocker belongs to the target's side. -/
def PositionBase.slider_blockers_and_pinners
    (pos : PositionBase) (sliders : Nat) (colorOfSliders sq : Nat) : Nat × Nat :=
  let oppOfSliders := colorInverse colorOfSliders
  let snipers :=
    ((lancePseudoAttack oppOfSliders sq &&& pos.pieces_p PieceType.LANCE)
      ||| (bishopPseudoAttack sq &&& pos.pieces_pp PieceType.BISHOP PieceType.HORSE)
      ||| (rookPseudoAttack sq &&& pos.pieces_pp PieceType.ROOK PieceType.DRAGON))
      &&& sliders
  (bbSquares snipers).foldl (fun acc sqOfSniper =>
    let pseudoBlockers := betweenMask sq sqOfSniper &&& pos.occupied_bb
    if bbCountOnes pseudoBlockers = 1 then
      let blockers := acc.1 ||| pseudoBlockers
      let pinners :=
        if bbToBool (pseudoBlockers &&& pos.pieces_c (colorOf (pos.piece_on sq))) then
          acc.2 ||| squareMask sqOfSniper
        else acc.2
      (blockers, pinners)
    else acc) (0, 0)

/-! The lance move generator, from movegen.rs
MoveList::generate_for_lance.  The moves pushed into the MoveList buffer
become a list of raw move values in push order; the ALLOW_CAPTURES
constant of the AllowMovesTrait parameter becomes a boolean argument. -/

/-- Lance move generation (movegen.rs MoveList::generate_for_lance):
for each own lance, intersect its reach with the target; a destination in
the opponent field yields the promotion move, plus the unpromote move
only for a capture onto relative rank 3 when captures are allowed; other
destinations yield the unpromote move. -/
def generate_for_lance (pos : PositionBase) (allowCaptures : Bool) (target : Nat) :
    List Nat :=
  let us := pos.sideToMove
  (bbSquares (pos.pieces_cp us PieceType.LANCE)).flatMap (fun from_ =>
    let toBB := lanceAttack us from_ pos.occupied_bb &&& target
    let pc := pos.piece_on from_
    (bbSquares toBB).flatMap (fun t =>
      if isOpponentField us (rankOf t) then
        Move.new_promote from_ t pc ::
          (if allowCaptures ∧ rankOf t = rankFromRankAsBlack us RankAsBlack.RANK3
              ∧ pos.piece_on t ≠ Piece.EMPTY then
            [Move.new_unpromote from_ t pc]
          else [])
      else [Move.new_unpromote from_ t pc]))

/-- A small position for exercising the lance generator: a black lance on
square 4 (file 1, rank e), a white pawn on square 2 (file 1, rank c),
Black to move. -/
def lanceTestPos : PositionBase :=
  let pos : PositionBase :=
    { board := fun _ => Piece.EMPTY, byTypeBB := fun _ => 0,
      byColorBB := fun _ => 0, goldsBB := 0, hands := fun _ => Hand.zero,
      gamePly := 1, kingSquares := fun _ => 0, sideToMove := Color.BLACK }
  (pos.put_piece 2 4).put_piece Piece.W_PAWN 2

/-! Zobrist hashing, from position.rs.  The table entries are drawn from a
seeded PRNG (the rand crate, outside the sources), so the development is
parametric in the two key tables; what position.rs itself fixes is the
side-to-move key COLOR = 1 and that every generated entry is a random
u64 with its lowest bit cleared. -/

/-- The two Zobrist key tables (position.rs struct Zobrist): per
(piece type, square, color) and per (piece type, hand count, color). -/
structure ZTab where
  field : Nat → Nat → Nat → Nat
  handK : Nat → Nat → Nat → Nat

/-- Side-to-move flip key (position.rs Zobrist::COLOR). -/
def Zobrist.COLOR : Nat := 1

/-- Generation of one Zobrist table entry from a PRNG draw r < 2^64
(position.rs: rng.gen::<u64>() & !1_u64). -/
def genZobristEntry (r : Nat) : Nat := r &&& (2 ^ 64 - 2)

/-- Check info, from position.rs struct CheckInfo: blockers and pinners
per king color and check-giving squares per piece type. -/
structure CheckInfo where
  blockersAndPinners : Nat → Nat × Nat
  checkSquares : Nat → Nat

/-- Zeroed check info (position.rs CheckInfo::ZERO). -/
def CheckInfo.ZERO : CheckInfo := ⟨fun _ => (0, 0), fun _ => 0⟩

/-- Check info of a position (position.rs CheckInfo::new). -/
def CheckInfo.new (pos : PositionBase) : CheckInfo :=
  let us := pos.sideToMove
  let them := colorInverse us
  let ksq := pos.king_square them
  let bishopCheckSquares := bishopAttack ksq pos.occupied_bb
  let rookCheckSquares := rookAttack ksq pos.occupied_bb
  let goldCheckSquares := goldAttack them ksq
  { blockersAndPinners := fun c =>
      if c = Color.BLACK then
        pos.slider_blockers_and_pinners (pos.pieces_c Color.WHITE) Color.WHITE
          (pos.king_square Color.BLACK)
      else
        pos.slider_blockers_and_pinners (pos.pieces_c Color.BLACK) Color.BLACK
          (pos.king_square Color.WHITE)
    checkSquares := fun pt =>
      if pt = PieceType.PAWN then pawnAttack them ksq
      else if pt = PieceType.LANCE then lanceAttack them ksq pos.occupied_bb
      else if pt = PieceType.KNIGHT then knightAttack them ksq
      else if pt = PieceType.SILVER then silverAttack them ksq
      else if pt = PieceType.BISHOP then bishopCheckSquares
      else if pt = PieceType.ROOK then rookCheckSquares
      else if pt = PieceType.GOLD then goldCheckSquares
      else if pt = PieceType.PRO_PAWN then goldCheckSquares
      else if pt = PieceType.PRO_LANCE then goldCheckSquares
      else if pt = PieceType.PRO_KNIGHT then goldCheckSquares
      else if pt = PieceType.PRO_SILVER then goldCheckSquares
      else if pt = PieceType.HORSE then bishopCheckSquares ||| kingAttack ksq
      else if pt = PieceType.DRAGON then rookCheckSquares ||| kingAttack ksq
      else 0 }

/-- Blockers for a king color (position.rs CheckInfo::blockers_for_king). -/
def CheckInfo.blockers_for_king (ci : CheckInfo) (colorOfKing : Nat) : Nat :=
  (ci.blockersAndPinners colorOfKing).1

/-- Pinners for a king color (position.rs CheckInfo::pinners_for_king). -/
def CheckInfo.pinners_for_king (ci : CheckInfo) (colorOfKing : Nat) : Nat :=
  (ci.blockersAndPinners colorOfKing).2

/-- Per-ply incremental state, from position.rs struct StateInfo.  The
changed_eval_index fields feed the external evaluator (evaluate.rs,
outside the sources and outside every claim) and are not modelled. -/
structure StateInfo where
  material : Int
  pliesFromNull : Nat
  continuousChecks : Nat → Nat
  boardKey : Nat
  handKey : Nat
  handOfSideToMove : Hand
  checkersBB : Nat
  capturedPiece : Nat
  checkInfo : CheckInfo

/-- Zeroed state (position.rs StateInfo::ZERO). -/
def StateInfo.ZERO : StateInfo :=
  { material := 0, pliesFromNull := 0, continuousChecks := fun _ => 0,
    boardKey := 0, handKey := 0, handOfSideToMove := Hand.zero,
    checkersBB := 0, capturedPiece := Piece.EMPTY, checkInfo := CheckInfo.ZERO }

/-- Full Zobrist key of a state (position.rs StateInfo::key):
board key xor hand key. -/
def StateInfo.key (st : StateInfo) : Nat := st.boardKey ^^^ st.handKey

/-- Material count of a position from scratch (position.rs
StateInfo::new_material). -/
def StateInfo.new_material (pos : PositionBase) : Int :=
  ([PieceType.PAWN, PieceType.LANCE, PieceType.KNIGHT, PieceType.SILVER,
    PieceType.BISHOP, PieceType.ROOK, PieceType.GOLD, PieceType.PRO_PAWN,
    PieceType.PRO_LANCE, PieceType.PRO_KNIGHT, PieceType.PRO_SILVER,
    PieceType.HORSE, PieceType.DRAGON].map (fun pt =>
      ((bbCountOnes (pos.pieces_cp Color.BLACK pt) : Int)
        - (bbCountOnes (pos.pieces_cp Color.WHITE pt) : Int))
        * pieceTypeValue pt)).sum
  + (PieceType.ALL_HAND.map (fun pt =>
      (((pos.hand Color.BLACK).num pt : Int) - ((pos.hand Color.WHITE).num pt : Int))
        * pieceTypeValue pt)).sum

/-- Board Zobrist key from scratch (position.rs StateInfo::new_board_key):
xor of the field keys of all occupied squares, and the COLOR bit when
White is to move. -/
def StateInfo.new_board_key (zt : ZTab) (pos : PositionBase) : Nat :=
  let key := (bbSquares pos.occupied_bb).foldl (fun key sq =>
    let pc := pos.piece_on sq
    key ^^^ zt.field (pieceTypeOf pc) sq (colorOf pc)) 0
  if pos.sideToMove = Color.WHITE then key ^^^ Zobrist.COLOR else key

/-- Hand Zobrist key from scratch (position.rs StateInfo::new_hand_key). -/
def StateInfo.new_hand_key (zt : ZTab) (pos : PositionBase) : Nat :=
  PieceType.ALL_HAND.foldl (fun key pt =>
    [Color.BLACK, Color.WHITE].foldl (fun key c =>
      (List.range ((pos.hand c).num pt)).foldl (fun key i =>
        key ^^^ zt.handK pt (i + 1) c) key) key) 0

/-- State of a freshly constructed position (position.rs
StateInfo::new_from_position). -/
def StateInfo.new_from_position (zt : ZTab) (pos : PositionBase) : StateInfo :=
  let us := pos.sideToMove
  let them := colorInverse us
  let kingSq := pos.king_square us
  { material := StateInfo.new_material pos
    pliesFromNull := 0
    continuousChecks := fun _ => 0
    boardKey := StateInfo.new_board_key zt pos
    handKey := StateInfo.new_hand_key zt pos
    handOfSideToMove := pos.hand us
    checkersBB := pos.attackers_to_except_king them kingSq pos.occupied_bb
    capturedPiece := Piece.EMPTY
    checkInfo := CheckInfo.new pos }

/-- Position, from position.rs struct Position: the base state and the
state stack, the head of the list being the top (most recent) state.
The evaluation-feature list and its index (eval_list,
eval_index_to_eval_list_index) feed the external evaluator and are
outside every claim; the shared node counter is a concurrency artifact;
none of the three is modelled. -/
structure Position where
  base : PositionBase
  states : List StateInfo

/-- Top of the state stack (position.rs Position::st). -/
def Position.st (pos : Position) : StateInfo := pos.states.headD StateInfo.ZERO

/-- Current full key (position.rs Position::key). -/
def Position.key (pos : Position) : Nat := pos.st.key

/-- Checkers of the side to move (position.rs Position::checkers). -/
def Position.checkers (pos : Position) : Nat := pos.st.checkersBB

/-- Check test (position.rs Position::in_check). -/
def Position.in_check (pos : Position) : Bool := bbToBool pos.checkers

/-- Blockers for a king color from the top state (position.rs
Position::blockers_for_king). -/
def Position.blockers_for_king (pos : Position) (c : Nat) : Nat :=
  pos.st.checkInfo.blockers_for_king c

/-- Pinners for a king color from the top state (position.rs
Position::pinners_for_king). -/
def Position.pinners_for_king (pos : Position) (c : Nat) : Nat :=
  pos.st.checkInfo.pinners_for_king c

/-- Repetition classification results (position.rs enum Repetition). -/
inductive Repetition where
  | Not
  | Draw
  | Win
  | Lose
  | Superior
  | Inferior
deriving DecidableEq, Repr

/-- The repetition walk (the for loop of position.rs
Position::is_repetition): i is the even distance back from the top of the
stack, end_ the window bound; the state at distance i is the stack entry
the source reads at state_index.  The fuel bounds the at most seven
iterations (i = 4, 6, ..., 16). -/
def repLoop (pos : Position) (end_ : Nat) : Nat → Nat → Repetition
  | _, 0 => Repetition.Not
  | i, fuel + 1 =>
    if end_ < i then Repetition.Not
    else
      if Position.key pos = (pos.states.getD i StateInfo.ZERO).key then
        if i ≤ pos.st.continuousChecks pos.base.sideToMove then Repetition.Lose
        else if i ≤ pos.st.continuousChecks (colorInverse pos.base.sideToMove) then
          Repetition.Win
        else Repetition.Draw
      else if pos.st.boardKey = (pos.states.getD i StateInfo.ZERO).boardKey then
        if pos.st.handOfSideToMove.is_equal_or_superior
            (pos.states.getD i StateInfo.ZERO).handOfSideToMove then
          Repetition.Superior
        else if (pos.states.getD i StateInfo.ZERO).handOfSideToMove.is_equal_or_superior
            pos.st.handOfSideToMove then
          Repetition.Inferior
        else repLoop pos end_ (i + 2) fuel
      else repLoop pos end_ (i + 2) fuel

/-- Repetition classification (position.rs Position::is_repetition):
window of at most 16 half-moves, capped by plies_from_null; a repetition
needs at least 4 half-moves. -/
def Position.is_repetition (pos : Position) : Repetition :=
  let end_ := min 16 pos.st.pliesFromNull
  if end_ < 4 then Repetition.Not
  else repLoop pos end_ 4 8

/-- The classification the loop body of is_repetition gives to the
candidate state at distance i, none when the walk continues past it. -/
def classifyAt (pos : Position) (i : Nat) : Option Repetition :=
  if Position.key pos = (pos.states.getD i StateInfo.ZERO).key then
    some (if i ≤ pos.st.continuousChecks pos.base.sideToMove then Repetition.Lose
      else if i ≤ pos.st.continuousChecks (colorInverse pos.base.sideToMove) then
        Repetition.Win
      else Repetition.Draw)
  else if pos.st.boardKey = (pos.states.getD i StateInfo.ZERO).boardKey then
    if pos.st.handOfSideToMove.is_equal_or_superior
        (pos.states.getD i StateInfo.ZERO).handOfSideToMove then
      some Repetition.Superior
    else if (pos.states.getD i StateInfo.ZERO).handOfSideToMove.is_equal_or_superior
        pos.st.handOfSideToMove then
      some Repetition.Inferior
    else none
  else none

/-- An empty position base for building small test positions. -/
def emptyPosBase : PositionBase :=
  { board := fun _ => Piece.EMPTY, byTypeBB := fun _ => 0,
    byColorBB := fun _ => 0, goldsBB := 0, hands := fun _ => Hand.zero,
    gamePly := 1, kingSquares := fun _ => 0, sideToMove := Color.BLACK }

/-- A five-ply stack whose state four half-moves back repeats the current
full key, with no continuous checks: the loop classifies it as Draw. -/
def c8Pos : Position :=
  { base := emptyPosBase
    states :=
      [{ StateInfo.ZERO with pliesFromNull := 4, boardKey := 10, handKey := 20 },
       { StateInfo.ZERO with boardKey := 99 },
       { StateInfo.ZERO with boardKey := 98 },
       { StateInfo.ZERO with boardKey := 97 },
       { StateInfo.ZERO with boardKey := 10, handKey := 20 }] }

/-- Drop-pawn-mate test (position.rs Position::is_drop_pawn_mate),
presuming a pawn of the color dropped on the square would check the enemy
king directly: mate unless the pawn is undefended, or a non-king,
non-lance, non-pawn defender not blocked by a pin off the pawn's file can
capture it, or the king has an escape square our attackers do not cover
once the pawn is added to the occupancy. -/
def Position.is_drop_pawn_mate (pos : Position) (colorOfPawn sqOfPawn : Nat) : Bool :=
  if !bbToBool (pos.base.attackers_to colorOfPawn sqOfPawn pos.base.occupied_bb) then
    false
  else
    let colorOfDifence := colorInverse colorOfPawn
    let captureCandidates := pos.base.attackers_to_except_king_lance_pawn
      colorOfDifence sqOfPawn pos.base.occupied_bb
    let pawnFile := fileOf sqOfPawn
    let pinned := pos.blockers_for_king colorOfDifence
    let notPinnedForPawnCapture := bbNot pinned ||| fileMask pawnFile
    let canCaptures := captureCandidates &&& notPinnedForPawnCapture
    if bbToBool canCaptures then false
    else
      let ksq := pos.base.king_square colorOfDifence
      let kingEscapeCandidates :=
        (kingAttack ksq &&& bbNot (pos.base.pieces_c colorOfDifence))
          ^^^ squareMask sqOfPawn
      let occupiedAfterDropPawn := pos.base.occupied_bb ^^^ squareMask sqOfPawn
      (bbSquares kingEscapeCandidates).all (fun t =>
        bbToBool (pos.base.attackers_to colorOfPawn t occupiedAfterDropPawn))

/-- The drop-pawn-mate scenario of the spec (sfen kl7/1n7/K8/9/9/9/9/9/9
b P 1): White king on square 72, white lance on 63, white knight on 64,
Black king on 74; the black pawn dropped on square 73 mates. -/
def c7Base : PositionBase :=
  let base := { emptyPosBase with
    kingSquares := fun c => if c = Color.BLACK then 74 else 72 }
  (((base.put_piece Piece.W_KING 72).put_piece 18 63).put_piece 19 64).put_piece
    Piece.B_KING 74

/-- The c7Base position with its top state's check info computed. -/
def c7Pos : Position :=
  { base := c7Base
    states := [{ StateInfo.ZERO with checkInfo := CheckInfo.new c7Base }] }

/-- Move accessor: capture test against the current board (movegen.rs
Move::is_capture). -/
def Move.is_capture (pos : Position) (m : Nat) : Bool :=
  pos.base.piece_on (Move.to_ m) != Piece.EMPTY

/-- Structural pseudo-legality of a move on the current position
(position.rs Position::pseudo_legal); isSearching selects the
SearchingType / NotSearchingType variant.  Drops need the mover's color
and a piece in hand, an empty destination, the evasion constraint, and
for pawns the two-pawn and drop-pawn-mate rules; board moves need the
moved piece on the from-square, a non-own destination reachable under the
occupancy, a promotion flag consistent with zone and promotability,
non-promotions forbidden where the piece could not move again (tightened
during search), and the evasion constraint. -/
def Position.pseudo_legal (pos : Position) (isSearching : Bool) (m : Nat) : Bool :=
  let us := pos.base.sideToMove
  if Move.is_drop m then
    let pcDropped := Move.piece_dropped m
    if colorOf pcDropped ≠ us then false
    else
      let ptDropped := pieceTypeOf pcDropped
      if !(pos.base.hand us).exist ptDropped then false
      else
        let to_ := Move.to_ m
        if pos.base.piece_on to_ ≠ Piece.EMPTY then false
        else
          let checkers := pos.checkers
          let evasionOk : Bool :=
            if bbCountOnes checkers = 0 then true
            else if bbCountOnes checkers = 1 then
              bbIsSet (betweenMask (bbLsb checkers) (pos.base.king_square us)) to_
            else false
          if !evasionOk then false
          else if ptDropped = PieceType.PAWN then
            if bbToBool (pos.base.pieces_cp us PieceType.PAWN
                &&& fileMask (fileOf to_)) then false
            else
              let delta : Int := if us = Color.BLACK then -1 else 1
              let them := colorInverse us
              if (to_ : Int) + delta = (pos.base.king_square them : Int)
                  ∧ pos.is_drop_pawn_mate us to_ then false
              else true
          else true
  else
    let from_ := Move.from_ m
    let pcFrom := pos.base.piece_on from_
    if pcFrom = Piece.EMPTY ∨ pcFrom ≠ Move.piece_moved_before_move m
        ∨ colorOf pcFrom ≠ us then false
    else
      let to_ := Move.to_ m
      if bbIsSet (pos.base.pieces_c us) to_ then false
      else
        let ptFrom := pieceTypeOf pcFrom
        if !bbIsSet (attackTable ptFrom us from_ pos.base.occupied_bb) to_ then false
        else
          let promoOk : Bool :=
            if Move.is_promotion m then
              if !Piece.is_promotable pcFrom then false
              else if isSearching then true
              else if ¬ isOpponentField us (rankOf from_)
                  ∧ ¬ isOpponentField us (rankOf to_) then false
              else true
            else
              if ptFrom = PieceType.PAWN then
                if isSearching then !isOpponentField us (rankOf to_)
                else !isInFrontOf us RankAsBlack.RANK2 (rankOf to_)
              else if ptFrom = PieceType.LANCE then
                if isSearching then
                  !(isInFrontOf us RankAsBlack.RANK3 (rankOf to_)
                    ∨ (isInFrontOf us RankAsBlack.RANK4 (rankOf to_)
                      ∧ !Move.is_capture pos m))
                else !isInFrontOf us RankAsBlack.RANK2 (rankOf to_)
              else if ptFrom = PieceType.KNIGHT then
                !isInFrontOf us RankAsBlack.RANK3 (rankOf to_)
              else if ptFrom = PieceType.BISHOP ∨ ptFrom = PieceType.ROOK then
                !(isSearching ∧ (isOpponentField us (rankOf from_)
                  ∨ isOpponentField us (rankOf to_)))
              else true
          if !promoOk then false
          else
            let checkers := pos.checkers
            if bbToBool checkers then
              if ptFrom = PieceType.KING then
                !bbToBool (pos.base.attackers_to (colorInverse us) to_
                  (pos.base.occupied_bb ^^^ squareMask from_))
              else if bbCountOnes checkers = 1 then
                bbIsSet (betweenMask (bbLsb checkers) (pos.base.king_square us)
                  ||| checkers) to_
              else false
            else true

/-- Full legality of a pseudo-legal move (position.rs Position::legal):
drops are always legal; a king move must not step into an attacked
square; any other mover must not be a blocker for the own king, or must
stay on the pin ray. -/
def Position.legal (pos : Position) (m : Nat) : Bool :=
  if Move.is_drop m then true
  else
    let from_ := Move.from_ m
    let us := pos.base.sideToMove
    if pieceTypeOf (pos.base.piece_on from_) = PieceType.KING then
      !bbToBool (pos.base.attackers_to (colorInverse us) (Move.to_ m)
        (pos.base.occupied_bb ^^^ squareMask from_))
    else
      !bbIsSet (pos.blockers_for_king us) from_
        || is_aligned_and_sq2_is_not_between_sq0_and_sq1 from_ (Move.to_ m)
          (pos.base.king_square us)

/-- Drop emission for a possession prefix and a target band (movegen.rs
MoveList::generate_drop_for_possessions). -/
def generate_drop_for_possessions (possessions : List Nat) (toBB : Nat) : List Nat :=
  (bbSquares toBB).flatMap (fun t => possessions.map (fun pc => Move.new_drop pc t))

/-- Drop move generation (movegen.rs MoveList::generate_drop): pawn drops
onto the target minus the last rank, files already holding an own pawn,
and the single drop-pawn-mate square; the other hand pieces are emitted
with the last rank restricted to silver/gold/bishop/rook, the
second-to-last adding the lance, and the rest adding the knight. -/
def MoveList.generate_drop (pos : Position) (target : Nat) : List Nat :=
  let us := pos.base.sideToMove
  let hand := pos.base.hand us
  let pawnMoves :=
    if hand.exist PieceType.PAWN then
      let rank := rankFromRankAsBlack us RankAsBlack.RANK1
      let toBB0 := target &&& bbNot (rankMask rank)
      let pawnsBB := pos.base.pieces_cp us PieceType.PAWN
      let toBB1 := (bbSquares pawnsBB).foldl (fun toBB pawnSq =>
        toBB &&& bbNot (fileMask (fileOf pawnSq))) toBB0
      let them := colorInverse us
      let ksq := pos.base.king_square them
      let dropPawnCheckBB := pawnAttack them ksq
      let toBB2 :=
        if bbToBool (dropPawnCheckBB &&& toBB1) then
          let t := bbLsb dropPawnCheckBB
          if pos.is_drop_pawn_mate us t then toBB1 ^^^ squareMask t else toBB1
        else toBB1
      let piecePawn := Piece.new us PieceType.PAWN
      (bbSquares toBB2).map (fun t => Move.new_drop piecePawn t)
    else []
  let otherMoves :=
    if hand.except_pawn_exist then
      let possessionsSgbr :=
        (if hand.exist PieceType.ROOK then [Piece.new us PieceType.ROOK] else [])
          ++ (if hand.exist PieceType.BISHOP then [Piece.new us PieceType.BISHOP] else [])
          ++ (if hand.exist PieceType.GOLD then [Piece.new us PieceType.GOLD] else [])
          ++ (if hand.exist PieceType.SILVER then [Piece.new us PieceType.SILVER] else [])
      let possessionsSgbrl := possessionsSgbr
        ++ (if hand.exist PieceType.LANCE then [Piece.new us PieceType.LANCE] else [])
      let possessionsAll := possessionsSgbrl
        ++ (if hand.exist PieceType.KNIGHT then [Piece.new us PieceType.KNIGHT] else [])
      let mask1 := rankMask (rankFromRankAsBlack us RankAsBlack.RANK1)
      let mask2 := rankMask (rankFromRankAsBlack us RankAsBlack.RANK2)
      generate_drop_for_possessions possessionsSgbr (target &&& mask1)
        ++ generate_drop_for_possessions possessionsSgbrl (target &&& mask2)
        ++ generate_drop_for_possessions possessionsAll
          (target &&& bbNot (mask1 ||| mask2))
    else []
  pawnMoves ++ otherMoves

/-- USI move acceptance (movegen.rs Move::new_from_usi_str): the parsed
move value, kept only when pseudo-legal (NotSearchingType) and legal. -/
def Move.new_from_usi_str (s : String) (pos : Position) : Option Nat :=
  match usiMoveBeforeValidation s pos.base.sideToMove pos.base.piece_on with
  | none => none
  | some m =>
    if !pos.pseudo_legal false m || !pos.legal m then none else some m

/-- A position for the knight-drop claim: Black king on square 80, White
king on square 72, Black holding one knight; square 0 (the opponent back
rank) is empty and Black is not in check. -/
def c10Base : PositionBase :=
  let base := { emptyPosBase with
    kingSquares := fun c => if c = Color.BLACK then 80 else 72
    hands := fun c => if c = Color.BLACK then { Hand.zero with knight := 1 }
      else Hand.zero }
  (base.put_piece Piece.B_KING 80).put_piece Piece.W_KING 72

/-- A trivial Zobrist table for building concrete states. -/
def zTab0 : ZTab := ⟨fun _ _ _ => 0, fun _ _ _ => 0⟩

/-- The c10Base position with its constructed top state. -/
def c10Pos : Position :=
  { base := c10Base, states := [StateInfo.new_from_position zTab0 c10Base] }

/-! Static exchange evaluation, from position.rs (Position::min_attacker
and Position::see_ge). -/

/-- The piece-type probe order of position.rs Position::min_attacker. -/
def minAttackerOrder : List Nat :=
  [PieceType.PAWN, PieceType.LANCE, PieceType.KNIGHT, PieceType.PRO_PAWN,
   PieceType.PRO_LANCE, PieceType.PRO_KNIGHT, PieceType.SILVER,
   PieceType.PRO_SILVER, PieceType.GOLD, PieceType.BISHOP, PieceType.HORSE,
   PieceType.ROOK, PieceType.DRAGON]

/-- Cheapest-attacker extraction (position.rs Position::min_attacker):
probe the piece types in value order inside the mover's attackers; when
none is found report the king with the boards unchanged; otherwise clear
the least set square of the cheapest kind from the occupancy, add the
x-ray attackers revealed behind it along the ray through the target,
intersect the attackers with the occupancy, and report the type of the
piece on the cleared square.  Returns (piece type, occupied, attackers). -/
def PositionBase.min_attacker (pos : PositionBase) (to_ stmAttackers occupied attackers : Nat) :
    Nat × Nat × Nat :=
  match minAttackerOrder.find? (fun pt => bbToBool (stmAttackers &&& pos.pieces_p pt)) with
  | none => (PieceType.KING, occupied, attackers)
  | some pt =>
    let b := stmAttackers &&& pos.pieces_p pt
    let sq := bbLsb b
    let occupied2 := occupied ^^^ squareMask sq
    let xray :=
      match Relation.new sq to_ with
      | Relation.misc => 0
      | Relation.fileNS =>
        lanceAttack Color.BLACK to_ occupied2
          &&& pos.pieces_cppp Color.WHITE PieceType.ROOK PieceType.DRAGON PieceType.LANCE
      | Relation.fileSN =>
        lanceAttack Color.WHITE to_ occupied2
          &&& pos.pieces_cppp Color.BLACK PieceType.ROOK PieceType.DRAGON PieceType.LANCE
      | Relation.rankEW =>
        rookAttack to_ occupied2 &&& pos.pieces_pp PieceType.ROOK PieceType.DRAGON
      | Relation.diag =>
        bishopAttack to_ occupied2 &&& pos.pieces_pp PieceType.BISHOP PieceType.HORSE
    let attackers2 := (attackers ||| xray) &&& occupied2
    (pieceTypeOf (pos.piece_on sq), occupied2, attackers2)

/-- The exchange loop of position.rs Position::see_ge, returning the final
side to move.  Each iteration either breaks or removes one piece from the
occupancy, so fuel 82 covers a whole board; the mover's attackers are
filtered against the pinned pieces unless a pinner has already left the
occupancy. -/
def seeLoop (pos : Position) (to_ : Nat) :
    Nat → Nat → Nat → Nat → Int → Nat
  | 0, _, _, sideToMove, _ => sideToMove
  | fuel + 1, occupied, attackers, sideToMove, balance =>
    let stmAttackers0 := attackers &&& pos.base.pieces_c sideToMove
    let stmAttackers :=
      if !bbToBool (pos.pinners_for_king (colorInverse sideToMove) &&& bbNot occupied) then
        stmAttackers0 &&& bbNot (pos.blockers_for_king sideToMove)
      else stmAttackers0
    if !bbToBool stmAttackers then sideToMove
    else
      let r := pos.base.min_attacker to_ stmAttackers occupied attackers
      let sideToMove2 := colorInverse sideToMove
      let balance2 := -balance - 1 - capturePieceTypeValue r.1
      if 0 ≤ balance2 then
        if r.1 = PieceType.KING ∧ bbToBool (r.2.2 &&& pos.base.pieces_c sideToMove2) then
          colorInverse sideToMove2
        else sideToMove2
      else seeLoop pos to_ fuel r.2.1 r.2.2 sideToMove2 balance2

/-- Static exchange bound test (position.rs Position::see_ge): false at
once when the captured value falls short of the threshold, true at once
when the balance survives even giving the mover away, else the result of
the exchange loop compared against the original mover. -/
def Position.see_ge (pos : Position) (m : Nat) (threshold : Int) : Bool :=
  let to_ := Move.to_ m
  let balance0 := capturePieceValue (pos.base.piece_on to_) - threshold
  if balance0 < 0 then false
  else
    let isDrop := Move.is_drop m
    let nextVictim :=
      if isDrop then Move.piece_type_dropped m
      else pieceTypeOf (pos.base.piece_on (Move.from_ m))
    let balance1 := balance0 - capturePieceTypeValue nextVictim
    if 0 ≤ balance1 then true
    else
      let occupied0 := pos.base.occupied_bb ^^^ squareMask to_
      let occupied := if isDrop then occupied0 else occupied0 ^^^ squareMask (Move.from_ m)
      let attackers := pos.base.attackers_to_both_color to_ occupied &&& occupied
      let us := pos.base.sideToMove
      us != seeLoop pos to_ 82 occupied attackers (colorInverse us) balance1

/-! Making and unmaking moves, from position.rs (Position::do_move,
Position::undo_move, Position::do_null_move, Position::undo_null_move).
The eval-list bookkeeping (changed_eval_index, eval_list,
eval_index_to_eval_list_index) feeds the external evaluator and is not
modelled; the shared node counter is a concurrency artifact.  The Zobrist
table is passed explicitly. -/

/-- The consistency invariants of position.rs Position::is_ok that the
round-trip and Zobrist arguments rely on: a two-valued side to move, real
piece codes on the board squares, occupancy, color and type bitboards in
agreement with the board array, a fresh golds cache, and king caches
naming the squares holding the kings. -/
def PositionBase.WellFormed (p : PositionBase) : Prop :=
  p.sideToMove < 2
  ∧ (∀ sq, sq < 81 → p.board sq = Piece.EMPTY ∨ isRealPiece (p.board sq))
  ∧ (∀ sq, sq < 81 → (p.occupied_bb.testBit sq = true ↔ p.board sq ≠ Piece.EMPTY))
  ∧ (∀ c, c < 2 → ∀ sq, sq < 81 →
      ((p.byColorBB c).testBit sq = true
        ↔ p.board sq ≠ Piece.EMPTY ∧ colorOf (p.board sq) = c))
  ∧ (∀ pt, pt < 15 → 1 ≤ pt → ∀ sq, sq < 81 →
      ((p.byTypeBB pt).testBit sq = true
        ↔ p.board sq ≠ Piece.EMPTY ∧ pieceTypeOf (p.board sq) = pt))
  ∧ p.goldsBB = p.byTypeBB PieceType.GOLD ||| p.byTypeBB PieceType.PRO_PAWN
      ||| p.byTypeBB PieceType.PRO_LANCE ||| p.byTypeBB PieceType.PRO_KNIGHT
      ||| p.byTypeBB PieceType.PRO_SILVER
  ∧ (∀ c, c < 2 → ∀ sq, p.board sq = Piece.new c PieceType.KING → sq = p.kingSquares c)

/-- Make a move (position.rs Position::do_move): push a state copied from
the old top, bump the ply counters, apply the drop or the board move to
the base (hands, bitboards, board array, golds cache, king cache), update
the Zobrist keys incrementally, set the checkers and continuous-check
counters, flip the side to move and fill the new top state. -/
def Position.do_move (zt : ZTab) (pos : Position) (m : Nat) (givesCheck : Bool) : Position :=
  let boardKey0 := pos.st.boardKey ^^^ Zobrist.COLOR
  let handKey0 := pos.st.handKey
  let st0 := { pos.st with pliesFromNull := pos.st.pliesFromNull + 1 }
  let us := pos.base.sideToMove
  let them := colorInverse us
  let to_ := Move.to_ m
  let base0 := { pos.base with gamePly := pos.base.gamePly + 1 }
  if Move.is_drop m then
    let pcTo := Move.piece_dropped m
    let ptTo := pieceTypeOf pcTo
    let handNum := (base0.hand us).num ptTo
    let handKey1 := handKey0 ^^^ zt.handK ptTo handNum us
    let boardKey1 := boardKey0 ^^^ zt.field ptTo to_ us
    let base1 := { base0 with
      hands := Function.update base0.hands us ((base0.hands us).minus_one ptTo) }
    let base2 := (base1.put_piece pcTo to_).set_golds_bb
    let st1 :=
      if givesCheck then
        { st0 with
          checkersBB := squareMask to_
          continuousChecks :=
            Function.update st0.continuousChecks us (st0.continuousChecks us + 2) }
      else
        { st0 with
          checkersBB := 0
          continuousChecks := Function.update st0.continuousChecks us 0 }
    let base3 := { base2 with sideToMove := them }
    { base := base3
      states :=
        { st1 with
          boardKey := boardKey1
          handKey := handKey1
          handOfSideToMove := base3.hand them
          capturedPiece := Piece.EMPTY
          checkInfo := CheckInfo.new base3 } :: pos.states }
  else
    let from_ := Move.from_ m
    let pcFrom := pos.base.piece_on from_
    let ptFrom := pieceTypeOf pcFrom
    let base1 := base0.remove_piece pcFrom from_
    let pos1 : Position := { base := base1, states := st0 :: pos.states }
    if Move.is_capture pos1 m then
      let captured := base1.piece_on to_
      let ptCaptured := pieceTypeOf captured
      let ptCapturedDemoted := PieceType.to_demote_if_possible ptCaptured
      let base2x := base1.xor_bbs them ptCaptured to_
      let base2 := { base2x with
        hands := Function.update base2x.hands us
          ((base2x.hands us).plus_one ptCapturedDemoted) }
      let handNum := (base2.hand us).num ptCapturedDemoted
      let boardKeyC := boardKey0 ^^^ zt.field ptCaptured to_ them
      let handKeyC := handKey0 ^^^ zt.handK ptCapturedDemoted handNum us
      let materialC := st0.material
        + (if us = Color.BLACK then capturePieceTypeValue ptCaptured
           else -capturePieceTypeValue ptCaptured)
      let pcTo := if Move.is_promotion m then Piece.to_promote pcFrom else pcFrom
      let material1 :=
        if Move.is_promotion m then
          materialC + (if us = Color.BLACK then promotePieceTypeValue ptFrom
            else -promotePieceTypeValue ptFrom)
        else materialC
      let base3 := base2.put_piece pcTo to_
      let ptTo := pieceTypeOf pcTo
      let base4 :=
        if ptTo = PieceType.KING then
          { base3 with
            kingSquares :=
              Function.update base3.kingSquares us (bbLsb (base3.pieces_cp us PieceType.KING)) }
        else base3
      let boardKey1 := boardKeyC ^^^ zt.field ptFrom from_ us ^^^ zt.field ptTo to_ us
      let base5 := base4.set_golds_bb
      let st1 :=
        if givesCheck then
          { st0 with
            checkersBB :=
              base5.attackers_to_except_king us (base5.king_square them) base5.occupied_bb
                &&& base5.pieces_c us
            continuousChecks :=
              Function.update st0.continuousChecks us (st0.continuousChecks us + 2) }
        else
          { st0 with
            checkersBB := 0
            continuousChecks := Function.update st0.continuousChecks us 0 }
      let base6 := { base5 with sideToMove := them }
      { base := base6
        states :=
          { st1 with
            material := material1
            boardKey := boardKey1
            handKey := handKeyC
            handOfSideToMove := base6.hand them
            capturedPiece := captured
            checkInfo := CheckInfo.new base6 } :: pos.states }
    else
      let pcTo := if Move.is_promotion m then Piece.to_promote pcFrom else pcFrom
      let material1 :=
        if Move.is_promotion m then
          st0.material + (if us = Color.BLACK then promotePieceTypeValue ptFrom
            else -promotePieceTypeValue ptFrom)
        else st0.material
      let base3 := base1.put_piece pcTo to_
      let ptTo := pieceTypeOf pcTo
      let base4 :=
        if ptTo = PieceType.KING then
          { base3 with
            kingSquares :=
              Function.update base3.kingSquares us (bbLsb (base3.pieces_cp us PieceType.KING)) }
        else base3
      let boardKey1 := boardKey0 ^^^ zt.field ptFrom from_ us ^^^ zt.field ptTo to_ us
      let base5 := base4.set_golds_bb
      let st1 :=
        if givesCheck then
          { st0 with
            checkersBB :=
              base5.attackers_to_except_king us (base5.king_square them) base5.occupied_bb
                &&& base5.pieces_c us
            continuousChecks :=
              Function.update st0.continuousChecks us (st0.continuousChecks us + 2) }
        else
          { st0 with
            checkersBB := 0
            continuousChecks := Function.update st0.continuousChecks us 0 }
      let base6 := { base5 with sideToMove := them }
      { base := base6
        states :=
          { st1 with
            material := material1
            boardKey := boardKey1
            handKey := handKey0
            handOfSideToMove := base6.hand them
            capturedPiece := Piece.EMPTY
            checkInfo := CheckInfo.new base6 } :: pos.states }

/-- Unmake a move (position.rs Position::undo_move): with the side to
move already flipped by do_move, put a dropped piece back into the
mover's hand, or move the mover back from the to-square (undoing a
promotion), restoring a captured piece on the board and taking it back
out of the hand, restore the king cache, refresh the golds cache, flip
the side to move back, decrement the ply and pop the state stack. -/
def Position.undo_move (pos : Position) (m : Nat) : Position :=
  let us := pos.base.sideToMove
  let them := colorInverse us
  let to_ := Move.to_ m
  let base1 :=
    if Move.is_drop m then
      let pcDropped := Move.piece_dropped m
      let ptDropped := pieceTypeOf pcDropped
      let b := pos.base.remove_piece pcDropped to_
      { b with
        hands := Function.update b.hands them ((b.hands them).plus_one ptDropped) }
    else
      let pcTo := pos.base.piece_on to_
      let b1 :=
        if pos.st.capturedPiece ≠ Piece.EMPTY then
          let pcCaptured := pos.st.capturedPiece
          let ptCapturedDemoted := PieceType.to_demote_if_possible (pieceTypeOf pcCaptured)
          let b := pos.base.exchange_pieces pcCaptured to_
          { b with
            hands :=
              Function.update b.hands them ((b.hands them).minus_one ptCapturedDemoted) }
        else pos.base.remove_piece pcTo to_
      let pcFrom := if Move.is_promotion m then Piece.to_demote pcTo else pcTo
      let b2 := b1.put_piece pcFrom (Move.from_ m)
      if Piece.is_king pcTo then
        { b2 with kingSquares := Function.update b2.kingSquares them (Move.from_ m) }
      else b2
  let base2 := base1.set_golds_bb
  { base := { base2 with sideToMove := them, gamePly := base2.gamePly - 1 }
    states := pos.states.tail }

/-- Make a null move (position.rs Position::do_null_move): clone the top
state, flip the side to move, reset the null-ply and continuous-check
counters, flip the color bit in the board key and refresh the derived
state fields. -/
def Position.do_null_move (pos : Position) : Position :=
  let them := colorInverse pos.base.sideToMove
  let base1 := { pos.base with sideToMove := them }
  { base := base1
    states :=
      { pos.st with
        pliesFromNull := 0
        continuousChecks := fun _ => 0
        boardKey := pos.st.boardKey ^^^ Zobrist.COLOR
        handOfSideToMove := base1.hand them
        capturedPiece := Piece.EMPTY
        checkInfo := CheckInfo.new base1 } :: pos.states }

/-- Unmake a null move (position.rs Position::undo_null_move): pop the
state stack and flip the side to move back. -/
def Position.undo_null_move (pos : Position) : Position :=
  { base := { pos.base with sideToMove := colorInverse pos.base.sideToMove },
    states := pos.states.tail }

/-- A Zobrist table with even entries for exercising the key invariant on
concrete positions. -/
def ztTest : ZTab :=
  ⟨fun pt sq c => 2 * (1 + pt + 17 * sq + 1777 * c),
   fun pt n c => 2 * (3 + 5 * pt + 31 * n + 977 * c)⟩

/-- A position for the do/undo and Zobrist claims: Black pawn on square
40 can capture the White pawn on square 39; a White gold on square 30
defends it; kings on squares 80 (Black) and 0 (White); Black to move. -/
def c2Base : PositionBase :=
  { board := fun sq =>
      if sq = 40 then Piece.B_PAWN else if sq = 39 then Piece.W_PAWN
      else if sq = 30 then Piece.new Color.WHITE PieceType.GOLD
      else if sq = 80 then Piece.B_KING else if sq = 0 then Piece.W_KING
      else Piece.EMPTY
    byTypeBB := fun pt =>
      if pt = PieceType.OCCUPIED then
        squareMask 40 ||| squareMask 39 ||| squareMask 30 ||| squareMask 80 ||| squareMask 0
      else if pt = PieceType.PAWN then squareMask 40 ||| squareMask 39
      else if pt = PieceType.GOLD then squareMask 30
      else if pt = PieceType.KING then squareMask 80 ||| squareMask 0
      else 0
    byColorBB := fun c =>
      if c = Color.BLACK then squareMask 40 ||| squareMask 80
      else if c = Color.WHITE then squareMask 39 ||| squareMask 30 ||| squareMask 0
      else 0
    goldsBB := squareMask 30
    hands := fun _ => Hand.zero
    gamePly := 1
    kingSquares := fun c => if c = Color.BLACK then 80 else 0
    sideToMove := Color.BLACK }

/-- The c2Base position with its constructed top state. -/
def c2Pos : Position :=
  { base := c2Base, states := [StateInfo.new_from_position ztTest c2Base] }

/-- The pawn-takes-pawn move on c2Pos: from 40 to 39. -/
def c2m : Nat := Move.new_unpromote 40 39 Piece.B_PAWN

/-! Explicit per-branch results of Position::do_move, unfolded from the
branches of do_move for use in the round-trip and key-invariant proofs;
each is definitionally equal to the corresponding branch. -/

/-- The base produced by the drop branch of do_move. -/
def doDropResult (p : PositionBase) (m : Nat) : PositionBase :=
  { (({ p with
      gamePly := p.gamePly + 1
      hands := Function.update p.hands p.sideToMove
        ((p.hands p.sideToMove).minus_one (pieceTypeOf (Move.piece_dropped m))) }
      : PositionBase).put_piece (Move.piece_dropped m) (Move.to_ m)).set_golds_bb with
    sideToMove := colorInverse p.sideToMove }

/-- The base after do_move's board branch removed the mover. -/
def doBoardBase1 (p : PositionBase) (m : Nat) : PositionBase :=
  ({ p with gamePly := p.gamePly + 1 } : PositionBase).remove_piece
    (p.piece_on (Move.from_ m)) (Move.from_ m)

/-- The piece sitting on the to-square when do_move's board branch tests
for a capture: the board with the mover removed, read at the to-square. -/
def doCaptured (p : PositionBase) (m : Nat) : Nat :=
  (doBoardBase1 p m).piece_on (Move.to_ m)

/-- The piece placed on the to-square by do_move's board branch. -/
def doPcTo (p : PositionBase) (m : Nat) : Nat :=
  if Move.is_promotion m then Piece.to_promote (p.piece_on (Move.from_ m))
  else p.piece_on (Move.from_ m)

/-- The base after do_move's capture path cleared the victim and put it
into the mover's hand. -/
def doBoardBase2 (p : PositionBase) (m : Nat) : PositionBase :=
  let b2x := (doBoardBase1 p m).xor_bbs (colorInverse p.sideToMove)
    (pieceTypeOf (doCaptured p m)) (Move.to_ m)
  { b2x with
    hands := Function.update b2x.hands p.sideToMove
      ((b2x.hands p.sideToMove).plus_one
        (PieceType.to_demote_if_possible (pieceTypeOf (doCaptured p m)))) }

/-- do_move's king-cache update after the mover landed. -/
def doKingFix (p b3 : PositionBase) (m : Nat) : PositionBase :=
  if pieceTypeOf (doPcTo p m) = PieceType.KING then
    { b3 with
      kingSquares :=
        Function.update b3.kingSquares p.sideToMove
          (bbLsb (b3.pieces_cp p.sideToMove PieceType.KING)) }
  else b3

/-- The base produced by the capture path of do_move's board branch. -/
def doBoardResultCap (p : PositionBase) (m : Nat) : PositionBase :=
  { (doKingFix p ((doBoardBase2 p m).put_piece (doPcTo p m) (Move.to_ m)) m).set_golds_bb with
    sideToMove := colorInverse p.sideToMove }

/-- The base produced by the non-capture path of do_move's board branch. -/
def doBoardResultNoncap (p : PositionBase) (m : Nat) : PositionBase :=
  { (doKingFix p ((doBoardBase1 p m).put_piece (doPcTo p m) (Move.to_ m)) m).set_golds_bb with
    sideToMove := colorInverse p.sideToMove }

/-- The spec's key invariant: the incrementally maintained Zobrist board
and hand keys of the top state equal the keys rebuilt from scratch from
the current base (position.rs Position::is_ok KeyIsUpdated, key ==
new_board_key ^ new_hand_key). -/
def Position.KeysFromScratch (zt : ZTab) (pos : Position) : Prop :=
  pos.st.boardKey = StateInfo.new_board_key zt pos.base
    ∧ pos.st.handKey = StateInfo.new_hand_key zt pos.base

/-! Arithmetic characterization of the bit-packing used by the Move
constructors.  All call sites keep every field inside its width. -/

theorem shiftLeft_or_eq_add {x a k : Nat} (h : a < 2 ^ k) :
    (x <<< k) ||| a = x * 2 ^ k + a := by
  rw [Nat.shiftLeft_eq, Nat.mul_comm x (2 ^ k), ← Nat.mul_add_lt_is_or h, Nat.mul_comm]

theorem new_unpromote_eq (from_ to_ pc : Nat) (hf : from_ < 128) (ht : to_ < 128) :
    Move.new_unpromote from_ to_ pc = pc * 65536 + (from_ * 512 + to_) := by
  unfold Move.new_unpromote
  rw [Nat.lor_assoc]
  rw [shiftLeft_or_eq_add (k := 9) (by omega)]
  have h2 : from_ * 2 ^ 9 + to_ < 2 ^ 16 := by omega
  rw [shiftLeft_or_eq_add (k := 16) h2]
  norm_num

theorem new_promote_eq (from_ to_ pc : Nat) (hf : from_ < 128) (ht : to_ < 128) :
    Move.new_promote from_ to_ pc = pc * 65536 + (from_ * 512 + (128 + to_)) := by
  unfold Move.new_promote Move.PROMOTE_FLAG
  rw [new_unpromote_eq from_ to_ pc hf ht]
  have hmod : pc * 65536 + (from_ * 512 + to_) = (pc * 128 + from_) * 2 ^ 9 + to_ := by ring
  rw [hmod, ← shiftLeft_or_eq_add (k := 9) (x := pc * 128 + from_) (by omega)]
  rw [Nat.lor_comm (1 <<< 7), Nat.lor_assoc, Nat.lor_comm to_ (1 <<< 7)]
  have h128 : (1 <<< 7) ||| to_ = 128 + to_ := by
    have h := shiftLeft_or_eq_add (k := 7) (x := 1) (a := to_) (by omega)
    simpa using h
  rw [h128, shiftLeft_or_eq_add (k := 9) (by omega)]
  ring

theorem new_drop_eq (pc to_ : Nat) (ht : to_ < 128) :
    Move.new_drop pc to_ = 256 + pc * 512 + to_ := by
  unfold Move.new_drop Move.DROP_FLAG
  rw [Nat.lor_comm (1 <<< 8), Nat.lor_assoc]
  have h256 : (1 <<< 8) ||| to_ = 256 + to_ := by
    have h := shiftLeft_or_eq_add (k := 8) (x := 1) (a := to_) (by omega)
    simpa using h
  rw [h256, shiftLeft_or_eq_add (k := 9) (by omega)]
  ring

theorem mask9_eq_mod (v : Nat) : v &&& 0x1ff = v % 512 := by
  have h : (0x1ff : Nat) = 2 ^ 9 - 1 := by norm_num
  rw [h, Nat.and_pow_two_sub_one_eq_mod]

theorem shift9_eq_div (v : Nat) : v >>> 9 = v / 512 := by
  rw [Nat.shiftRight_eq_div_pow]

theorem div512_mod512 (q r : Nat) (hr : r < 512) :
    (512 * q + r) % 512 = r ∧ (512 * q + r) / 512 = q := by
  constructor
  · rw [Nat.mul_add_mod]; exact Nat.mod_eq_of_lt hr
  · rw [Nat.mul_add_div (by norm_num), Nat.div_eq_of_lt hr, Nat.add_zero]

/-- C9: is_normal_move on a raw Option-Move value v computes the bitmask
test (v &&& 0x1ff) != (v >>> 9); that test is false for absence (value 0)
and for the three sentinels NULL, WIN, RESIGN, and is true for every value
built by new_unpromote, new_promote (distinct on-board from- and
to-squares, a real piece) and new_drop (on-board to-square, real piece). -/
theorem c9_is_normal_move :
    (∀ v : Nat, is_normal_move v = ((v &&& 0x1ff) != (v >>> 9)))
    ∧ is_normal_move 0 = false
    ∧ is_normal_move Move.NULL = false
    ∧ is_normal_move Move.WIN = false
    ∧ is_normal_move Move.RESIGN = false
    ∧ (∀ from_ to_ pc : Nat, from_ < 81 → to_ < 81 → from_ ≠ to_ →
        isRealPiece pc →
        is_normal_move (Move.new_unpromote from_ to_ pc) = true
        ∧ is_normal_move (Move.new_promote from_ to_ pc) = true)
    ∧ (∀ to_ pc : Nat, to_ < 81 → isRealPiece pc →
        is_normal_move (Move.new_drop pc to_) = true) := by
  refine ⟨fun v => rfl, by decide, by decide, by decide, by decide, ?_, ?_⟩
  · intro from_ to_ pc hf ht hne hpc
    obtain ⟨hlt, hge, hle⟩ := hpc
    constructor
    · simp only [is_normal_move, mask9_eq_mod, shift9_eq_div,
        new_unpromote_eq from_ to_ pc (by omega) (by omega), bne_iff_ne, ne_eq]
      rw [show pc * 65536 + (from_ * 512 + to_) = 512 * (pc * 128 + from_) + to_ from by ring,
        (div512_mod512 _ _ (by omega)).1, (div512_mod512 _ _ (by omega)).2]
      omega
    · simp only [is_normal_move, mask9_eq_mod, shift9_eq_div,
        new_promote_eq from_ to_ pc (by omega) (by omega), bne_iff_ne, ne_eq]
      rw [show pc * 65536 + (from_ * 512 + (128 + to_)) =
          512 * (pc * 128 + from_) + (128 + to_) from by ring,
        (div512_mod512 _ _ (by omega)).1, (div512_mod512 _ _ (by omega)).2]
      omega
  · intro to_ pc ht hpc
    obtain ⟨hlt, hge, hle⟩ := hpc
    simp only [is_normal_move, mask9_eq_mod, shift9_eq_div,
      new_drop_eq pc to_ (by omega), bne_iff_ne, ne_eq]
    rw [show 256 + pc * 512 + to_ = 512 * pc + (256 + to_) from by ring,
      (div512_mod512 _ _ (by omega)).1, (div512_mod512 _ _ (by omega)).2]
    omega

/-- C9 witness: the constructor clauses applied at concrete arguments. -/
theorem c9_is_normal_move_witness :
    is_normal_move (Move.new_unpromote 10 20 Piece.B_PAWN) = true
    ∧ is_normal_move (Move.new_drop Piece.B_PAWN 5) = true := by
  exact ⟨(c9_is_normal_move.2.2.2.2.2.1 10 20 Piece.B_PAWN (by decide)
      (by decide) (by decide) (by decide)).1,
    c9_is_normal_move.2.2.2.2.2.2 5 Piece.B_PAWN (by decide) (by decide)⟩

/-- C5: the nonzero invariant of Move is violated by the unvalidated USI
path: on a board whose square 0 is empty, the string "1a1a" makes
Move::new_from_usi_str call new_unpromote(square 0, square 0, EMPTY),
whose bit pattern is zero, before any pseudo-legal check. -/
theorem c5_zero_move_construction :
    Move.new_unpromote 0 0 Piece.EMPTY = 0
    ∧ usiMoveBeforeValidation "1a1a" Color.BLACK c5Board = some 0 := by
  constructor
  · decide
  · rfl

/-- C1: the Huffman round trip loses the hands.  On a position where
White holds one pawn (kings on squares 8 and 72, Black to move), encoding
and decoding succeeds but yields Black 54 hand pawns and White none:
every white-hand code decodes as a black-hand piece (position.rs
ColorAndPieceTypeForHand::try_from maps the W_HAND codes to Color::BLACK)
and the zero padding of the 32-byte buffer decodes as further black hand
pawns. -/
theorem c1_huffman_roundtrip_loses_hand :
    (c1Pos.hand Color.BLACK).pawn = 0 ∧ (c1Pos.hand Color.WHITE).pawn = 1
    ∧ (PositionBase.new_from_huffman_coded_position
          (HuffmanCodedPosition.from_ c1Pos)).map
        (fun p => ((p.hand Color.BLACK).pawn, (p.hand Color.WHITE).pawn))
      = some (54, 0) := by
  refine ⟨rfl, rfl, ?_⟩
  set_option maxRecDepth 10000 in rfl

theorem mask7_eq_mod (v : Nat) : v &&& 0x7f = v % 128 := by
  have h : (0x7f : Nat) = 2 ^ 7 - 1 := by norm_num
  rw [h, Nat.and_pow_two_sub_one_eq_mod]

theorem move_to_new_unpromote (f t pc : Nat) (hf : f < 128) (ht : t < 128) :
    Move.to_ (Move.new_unpromote f t pc) = t := by
  unfold Move.to_ Move.TO_MASK
  rw [mask7_eq_mod, new_unpromote_eq f t pc hf ht,
    show pc * 65536 + (f * 512 + t) = 128 * (pc * 512 + f * 4) + t from by ring,
    Nat.mul_add_mod, Nat.mod_eq_of_lt ht]

theorem move_to_new_promote (f t pc : Nat) (hf : f < 128) (ht : t < 128) :
    Move.to_ (Move.new_promote f t pc) = t := by
  unfold Move.to_ Move.TO_MASK
  rw [mask7_eq_mod, new_promote_eq f t pc hf ht,
    show pc * 65536 + (f * 512 + (128 + t)) = 128 * (pc * 512 + f * 4 + 1) + t from by ring,
    Nat.mul_add_mod]
  exact Nat.mod_eq_of_lt ht

theorem is_promotion_eq (v : Nat) : Move.is_promotion v = decide (v / 128 % 2 = 1) := by
  unfold Move.is_promotion Move.PROMOTE_FLAG
  rw [show (1 : Nat) <<< 7 = 2 ^ 7 from by decide, Nat.and_two_pow,
    Nat.testBit_to_div_mod, show (2 : Nat) ^ 7 = 128 from by norm_num]
  by_cases hc : v / 128 % 2 = 1
  · simp [hc]
  · simp [hc]

theorem is_promotion_new_unpromote (f t pc : Nat) (hf : f < 128) (ht : t < 128) :
    Move.is_promotion (Move.new_unpromote f t pc) = false := by
  rw [is_promotion_eq, new_unpromote_eq f t pc hf ht]
  rw [show pc * 65536 + (f * 512 + t) = 128 * (2 * (pc * 256 + f * 2)) + t from by ring]
  rw [Nat.mul_add_div (by norm_num), Nat.div_eq_of_lt ht, Nat.add_zero]
  simp [Nat.mul_mod_right]

theorem is_promotion_new_promote (f t pc : Nat) (hf : f < 128) (ht : t < 128) :
    Move.is_promotion (Move.new_promote f t pc) = true := by
  rw [is_promotion_eq, new_promote_eq f t pc hf ht]
  rw [show pc * 65536 + (f * 512 + (128 + t)) =
      128 * (2 * (pc * 256 + f * 2) + 1) + t from by ring]
  rw [Nat.mul_add_div (by norm_num), Nat.div_eq_of_lt ht, Nat.add_zero]
  simp [Nat.add_mul_mod_self_left, Nat.mul_add_mod]

theorem mem_bbSquares {bb sq : Nat} : sq ∈ bbSquares bb ↔ sq < 81 ∧ bb.testBit sq := by
  unfold bbSquares
  simp [List.mem_filter, List.mem_range]

theorem rankAsBlack_rankFrom (us rab : Nat) (h : rab ≤ 8) :
    rankAsBlack us (rankFromRankAsBlack us rab) = rab := by
  unfold rankAsBlack rankFromRankAsBlack
  by_cases hus : us = Color.BLACK <;> simp [hus] <;> omega

/-- C4: in lance move generation, an unpromoted move onto the last rank
(relative rank 0) is never emitted; on the second-to-last rank (relative
rank 1) no unpromoted move is emitted either, so that every unpromoted
lance move emitted there is (vacuously) a capture; the only unpromoted
moves emitted inside the promotion zone are captures onto relative rank 3
with captures allowed; and the promotion move is emitted for every
generated destination in the opponent's three ranks. -/
theorem c4_lance_generation :
    (∀ (pos : PositionBase) (ac : Bool) (target m : Nat),
      m ∈ generate_for_lance pos ac target →
      Move.is_promotion m = false →
      rankAsBlack pos.sideToMove (rankOf (Move.to_ m)) ≠ 0
      ∧ rankAsBlack pos.sideToMove (rankOf (Move.to_ m)) ≠ 1
      ∧ (rankAsBlack pos.sideToMove (rankOf (Move.to_ m)) = 2 →
          pos.piece_on (Move.to_ m) ≠ Piece.EMPTY ∧ ac = true))
    ∧ (∀ (pos : PositionBase) (ac : Bool) (target f t : Nat),
        bbIsSet (pos.pieces_cp pos.sideToMove PieceType.LANCE) f → f < 81 →
        bbIsSet (lanceAttack pos.sideToMove f pos.occupied_bb &&& target) t → t < 81 →
        isOpponentField pos.sideToMove (rankOf t) = true →
        Move.new_promote f t (pos.piece_on f) ∈ generate_for_lance pos ac target) := by
  constructor
  · intro pos ac target m hm hprom
    unfold generate_for_lance at hm
    rw [List.mem_flatMap] at hm
    obtain ⟨f, hf, hm⟩ := hm
    rw [List.mem_flatMap] at hm
    obtain ⟨t, ht, hm⟩ := hm
    have hf81 : f < 81 := (mem_bbSquares.mp hf).1
    have ht81 : t < 81 := (mem_bbSquares.mp ht).1
    by_cases hopp : isOpponentField pos.sideToMove (rankOf t) = true
    · simp only [hopp, if_true] at hm
      rcases List.mem_cons.mp hm with hm | hm
      · subst hm
        rw [is_promotion_new_promote f t _ (by omega) (by omega)] at hprom
        exact absurd hprom (by simp)
      · by_cases hcap : ac = true ∧ rankOf t = rankFromRankAsBlack pos.sideToMove
            RankAsBlack.RANK3 ∧ pos.piece_on t ≠ Piece.EMPTY
        · simp only [hcap.1, hcap.2.1, hcap.2.2, if_true, true_and, ne_eq,
            not_false_eq_true, and_true, List.mem_singleton] at hm
          have hm' : m = Move.new_unpromote f t (pos.piece_on f) := by
            simpa using hm
          subst hm'
          rw [move_to_new_unpromote f t _ (by omega) (by omega)]
          have hr : rankAsBlack pos.sideToMove (rankOf t) = 2 := by
            rw [hcap.2.1]
            exact rankAsBlack_rankFrom pos.sideToMove RankAsBlack.RANK3 (by decide)
          refine ⟨by omega, by omega, fun _ => ⟨hcap.2.2, hcap.1⟩⟩
        · exfalso
          have : ¬ (ac = true ∧ rankOf t = rankFromRankAsBlack pos.sideToMove
              RankAsBlack.RANK3 ∧ pos.piece_on t ≠ Piece.EMPTY) := hcap
          revert hm
          split
          · rename_i hcond
            intro hm
            exact hcap ⟨hcond.1, hcond.2.1, hcond.2.2⟩
          · intro hm
            exact (List.not_mem_nil m) hm
    · simp only [hopp] at hm
      rw [if_neg (by simpa using hopp), List.mem_singleton] at hm
      subst hm
      rw [move_to_new_unpromote f t _ (by omega) (by omega)]
      have hr : ¬ rankAsBlack pos.sideToMove (rankOf t) < 3 := by
        unfold isOpponentField at hopp
        simpa using hopp
      exact ⟨by omega, by omega, by omega⟩
  · intro pos ac target f t hf hf81 ht ht81 hopp
    unfold generate_for_lance
    rw [List.mem_flatMap]
    refine ⟨f, mem_bbSquares.mpr ⟨hf81, hf⟩, ?_⟩
    rw [List.mem_flatMap]
    refine ⟨t, mem_bbSquares.mpr ⟨ht81, ht⟩, ?_⟩
    rw [if_pos (by simpa using hopp)]
    exact List.mem_cons_self _ _

/-- C4 witness: on lanceTestPos the generated lance move list contains the
promotion onto square 2, and the unpromote capture onto square 2 (relative
rank 2), which the first clause of the theorem classifies. -/
theorem c4_lance_generation_witness :
    Move.new_promote 4 2 2 ∈ generate_for_lance lanceTestPos true Bitboard.ALL
    ∧ (rankAsBlack lanceTestPos.sideToMove
        (rankOf (Move.to_ (Move.new_unpromote 4 2 2))) ≠ 0
      ∧ rankAsBlack lanceTestPos.sideToMove
        (rankOf (Move.to_ (Move.new_unpromote 4 2 2))) ≠ 1
      ∧ (rankAsBlack lanceTestPos.sideToMove
          (rankOf (Move.to_ (Move.new_unpromote 4 2 2))) = 2 →
          lanceTestPos.piece_on (Move.to_ (Move.new_unpromote 4 2 2)) ≠ Piece.EMPTY
          ∧ true = true)) := by
  constructor
  · exact c4_lance_generation.2 lanceTestPos true Bitboard.ALL 4 2 (by decide)
      (by decide) (by decide) (by decide) (by decide)
  · exact c4_lance_generation.1 lanceTestPos true Bitboard.ALL
      (Move.new_unpromote 4 2 2) (by decide) (by decide)

theorem repLoop_hit (pos : Position) (end_ i fuel : Nat) (r : Repetition)
    (h : classifyAt pos i = some r) (hle : i ≤ end_) :
    repLoop pos end_ i (fuel + 1) = r := by
  unfold repLoop
  unfold classifyAt at h
  rw [if_neg (by omega : ¬ end_ < i)]
  by_cases hk : Position.key pos = (pos.states.getD i StateInfo.ZERO).key
  · rw [if_pos hk] at h ⊢
    exact Option.some.inj h
  · rw [if_neg hk] at h ⊢
    by_cases hb : pos.st.boardKey = (pos.states.getD i StateInfo.ZERO).boardKey
    · rw [if_pos hb] at h ⊢
      by_cases hsup : pos.st.handOfSideToMove.is_equal_or_superior
          (pos.states.getD i StateInfo.ZERO).handOfSideToMove = true
      · rw [if_pos hsup] at h ⊢
        exact Option.some.inj h
      · rw [if_neg hsup] at h ⊢
        by_cases hinf : (pos.states.getD i StateInfo.ZERO).handOfSideToMove.is_equal_or_superior
            pos.st.handOfSideToMove = true
        · rw [if_pos hinf] at h ⊢
          exact Option.some.inj h
        · rw [if_neg hinf] at h
          exact absurd h (by simp)
    · rw [if_neg hb] at h
      exact absurd h (by simp)

theorem repLoop_skip (pos : Position) (end_ i fuel : Nat)
    (h : classifyAt pos i = none) (hle : i ≤ end_) :
    repLoop pos end_ i (fuel + 1) = repLoop pos end_ (i + 2) fuel := by
  conv_lhs => unfold repLoop
  unfold classifyAt at h
  rw [if_neg (by omega : ¬ end_ < i)]
  by_cases hk : Position.key pos = (pos.states.getD i StateInfo.ZERO).key
  · rw [if_pos hk] at h
    exact absurd h (by simp)
  · rw [if_neg hk] at h ⊢
    by_cases hb : pos.st.boardKey = (pos.states.getD i StateInfo.ZERO).boardKey
    · rw [if_pos hb] at h ⊢
      by_cases hsup : pos.st.handOfSideToMove.is_equal_or_superior
          (pos.states.getD i StateInfo.ZERO).handOfSideToMove = true
      · rw [if_pos hsup] at h
        exact absurd h (by simp)
      · rw [if_neg hsup] at h ⊢
        by_cases hinf : (pos.states.getD i StateInfo.ZERO).handOfSideToMove.is_equal_or_superior
            pos.st.handOfSideToMove = true
        · rw [if_pos hinf] at h
          exact absurd h (by simp)
        · rw [if_neg hinf]
    · rw [if_neg hb]

theorem repLoop_none (pos : Position) (end_ : Nat) :
    ∀ (fuel i : Nat),
      (∀ j, i ≤ j → j ≤ end_ → (j - i) % 2 = 0 → classifyAt pos j = none) →
      repLoop pos end_ i fuel = Repetition.Not := by
  intro fuel
  induction fuel with
  | zero => intro i _; rfl
  | succ f ih =>
    intro i h
    by_cases hle : end_ < i
    · unfold repLoop
      rw [if_pos hle]
    · rw [repLoop_skip pos end_ i f (h i le_rfl (by omega) (by omega)) (by omega)]
      exact ih (i + 2) (fun j hj1 hj2 hj3 => h j (by omega) hj2 (by omega))

theorem repLoop_first (pos : Position) (end_ : Nat) :
    ∀ (fuel i0 i : Nat) (r : Repetition),
      i0 ≤ i → (i - i0) % 2 = 0 → i ≤ end_ →
      classifyAt pos i = some r →
      (∀ j, i0 ≤ j → j < i → (j - i0) % 2 = 0 → classifyAt pos j = none) →
      i < i0 + 2 * fuel →
      repLoop pos end_ i0 fuel = r := by
  intro fuel
  induction fuel with
  | zero => intro i0 i r h1 _ _ _ _ h6; omega
  | succ f ih =>
    intro i0 i r h1 h2 h3 h4 h5 h6
    by_cases heq : i0 = i
    · subst heq
      exact repLoop_hit pos end_ i0 f r h4 h3
    · have hi0 : i0 < i := by omega
      rw [repLoop_skip pos end_ i0 f (h5 i0 le_rfl hi0 (by omega)) (by omega)]
      exact ih (i0 + 2) i r (by omega) (by omega) h3 h4
        (fun j hj1 hj2 hj3 => h5 j (by omega) hj2 (by omega)) (by omega)

/-- C8: is_repetition walks the stack backward in even steps within the
window of min 16 plies-from-null half-moves (at least 4): below the
window it returns Not; at the first distance i whose candidate state the
loop body classifies - full key equal: Lose when the mover's
continuous-check counter is at least i, Win when the opponent's is, Draw
otherwise; board keys equal only: Superior when the mover's recorded hand
dominates the earlier one, Inferior when the earlier dominates - the
classification is returned; when no candidate in the window classifies it
returns Not. -/
theorem c8_is_repetition :
    (∀ pos : Position, min 16 pos.st.pliesFromNull < 4 →
      pos.is_repetition = Repetition.Not)
    ∧ (∀ (pos : Position) (i : Nat) (r : Repetition),
        4 ≤ i → i ≤ min 16 pos.st.pliesFromNull → i % 2 = 0 →
        classifyAt pos i = some r →
        (∀ j, 4 ≤ j → j < i → j % 2 = 0 → classifyAt pos j = none) →
        pos.is_repetition = r)
    ∧ (∀ pos : Position,
        (∀ j, 4 ≤ j → j ≤ min 16 pos.st.pliesFromNull → j % 2 = 0 →
          classifyAt pos j = none) →
        pos.is_repetition = Repetition.Not)
    ∧ (∀ (pos : Position) (i : Nat),
        Position.key pos = (pos.states.getD i StateInfo.ZERO).key →
        classifyAt pos i =
          some (if i ≤ pos.st.continuousChecks pos.base.sideToMove then Repetition.Lose
            else if i ≤ pos.st.continuousChecks (colorInverse pos.base.sideToMove) then
              Repetition.Win
            else Repetition.Draw)) := by
  refine ⟨?_, ?_, ?_, ?_⟩
  · intro pos h
    unfold Position.is_repetition
    rw [if_pos h]
  · intro pos i r h4 hle h2 hc hprior
    unfold Position.is_repetition
    rw [if_neg (by omega)]
    exact repLoop_first pos (min 16 pos.st.pliesFromNull) 8 4 i r h4 (by omega) hle hc
      (fun j hj1 hj2 hj3 => hprior j hj1 hj2 (by omega)) (by omega)
  · intro pos h
    by_cases hw : min 16 pos.st.pliesFromNull < 4
    · unfold Position.is_repetition
      rw [if_pos hw]
    · unfold Position.is_repetition
      rw [if_neg hw]
      exact repLoop_none pos (min 16 pos.st.pliesFromNull) 8 4
        (fun j hj1 hj2 hj3 => h j hj1 hj2 (by omega))
  · intro pos i hkey
    unfold classifyAt
    rw [if_pos hkey]

/-- C8 witness: on the five-ply stack of c8Pos the distance-4 candidate
matches the full key with no continuous checks, so is_repetition returns
Draw by the first-classification clause. -/
theorem c8_is_repetition_witness : c8Pos.is_repetition = Repetition.Draw := by
  exact c8_is_repetition.2.1 c8Pos 4 Repetition.Draw (by omega) (by decide) (by omega)
    (by decide) (fun j hj1 hj2 hj3 => absurd hj2 (by omega))

theorem two_pow_le_of_testBit {bb t : Nat} (h : bb.testBit t = true) : 2 ^ t ≤ bb := by
  by_contra hlt
  push_neg at hlt
  rw [Nat.testBit_lt_two_pow hlt] at h
  exact Bool.noConfusion h

theorem bb_exists_sq {bb : Nat} (hne : bb ≠ 0) (hlt : bb < 2 ^ 81) :
    ∃ t, t < 81 ∧ bb.testBit t = true := by
  obtain ⟨i, hi, _⟩ := Nat.exists_most_significant_bit hne
  refine ⟨i, ?_, hi⟩
  have h2 := two_pow_le_of_testBit hi
  by_contra hge
  push_neg at hge
  have : (2 : Nat) ^ 81 ≤ 2 ^ i := Nat.pow_le_pow_right (by norm_num) hge
  omega

theorem bb_ne_zero_of_testBit {bb t : Nat} (h : bb.testBit t = true) : bb ≠ 0 := by
  intro h0
  rw [h0, Nat.zero_testBit] at h
  exact Bool.noConfusion h

theorem squareMask_lt {sq : Nat} (h : sq < 81) : squareMask sq < 2 ^ 81 := by
  unfold squareMask
  rw [Nat.shiftLeft_eq, Nat.one_mul]
  exact Nat.pow_lt_pow_right (by norm_num) h

theorem stepTargets_lt (sq : Nat) (offs : List (Int × Int)) :
    stepTargets sq offs < 2 ^ 81 := by
  unfold stepTargets
  suffices h : ∀ (l : List (Int × Int)) (acc : Nat), acc < 2 ^ 81 →
      List.foldl (fun acc off =>
        let f : Int := (fileOf sq : Nat) + off.1
        let r : Int := (rankOf sq : Nat) + off.2
        if 0 ≤ f ∧ f < 9 ∧ 0 ≤ r ∧ r < 9 then
          acc ||| squareMask (f.toNat * 9 + r.toNat)
        else acc) acc l < 2 ^ 81 by
    exact h offs 0 (by positivity)
  intro l
  induction l with
  | nil => intro acc hacc; exact hacc
  | cons hd tl ih =>
    intro acc hacc
    simp only [List.foldl_cons]
    apply ih
    split
    · rename_i hcond
      apply Nat.or_lt_two_pow hacc
      apply squareMask_lt
      have h1 : ((fileOf sq : Nat) : Int) + hd.1 < 9 := hcond.2.1
      have h2 : ((rankOf sq : Nat) : Int) + hd.2 < 9 := hcond.2.2.2
      have h3 : (0 : Int) ≤ (fileOf sq : Nat) + hd.1 := hcond.1
      have h4 : (0 : Int) ≤ (rankOf sq : Nat) + hd.2 := hcond.2.2.1
      omega
    · exact hacc

theorem rayGo_lt (occ : Nat) (df dr : Int) (f r : Int) (fuel : Nat) :
    rayGo occ df dr f r fuel < 2 ^ 81 := by
  induction fuel generalizing f r with
  | zero => unfold rayGo; positivity
  | succ n ih =>
    unfold rayGo
    simp only []
    split
    · rename_i hcond
      have hsq : (f + df).toNat * 9 + (r + dr).toNat < 81 := by omega
      split
      · exact squareMask_lt hsq
      · exact Nat.or_lt_two_pow (squareMask_lt hsq) (ih _ _)
    · positivity

theorem rayAttack_lt (sq : Nat) (df dr : Int) (occ : Nat) :
    rayAttack sq df dr occ < 2 ^ 81 :=
  rayGo_lt occ df dr _ _ 8

theorem kingAttack_lt (sq : Nat) : kingAttack sq < 2 ^ 81 := stepTargets_lt sq _

theorem attackers_to_except_king_lance_pawn_lt (pos : PositionBase) (c t occ : Nat) :
    pos.attackers_to_except_king_lance_pawn c t occ < 2 ^ 81 := by
  unfold PositionBase.attackers_to_except_king_lance_pawn
  refine Nat.lt_of_le_of_lt Nat.and_le_left ?_
  refine Nat.or_lt_two_pow (Nat.or_lt_two_pow (Nat.or_lt_two_pow (Nat.or_lt_two_pow
    ?_ ?_) ?_) ?_) ?_
  · exact Nat.lt_of_le_of_lt Nat.and_le_left (stepTargets_lt _ _)
  · exact Nat.lt_of_le_of_lt Nat.and_le_left (stepTargets_lt _ _)
  · exact Nat.lt_of_le_of_lt Nat.and_le_left (stepTargets_lt _ _)
  · unfold bishopAttack
    refine Nat.lt_of_le_of_lt Nat.and_le_left ?_
    exact Nat.or_lt_two_pow (Nat.or_lt_two_pow (Nat.or_lt_two_pow (rayAttack_lt _ _ _ _)
      (rayAttack_lt _ _ _ _)) (rayAttack_lt _ _ _ _)) (rayAttack_lt _ _ _ _)
  · unfold rookAttack
    refine Nat.lt_of_le_of_lt Nat.and_le_left ?_
    exact Nat.or_lt_two_pow (Nat.or_lt_two_pow (Nat.or_lt_two_pow (rayAttack_lt _ _ _ _)
      (rayAttack_lt _ _ _ _)) (rayAttack_lt _ _ _ _)) (rayAttack_lt _ _ _ _)

theorem testBit_bbNot {bb : Nat} {t : Nat} (ht : t < 81) :
    (bbNot bb).testBit t = !bb.testBit t := by
  unfold bbNot Bitboard.ALL
  rw [Nat.testBit_xor, Nat.testBit_and, Nat.testBit_two_pow_sub_one]
  simp [ht]

/-- C7: given that a pawn of the color dropped on the square checks the
enemy king directly, is_drop_pawn_mate returns false when no own piece
defends the square; false when some defender other than the king, a
lance, or a pawn can capture there while not pinned or pinned only along
the file of the square; false when the enemy king has an escape-candidate
square not covered by an attacker of the dropping side once the pawn is
added to the occupancy; and true otherwise. -/
theorem c7_is_drop_pawn_mate (pos : Position) (us sq : Nat) (hsq : sq < 81) :
    (pos.base.attackers_to us sq pos.base.occupied_bb = 0 →
      pos.is_drop_pawn_mate us sq = false)
    ∧ (∀ t, (pos.base.attackers_to_except_king_lance_pawn (colorInverse us) sq
          pos.base.occupied_bb).testBit t = true →
        (pos.blockers_for_king (colorInverse us)).testBit t = false
          ∨ (fileMask (fileOf sq)).testBit t = true →
        pos.is_drop_pawn_mate us sq = false)
    ∧ (∀ t, t < 81 →
        ((kingAttack (pos.base.king_square (colorInverse us))
            &&& bbNot (pos.base.pieces_c (colorInverse us)))
          ^^^ squareMask sq).testBit t = true →
        pos.base.attackers_to us t (pos.base.occupied_bb ^^^ squareMask sq) = 0 →
        pos.is_drop_pawn_mate us sq = false)
    ∧ (pos.base.attackers_to us sq pos.base.occupied_bb ≠ 0 →
        pos.base.attackers_to_except_king_lance_pawn (colorInverse us) sq
            pos.base.occupied_bb
          &&& (bbNot (pos.blockers_for_king (colorInverse us))
            ||| fileMask (fileOf sq)) = 0 →
        (∀ t, t < 81 →
          ((kingAttack (pos.base.king_square (colorInverse us))
              &&& bbNot (pos.base.pieces_c (colorInverse us)))
            ^^^ squareMask sq).testBit t = true →
          pos.base.attackers_to us t (pos.base.occupied_bb ^^^ squareMask sq) ≠ 0) →
        pos.is_drop_pawn_mate us sq = true) := by
  refine ⟨?_, ?_, ?_, ?_⟩
  · intro h
    simp [Position.is_drop_pawn_mate, bbToBool, h]
  · intro t hcand hexempt
    cases hdefb : bbToBool (pos.base.attackers_to us sq pos.base.occupied_bb) with
    | false => simp [Position.is_drop_pawn_mate, hdefb]
    | true =>
      have ht81 : t < 81 := by
        have hb := attackers_to_except_king_lance_pawn_lt pos.base (colorInverse us) sq
          pos.base.occupied_bb
        have h2 := two_pow_le_of_testBit hcand
        by_contra hge
        push_neg at hge
        have : (2 : Nat) ^ 81 ≤ 2 ^ t := Nat.pow_le_pow_right (by norm_num) hge
        omega
      have hcc : (pos.base.attackers_to_except_king_lance_pawn (colorInverse us) sq
          pos.base.occupied_bb
          &&& (bbNot (pos.blockers_for_king (colorInverse us))
            ||| fileMask (fileOf sq))).testBit t = true := by
        rw [Nat.testBit_and, Nat.testBit_or, testBit_bbNot ht81, hcand]
        rcases hexempt with h | h
        · simp [h]
        · simp [h]
      have hccb : bbToBool (pos.base.attackers_to_except_king_lance_pawn (colorInverse us)
          sq pos.base.occupied_bb
          &&& (bbNot (pos.blockers_for_king (colorInverse us))
            ||| fileMask (fileOf sq))) = true := by
        simp [bbToBool, bb_ne_zero_of_testBit hcc]
      simp [Position.is_drop_pawn_mate, hdefb, hccb]
  · intro t ht81 hesc hatt
    cases hdefb : bbToBool (pos.base.attackers_to us sq pos.base.occupied_bb) with
    | false => simp [Position.is_drop_pawn_mate, hdefb]
    | true =>
      cases hccb : bbToBool (pos.base.attackers_to_except_king_lance_pawn
          (colorInverse us) sq pos.base.occupied_bb
          &&& (bbNot (pos.blockers_for_king (colorInverse us))
            ||| fileMask (fileOf sq))) with
      | true => simp [Position.is_drop_pawn_mate, hdefb, hccb]
      | false =>
        simp only [Position.is_drop_pawn_mate, hdefb, hccb, Bool.not_true,
          Bool.false_eq_true, if_false]
        rw [Bool.eq_false_iff]
        intro hall
        have hmem := List.all_eq_true.mp hall t (mem_bbSquares.mpr ⟨ht81, hesc⟩)
        simp [bbToBool, hatt] at hmem
  · intro hdef hcc hesc
    have hdefb : bbToBool (pos.base.attackers_to us sq pos.base.occupied_bb) = true := by
      simp [bbToBool, hdef]
    have hccb : bbToBool (pos.base.attackers_to_except_king_lance_pawn
        (colorInverse us) sq pos.base.occupied_bb
        &&& (bbNot (pos.blockers_for_king (colorInverse us))
          ||| fileMask (fileOf sq))) = false := by
      simp [bbToBool, hcc]
    simp only [Position.is_drop_pawn_mate, hdefb, hccb, Bool.not_true,
      Bool.false_eq_true, if_false]
    rw [List.all_eq_true]
    intro t hmem
    obtain ⟨ht81, htb⟩ := mem_bbSquares.mp hmem
    simp [bbToBool, hesc t ht81 htb]

/-- C7 witness: dropping the black pawn on square 73 in c7Pos is mate -
the pawn is defended, no white piece can capture it, and the white king
has no uncovered escape. -/
theorem c7_is_drop_pawn_mate_witness :
    c7Pos.is_drop_pawn_mate Color.BLACK 73 = true := by
  exact (c7_is_drop_pawn_mate c7Pos Color.BLACK 73 (by omega)).2.2.2
    (by decide) (by decide) (by decide)

theorem and_mask_shift (v s k : Nat) :
    (v &&& ((2 ^ k - 1) <<< s)) >>> s = v / 2 ^ s % 2 ^ k := by
  apply Nat.eq_of_testBit_eq
  intro i
  rw [Nat.testBit_shiftRight, Nat.testBit_and, Nat.testBit_shiftLeft,
    Nat.testBit_two_pow_sub_one]
  rw [show v / 2 ^ s = v >>> s from (Nat.shiftRight_eq_div_pow v s).symm]
  rw [Nat.testBit_mod_two_pow, Nat.testBit_shiftRight]
  by_cases hik : i < k
  · simp [hik, Nat.add_sub_cancel_left, Nat.le_add_right]
  · simp [hik, Nat.le_add_right]

theorem piece_type_dropped_new_drop (pc t : Nat) (ht : t < 128) :
    Move.piece_type_dropped (Move.new_drop pc t) = pc % 16 := by
  unfold Move.piece_type_dropped
  rw [show (0x1e00 : Nat) = (2 ^ 4 - 1) <<< 9 from by decide, and_mask_shift,
    new_drop_eq pc t ht,
    show 256 + pc * 512 + t = 2 ^ 9 * pc + (256 + t) from by ring,
    Nat.mul_add_div (by norm_num), Nat.div_eq_of_lt (by omega), Nat.add_zero]
  norm_num

theorem piece_dropped_new_drop (pc t : Nat) (hp : pc < 32) (ht : t < 128) :
    Move.piece_dropped (Move.new_drop pc t) = pc := by
  unfold Move.piece_dropped
  rw [show (0x3e00 : Nat) = (2 ^ 5 - 1) <<< 9 from by decide, and_mask_shift,
    new_drop_eq pc t ht,
    show 256 + pc * 512 + t = 2 ^ 9 * pc + (256 + t) from by ring,
    Nat.mul_add_div (by norm_num), Nat.div_eq_of_lt (by omega), Nat.add_zero]
  norm_num [Nat.mod_eq_of_lt hp]

theorem move_to_new_drop (pc t : Nat) (ht : t < 128) :
    Move.to_ (Move.new_drop pc t) = t := by
  unfold Move.to_ Move.TO_MASK
  rw [mask7_eq_mod, new_drop_eq pc t ht,
    show 256 + pc * 512 + t = 128 * (2 + pc * 4) + t from by ring, Nat.mul_add_mod]
  exact Nat.mod_eq_of_lt ht

theorem testBit_xor_imp {a b i : Nat} (h : (a ^^^ b).testBit i = true) :
    a.testBit i = true ∨ b.testBit i = true := by
  by_cases ha : a.testBit i = true
  · exact Or.inl ha
  · right
    rw [Bool.not_eq_true] at ha
    rw [Nat.testBit_xor, ha] at h
    simpa using h

theorem testBit_squareMask {t0 t : Nat} (h : (squareMask t0).testBit t = true) :
    t = t0 := by
  unfold squareMask at h
  rw [Nat.shiftLeft_eq, Nat.one_mul, Nat.testBit_two_pow] at h
  exact (of_decide_eq_true h).symm

theorem bbLsb_testBit {bb : Nat} (hne : bb ≠ 0) (hlt : bb < 2 ^ 81) :
    bb.testBit (bbLsb bb) = true := by
  obtain ⟨t, ht81, htb⟩ := bb_exists_sq hne hlt
  unfold bbLsb
  cases h : bbSquares bb with
  | nil =>
    have hmem := mem_bbSquares.mpr ⟨ht81, htb⟩
    rw [h] at hmem
    cases hmem
  | cons a l =>
    have hmem : a ∈ bbSquares bb := by rw [h]; exact List.mem_cons_self a l
    simpa using (mem_bbSquares.mp hmem).2

theorem pieceTypeOf_new {us pt : Nat} (hus : us < 2) (hpt : pt < 16) :
    pieceTypeOf (Piece.new us pt) = pt := by
  unfold pieceTypeOf Piece.new
  omega

set_option maxRecDepth 100000 in
theorem g1_rank1 : ∀ us < 2, ∀ t < 81,
    (rankMask (rankFromRankAsBlack us RankAsBlack.RANK1)).testBit t = true →
    rankAsBlack us (rankOf t) = 0 := by decide

set_option maxRecDepth 100000 in
theorem g2_rank2 : ∀ us < 2, ∀ t < 81,
    (rankMask (rankFromRankAsBlack us RankAsBlack.RANK2)).testBit t = true →
    rankAsBlack us (rankOf t) = 1 := by decide

set_option maxRecDepth 100000 in
theorem g3_rest : ∀ us < 2, ∀ t < 81,
    (bbNot (rankMask (rankFromRankAsBlack us RankAsBlack.RANK1)
      ||| rankMask (rankFromRankAsBlack us RankAsBlack.RANK2))).testBit t = true →
    2 ≤ rankAsBlack us (rankOf t) := by decide

set_option maxRecDepth 100000 in
theorem g5_notRank1 : ∀ us < 2, ∀ t < 81,
    (bbNot (rankMask (rankFromRankAsBlack us RankAsBlack.RANK1))).testBit t = true →
    1 ≤ rankAsBlack us (rankOf t) := by decide

set_option maxRecDepth 100000 in
theorem g4_pawnCheckRank : ∀ us < 2, ∀ ksq < 81, ∀ t < 81,
    (pawnAttack (colorInverse us) ksq).testBit t = true →
    1 ≤ rankAsBlack us (rankOf t) := by decide

theorem foldl_and_testBit {l : List Nat} {acc t : Nat}
    (h : (l.foldl (fun bb sq => bb &&& bbNot (fileMask (fileOf sq))) acc).testBit t
      = true) : acc.testBit t = true := by
  induction l generalizing acc with
  | nil => exact h
  | cons hd tl ih =>
    have h2 := ih h
    rw [Nat.testBit_and] at h2
    exact (Bool.and_eq_true_iff.mp h2).1

theorem pawnAttack_oob {c sq : Nat} (h : 81 ≤ sq) : pawnAttack c sq = 0 := by
  unfold pawnAttack stepTargets
  simp only [List.foldl_cons, List.foldl_nil]
  rw [if_neg]
  intro hcond
  have h2 : ((fileOf sq : Nat) : Int) < 9 := hcond.2.1
  unfold fileOf at h2
  omega

theorem mem_ite_singleton {pc a : Nat} {c : Prop} [Decidable c]
    (h : pc ∈ if c then [a] else []) : pc = a := by
  split at h
  · simpa using h
  · cases h

theorem pt_of_mem_ite {us pt pc : Nat} (hus : us < 2) (hpt : pt < 16) {c : Prop}
    [Decidable c] (h : pc ∈ if c then [Piece.new us pt] else []) :
    pieceTypeOf pc = pt := by
  rw [mem_ite_singleton h]
  exact pieceTypeOf_new hus hpt

theorem bbLsb_lt {bb : Nat} (hne : bb ≠ 0) (hlt : bb < 2 ^ 81) : bbLsb bb < 81 := by
  obtain ⟨t2, ht2, htb2⟩ := bb_exists_sq hne hlt
  unfold bbLsb
  cases hq : bbSquares bb with
  | nil =>
    have hmem := mem_bbSquares.mpr ⟨ht2, htb2⟩
    rw [hq] at hmem
    cases hmem
  | cons a l =>
    have hmem : a ∈ bbSquares bb := by rw [hq]; exact List.mem_cons_self a l
    simpa using (mem_bbSquares.mp hmem).1

/-- C10: pseudo_legal puts no destination-rank restriction on drops: in
c10Pos (Black holds a knight, the back-rank square 0 is empty, no check)
the knight drop onto square 0 is pseudo-legal in both variants, legal
(legal accepts every drop), and accepted by Move::new_from_usi_str as
"N*1a" - although generate_drop never emits a knight drop onto the last
two relative ranks, nor a lance or pawn drop onto the last relative
rank. -/
theorem c10_knight_drop_back_rank :
    (c10Pos.pseudo_legal true (Move.new_drop 3 0) = true
      ∧ c10Pos.pseudo_legal false (Move.new_drop 3 0) = true
      ∧ c10Pos.legal (Move.new_drop 3 0) = true
      ∧ Move.new_from_usi_str "N*1a" c10Pos = some (Move.new_drop 3 0))
    ∧ (∀ (pos : Position) (target m : Nat), pos.base.sideToMove < 2 →
        m ∈ MoveList.generate_drop pos target →
        (Move.piece_type_dropped m = PieceType.KNIGHT →
          2 ≤ rankAsBlack pos.base.sideToMove (rankOf (Move.to_ m)))
        ∧ (Move.piece_type_dropped m = PieceType.LANCE →
          1 ≤ rankAsBlack pos.base.sideToMove (rankOf (Move.to_ m)))
        ∧ (Move.piece_type_dropped m = PieceType.PAWN →
          1 ≤ rankAsBlack pos.base.sideToMove (rankOf (Move.to_ m)))) := by
  constructor
  · exact ⟨by decide, by decide, by decide, by decide⟩
  · intro pos target m hus hm
    unfold MoveList.generate_drop at hm
    simp only [List.mem_append] at hm
    rcases hm with hm | hm
    · -- pawn drops
      by_cases hex : (pos.base.hand pos.base.sideToMove).exist PieceType.PAWN = true
      · simp only [hex, if_true, List.mem_map] at hm
        obtain ⟨t, ht, hmv⟩ := hm
        subst hmv
        obtain ⟨ht81, htb⟩ := mem_bbSquares.mp ht
        have hptd : Move.piece_type_dropped
            (Move.new_drop (Piece.new pos.base.sideToMove PieceType.PAWN) t) = 1 := by
          rw [piece_type_dropped_new_drop _ t (by omega)]
          unfold Piece.new PieceType.PAWN
          omega
        have hto : Move.to_
            (Move.new_drop (Piece.new pos.base.sideToMove PieceType.PAWN) t) = t :=
          move_to_new_drop _ t (by omega)
        refine ⟨fun hk => ?_, fun hl => ?_, fun _ => ?_⟩
        · rw [hptd] at hk; exact absurd hk (by decide)
        · rw [hptd] at hl; exact absurd hl (by decide)
        · rw [hto]
          -- t is in toBB2; trace it back to the rank-1 exclusion or the
          -- drop-pawn-check square
          revert htb
          split
          · rename_i hcheck
            split
            · intro htb
              rcases testBit_xor_imp htb with htb1 | htb0
              · have h0 := foldl_and_testBit htb1
                rw [Nat.testBit_and] at h0
                exact g5_notRank1 pos.base.sideToMove hus t ht81
                  (Bool.and_eq_true_iff.mp h0).2
              · have ht0 := testBit_squareMask htb0
                subst ht0
                have hne : pawnAttack (colorInverse pos.base.sideToMove)
                    (pos.base.king_square (colorInverse pos.base.sideToMove)) ≠ 0 := by
                  intro h0
                  rw [h0] at hcheck
                  simp [bbToBool, Nat.zero_and] at hcheck
                by_cases hksq : pos.base.king_square (colorInverse pos.base.sideToMove) < 81
                · have hlsb := bbLsb_testBit hne (stepTargets_lt _ _)
                  exact g4_pawnCheckRank pos.base.sideToMove hus _ hksq _
                    (bbLsb_lt hne (stepTargets_lt _ _)) hlsb
                · exact absurd (pawnAttack_oob (by omega)) hne
            · intro htb
              have h0 := foldl_and_testBit htb
              rw [Nat.testBit_and] at h0
              exact g5_notRank1 pos.base.sideToMove hus t ht81
                (Bool.and_eq_true_iff.mp h0).2
          · intro htb
            have h0 := foldl_and_testBit htb
            rw [Nat.testBit_and] at h0
            exact g5_notRank1 pos.base.sideToMove hus t ht81
              (Bool.and_eq_true_iff.mp h0).2
      · simp only [hex] at hm
        rw [if_neg (by simpa using hex)] at hm
        cases hm
    · -- other drops
      by_cases hex : (pos.base.hand pos.base.sideToMove).except_pawn_exist = true
      · rw [if_pos hex] at hm
        rw [List.mem_append, List.mem_append] at hm
        have hdecode : ∀ (poss : List Nat) (band : Nat),
            m ∈ generate_drop_for_possessions poss band →
            ∃ t pc, t < 81 ∧ band.testBit t = true ∧ pc ∈ poss
              ∧ m = Move.new_drop pc t := by
          intro poss band hmem
          unfold generate_drop_for_possessions at hmem
          rw [List.mem_flatMap] at hmem
          obtain ⟨t, ht, hmem⟩ := hmem
          rw [List.mem_map] at hmem
          obtain ⟨pc, hpc, hmv⟩ := hmem
          obtain ⟨ht81, htb⟩ := mem_bbSquares.mp ht
          exact ⟨t, pc, ht81, htb, hpc, hmv.symm⟩
        rcases hm with (hm | hm) | hm
        · obtain ⟨t, pc, ht81, htb, hpc, hmv⟩ := hdecode _ _ hm
          subst hmv
          have hpt : pieceTypeOf pc = 6 ∨ pieceTypeOf pc = 5 ∨ pieceTypeOf pc = 7
              ∨ pieceTypeOf pc = 4 := by
            simp only [List.mem_append] at hpc
            rcases hpc with ((h | h) | h) | h
            · exact Or.inl (pt_of_mem_ite hus (by decide) h)
            · exact Or.inr (Or.inl (pt_of_mem_ite hus (by decide) h))
            · exact Or.inr (Or.inr (Or.inl (pt_of_mem_ite hus (by decide) h)))
            · exact Or.inr (Or.inr (Or.inr (pt_of_mem_ite hus (by decide) h)))
          rw [piece_type_dropped_new_drop pc t (by omega)]
          unfold pieceTypeOf at hpt
          refine ⟨fun hk => ?_, fun hl => ?_, fun hp => ?_⟩
          · unfold PieceType.KNIGHT at hk; omega
          · unfold PieceType.LANCE at hl; omega
          · unfold PieceType.PAWN at hp; omega
        · obtain ⟨t, pc, ht81, htb, hpc, hmv⟩ := hdecode _ _ hm
          subst hmv
          have hpt : pieceTypeOf pc = 6 ∨ pieceTypeOf pc = 5 ∨ pieceTypeOf pc = 7
              ∨ pieceTypeOf pc = 4 ∨ pieceTypeOf pc = 2 := by
            simp only [List.mem_append] at hpc
            rcases hpc with (((h | h) | h) | h) | h
            · exact Or.inl (pt_of_mem_ite hus (by decide) h)
            · exact Or.inr (Or.inl (pt_of_mem_ite hus (by decide) h))
            · exact Or.inr (Or.inr (Or.inl (pt_of_mem_ite hus (by decide) h)))
            · exact Or.inr (Or.inr (Or.inr (Or.inl (pt_of_mem_ite hus (by decide) h))))
            · exact Or.inr (Or.inr (Or.inr (Or.inr (pt_of_mem_ite hus (by decide) h))))
          rw [piece_type_dropped_new_drop pc t (by omega),
            move_to_new_drop pc t (by omega)]
          have hmask : (rankMask (rankFromRankAsBlack pos.base.sideToMove
              RankAsBlack.RANK2)).testBit t = true := by
            rw [Nat.testBit_and] at htb
            exact (Bool.and_eq_true_iff.mp htb).2
          have hr := g2_rank2 pos.base.sideToMove hus t ht81 hmask
          unfold pieceTypeOf at hpt
          refine ⟨fun hk => ?_, fun _ => ?_, fun hp => ?_⟩
          · unfold PieceType.KNIGHT at hk; omega
          · omega
          · unfold PieceType.PAWN at hp; omega
        · obtain ⟨t, pc, ht81, htb, hpc, hmv⟩ := hdecode _ _ hm
          subst hmv
          have hpt : pieceTypeOf pc = 6 ∨ pieceTypeOf pc = 5 ∨ pieceTypeOf pc = 7
              ∨ pieceTypeOf pc = 4 ∨ pieceTypeOf pc = 2 ∨ pieceTypeOf pc = 3 := by
            simp only [List.mem_append] at hpc
            rcases hpc with ((((h | h) | h) | h) | h) | h
            · exact Or.inl (pt_of_mem_ite hus (by decide) h)
            · exact Or.inr (Or.inl (pt_of_mem_ite hus (by decide) h))
            · exact Or.inr (Or.inr (Or.inl (pt_of_mem_ite hus (by decide) h)))
            · exact Or.inr (Or.inr (Or.inr (Or.inl (pt_of_mem_ite hus (by decide) h))))
            · exact Or.inr (Or.inr (Or.inr (Or.inr (Or.inl (pt_of_mem_ite hus
                (by decide) h)))))
            · exact Or.inr (Or.inr (Or.inr (Or.inr (Or.inr (pt_of_mem_ite hus
                (by decide) h)))))
          rw [piece_type_dropped_new_drop pc t (by omega),
            move_to_new_drop pc t (by omega)]
          have hmask : (bbNot (rankMask (rankFromRankAsBlack pos.base.sideToMove
                RankAsBlack.RANK1)
              ||| rankMask (rankFromRankAsBlack pos.base.sideToMove
                RankAsBlack.RANK2))).testBit t = true := by
            rw [Nat.testBit_and] at htb
            exact (Bool.and_eq_true_iff.mp htb).2
          have hr := g3_rest pos.base.sideToMove hus t ht81 hmask
          refine ⟨fun _ => hr, fun _ => by omega, fun hp => ?_⟩
          unfold pieceTypeOf at hpt
          unfold PieceType.PAWN at hp
          omega
      · simp only [hex] at hm
        rw [if_neg (by simpa using hex)] at hm
        cases hm

/-- Witness for c10_knight_drop_back_rank: in c10Pos with target the single
square 2 (relative rank 2), generate_drop emits the knight drop there, and
the theorem's rank bound is met with equality. -/
theorem c10_knight_drop_back_rank_witness :
    c10Pos.base.sideToMove < 2
    ∧ Move.new_drop 3 2 ∈ MoveList.generate_drop c10Pos (squareMask 2)
    ∧ 2 ≤ rankAsBlack c10Pos.base.sideToMove (rankOf (Move.to_ (Move.new_drop 3 2))) :=
  ⟨by decide, by decide,
    (c10_knight_drop_back_rank.2 c10Pos (squareMask 2) (Move.new_drop 3 2)
      (by decide) (by decide)).1 (by decide)⟩

/-- C6: see_ge returns false at once when the value captured on the
to-square minus the threshold is negative; returns true at once when the
balance stays non-negative even after giving the moving piece away;
otherwise it runs the exchange loop of alternating cheapest recaptures
(with pin filtering and x-ray insertion, as embedded in seeLoop and
min_attacker) and returns true iff the final side to move differs from
the original mover; and the loop returns the current side to move as soon
as that side has no usable attacker. -/
theorem c6_see_ge :
    (∀ (pos : Position) (m : Nat) (t : Int),
      capturePieceValue (pos.base.piece_on (Move.to_ m)) - t < 0 →
      pos.see_ge m t = false)
    ∧ (∀ (pos : Position) (m : Nat) (t : Int),
      ¬ capturePieceValue (pos.base.piece_on (Move.to_ m)) - t < 0 →
      0 ≤ capturePieceValue (pos.base.piece_on (Move.to_ m)) - t
        - capturePieceTypeValue (if Move.is_drop m then Move.piece_type_dropped m
            else pieceTypeOf (pos.base.piece_on (Move.from_ m))) →
      pos.see_ge m t = true)
    ∧ (∀ (pos : Position) (m : Nat) (t : Int),
      ¬ capturePieceValue (pos.base.piece_on (Move.to_ m)) - t < 0 →
      ¬ 0 ≤ capturePieceValue (pos.base.piece_on (Move.to_ m)) - t
        - capturePieceTypeValue (if Move.is_drop m then Move.piece_type_dropped m
            else pieceTypeOf (pos.base.piece_on (Move.from_ m))) →
      pos.see_ge m t =
        (pos.base.sideToMove !=
          seeLoop pos (Move.to_ m) 82
            (if Move.is_drop m then pos.base.occupied_bb ^^^ squareMask (Move.to_ m)
             else pos.base.occupied_bb ^^^ squareMask (Move.to_ m)
               ^^^ squareMask (Move.from_ m))
            (pos.base.attackers_to_both_color (Move.to_ m)
              (if Move.is_drop m then pos.base.occupied_bb ^^^ squareMask (Move.to_ m)
               else pos.base.occupied_bb ^^^ squareMask (Move.to_ m)
                 ^^^ squareMask (Move.from_ m))
              &&& (if Move.is_drop m then pos.base.occupied_bb ^^^ squareMask (Move.to_ m)
               else pos.base.occupied_bb ^^^ squareMask (Move.to_ m)
                 ^^^ squareMask (Move.from_ m)))
            (colorInverse pos.base.sideToMove)
            (capturePieceValue (pos.base.piece_on (Move.to_ m)) - t
              - capturePieceTypeValue (if Move.is_drop m then Move.piece_type_dropped m
                  else pieceTypeOf (pos.base.piece_on (Move.from_ m))))))
    ∧ (∀ (pos : Position) (to_ fuel occupied attackers sideToMove : Nat) (balance : Int),
      (if !bbToBool (pos.pinners_for_king (colorInverse sideToMove) &&& bbNot occupied) then
        (attackers &&& pos.base.pieces_c sideToMove) &&& bbNot (pos.blockers_for_king sideToMove)
      else attackers &&& pos.base.pieces_c sideToMove) = 0 →
      seeLoop pos to_ (fuel + 1) occupied attackers sideToMove balance = sideToMove) := by
  refine ⟨?_, ?_, ?_, ?_⟩
  · intro pos m t h
    unfold Position.see_ge
    simp only []
    rw [if_pos h]
  · intro pos m t h1 h2
    unfold Position.see_ge
    simp only []
    rw [if_neg h1, if_pos h2]
  · intro pos m t h1 h2
    unfold Position.see_ge
    simp only []
    rw [if_neg h1, if_neg h2]
  · intro pos to_ fuel occupied attackers sideToMove balance h
    conv_lhs => unfold seeLoop
    simp only []
    rw [h]
    simp [bbToBool]

/-- Witness for c6_see_ge on the pawn-takes-defended-pawn position
c2Pos: with threshold 200 the capture falls short at once; with threshold
0 the early non-negative balance returns true; with threshold 90 the gold
recapture makes the loop end on the mover, so see_ge is false; and the
loop with no attackers returns the side to move. -/
theorem c6_see_ge_witness :
    c2Pos.see_ge c2m 200 = false
    ∧ c2Pos.see_ge c2m 0 = true
    ∧ c2Pos.see_ge c2m 90 = false
    ∧ seeLoop c2Pos 39 1 0 0 0 0 = 0 :=
  ⟨c6_see_ge.1 c2Pos c2m 200 (by decide),
   c6_see_ge.2.1 c2Pos c2m 0 (by decide) (by decide),
   (c6_see_ge.2.2.1 c2Pos c2m 90 (by decide) (by decide)).trans (by decide),
   c6_see_ge.2.2.2 c2Pos 39 0 0 0 0 0 (by decide)⟩

/-! Helper lemmas for the do_move/undo_move round trip and the Zobrist
key invariant: xor algebra, hand counting, projections of the base
mutators, and facts extracted from a successful pseudo-legality test. -/

theorem xor_left_comm (a b c : Nat) : a ^^^ (b ^^^ c) = b ^^^ (a ^^^ c) := by
  rw [← Nat.xor_assoc, Nat.xor_comm a b, Nat.xor_assoc]

theorem Hand.plus_minus (h : Hand) (pt : Nat) : (h.plus_one pt).minus_one pt = h := by
  unfold Hand.plus_one Hand.minus_one
  split_ifs <;> simp

theorem Hand.minus_plus (h : Hand) (pt : Nat) (hn : h.num pt ≠ 0) :
    (h.minus_one pt).plus_one pt = h := by
  obtain ⟨a, b, c, d, e, f, g⟩ := h
  unfold Hand.num at hn
  unfold Hand.plus_one Hand.minus_one
  split_ifs at hn ⊢ <;> simp_all <;> omega

theorem Hand.exist_bounds (h : Hand) (pt : Nat) (he : h.exist pt = true) :
    1 ≤ pt ∧ pt ≤ 7 := by
  unfold Hand.exist Hand.num at he
  unfold PieceType.PAWN PieceType.LANCE PieceType.KNIGHT PieceType.SILVER
    PieceType.BISHOP PieceType.ROOK PieceType.GOLD at he
  split_ifs at he <;> try omega
  simp at he

theorem xor_bbs_board (p : PositionBase) (c pt sq : Nat) :
    (p.xor_bbs c pt sq).board = p.board := rfl

theorem xor_bbs_hands (p : PositionBase) (c pt sq : Nat) :
    (p.xor_bbs c pt sq).hands = p.hands := rfl

theorem xor_bbs_goldsBB (p : PositionBase) (c pt sq : Nat) :
    (p.xor_bbs c pt sq).goldsBB = p.goldsBB := rfl

theorem xor_bbs_gamePly (p : PositionBase) (c pt sq : Nat) :
    (p.xor_bbs c pt sq).gamePly = p.gamePly := rfl

theorem xor_bbs_kingSquares (p : PositionBase) (c pt sq : Nat) :
    (p.xor_bbs c pt sq).kingSquares = p.kingSquares := rfl

theorem xor_bbs_sideToMove (p : PositionBase) (c pt sq : Nat) :
    (p.xor_bbs c pt sq).sideToMove = p.sideToMove := rfl

theorem xor_bbs_byTypeBB (p : PositionBase) (c pt sq i : Nat) :
    (p.xor_bbs c pt sq).byTypeBB i =
      if i = pt then
        (if pt = PieceType.OCCUPIED then p.byTypeBB PieceType.OCCUPIED ^^^ squareMask sq
         else p.byTypeBB pt) ^^^ squareMask sq
      else if i = PieceType.OCCUPIED then p.byTypeBB PieceType.OCCUPIED ^^^ squareMask sq
      else p.byTypeBB i := by
  unfold PositionBase.xor_bbs
  simp only [Function.update_apply]
  try rfl
  try (split_ifs <;> simp_all)

theorem xor_bbs_byColorBB (p : PositionBase) (c pt sq i : Nat) :
    (p.xor_bbs c pt sq).byColorBB i =
      if i = c then p.byColorBB c ^^^ squareMask sq else p.byColorBB i := by
  unfold PositionBase.xor_bbs
  simp only [Function.update_apply]
  try rfl
  try (split_ifs <;> simp_all)

theorem put_piece_board (p : PositionBase) (pc sq : Nat) :
    (p.put_piece pc sq).board = Function.update p.board sq pc := rfl

theorem put_piece_hands (p : PositionBase) (pc sq : Nat) :
    (p.put_piece pc sq).hands = p.hands := rfl

theorem put_piece_goldsBB (p : PositionBase) (pc sq : Nat) :
    (p.put_piece pc sq).goldsBB = p.goldsBB := rfl

theorem put_piece_gamePly (p : PositionBase) (pc sq : Nat) :
    (p.put_piece pc sq).gamePly = p.gamePly := rfl

theorem put_piece_kingSquares (p : PositionBase) (pc sq : Nat) :
    (p.put_piece pc sq).kingSquares = p.kingSquares := rfl

theorem put_piece_sideToMove (p : PositionBase) (pc sq : Nat) :
    (p.put_piece pc sq).sideToMove = p.sideToMove := rfl

theorem put_piece_byTypeBB (p : PositionBase) (pc sq i : Nat) :
    (p.put_piece pc sq).byTypeBB i =
      if i = pieceTypeOf pc then
        (if pieceTypeOf pc = PieceType.OCCUPIED then
          p.byTypeBB PieceType.OCCUPIED ^^^ squareMask sq
         else p.byTypeBB (pieceTypeOf pc)) ^^^ squareMask sq
      else if i = PieceType.OCCUPIED then p.byTypeBB PieceType.OCCUPIED ^^^ squareMask sq
      else p.byTypeBB i :=
  xor_bbs_byTypeBB p (colorOf pc) (pieceTypeOf pc) sq i

theorem put_piece_byColorBB (p : PositionBase) (pc sq i : Nat) :
    (p.put_piece pc sq).byColorBB i =
      if i = colorOf pc then p.byColorBB (colorOf pc) ^^^ squareMask sq
      else p.byColorBB i :=
  xor_bbs_byColorBB p (colorOf pc) (pieceTypeOf pc) sq i

theorem remove_piece_board (p : PositionBase) (pc sq : Nat) :
    (p.remove_piece pc sq).board = Function.update p.board sq Piece.EMPTY := rfl

theorem remove_piece_hands (p : PositionBase) (pc sq : Nat) :
    (p.remove_piece pc sq).hands = p.hands := rfl

theorem remove_piece_goldsBB (p : PositionBase) (pc sq : Nat) :
    (p.remove_piece pc sq).goldsBB = p.goldsBB := rfl

theorem remove_piece_gamePly (p : PositionBase) (pc sq : Nat) :
    (p.remove_piece pc sq).gamePly = p.gamePly := rfl

theorem remove_piece_kingSquares (p : PositionBase) (pc sq : Nat) :
    (p.remove_piece pc sq).kingSquares = p.kingSquares := rfl

theorem remove_piece_sideToMove (p : PositionBase) (pc sq : Nat) :
    (p.remove_piece pc sq).sideToMove = p.sideToMove := rfl

theorem remove_piece_byTypeBB (p : PositionBase) (pc sq i : Nat) :
    (p.remove_piece pc sq).byTypeBB i =
      if i = pieceTypeOf pc then
        (if pieceTypeOf pc = PieceType.OCCUPIED then
          p.byTypeBB PieceType.OCCUPIED ^^^ squareMask sq
         else p.byTypeBB (pieceTypeOf pc)) ^^^ squareMask sq
      else if i = PieceType.OCCUPIED then p.byTypeBB PieceType.OCCUPIED ^^^ squareMask sq
      else p.byTypeBB i :=
  xor_bbs_byTypeBB p (colorOf pc) (pieceTypeOf pc) sq i

theorem remove_piece_byColorBB (p : PositionBase) (pc sq i : Nat) :
    (p.remove_piece pc sq).byColorBB i =
      if i = colorOf pc then p.byColorBB (colorOf pc) ^^^ squareMask sq
      else p.byColorBB i :=
  xor_bbs_byColorBB p (colorOf pc) (pieceTypeOf pc) sq i

theorem exchange_pieces_board (p : PositionBase) (pc sq : Nat) :
    (p.exchange_pieces pc sq).board = Function.update p.board sq pc := rfl

theorem exchange_pieces_hands (p : PositionBase) (pc sq : Nat) :
    (p.exchange_pieces pc sq).hands = p.hands := rfl

theorem exchange_pieces_goldsBB (p : PositionBase) (pc sq : Nat) :
    (p.exchange_pieces pc sq).goldsBB = p.goldsBB := rfl

theorem exchange_pieces_gamePly (p : PositionBase) (pc sq : Nat) :
    (p.exchange_pieces pc sq).gamePly = p.gamePly := rfl

theorem exchange_pieces_kingSquares (p : PositionBase) (pc sq : Nat) :
    (p.exchange_pieces pc sq).kingSquares = p.kingSquares := rfl

theorem exchange_pieces_sideToMove (p : PositionBase) (pc sq : Nat) :
    (p.exchange_pieces pc sq).sideToMove = p.sideToMove := rfl

theorem exchange_pieces_byTypeBB (p : PositionBase) (pc sq i : Nat) :
    (p.exchange_pieces pc sq).byTypeBB i =
      if i = pieceTypeOf pc then
        (if pieceTypeOf pc = pieceTypeOf (p.piece_on sq) then
          p.byTypeBB (pieceTypeOf (p.piece_on sq)) ^^^ squareMask sq
        else p.byTypeBB (pieceTypeOf pc)) ^^^ squareMask sq
      else if i = pieceTypeOf (p.piece_on sq) then
        p.byTypeBB (pieceTypeOf (p.piece_on sq)) ^^^ squareMask sq
      else p.byTypeBB i := by
  unfold PositionBase.exchange_pieces
  simp only [Function.update_apply]
  try rfl
  try (split_ifs <;> simp_all)

theorem exchange_pieces_byColorBB (p : PositionBase) (pc sq i : Nat) :
    (p.exchange_pieces pc sq).byColorBB i =
      if i = colorInverse (colorOf (p.piece_on sq)) then
        (if colorInverse (colorOf (p.piece_on sq)) = colorOf (p.piece_on sq) then
          p.byColorBB (colorOf (p.piece_on sq)) ^^^ squareMask sq
        else p.byColorBB (colorInverse (colorOf (p.piece_on sq)))) ^^^ squareMask sq
      else if i = colorOf (p.piece_on sq) then
        p.byColorBB (colorOf (p.piece_on sq)) ^^^ squareMask sq
      else p.byColorBB i := by
  unfold PositionBase.exchange_pieces
  simp only [Function.update_apply]
  try rfl
  try (split_ifs <;> simp_all)

theorem set_golds_bb_board (p : PositionBase) : p.set_golds_bb.board = p.board := rfl

theorem set_golds_bb_byTypeBB (p : PositionBase) : p.set_golds_bb.byTypeBB = p.byTypeBB := rfl

theorem set_golds_bb_byColorBB (p : PositionBase) : p.set_golds_bb.byColorBB = p.byColorBB := rfl

theorem set_golds_bb_hands (p : PositionBase) : p.set_golds_bb.hands = p.hands := rfl

theorem set_golds_bb_gamePly (p : PositionBase) : p.set_golds_bb.gamePly = p.gamePly := rfl

theorem set_golds_bb_kingSquares (p : PositionBase) :
    p.set_golds_bb.kingSquares = p.kingSquares := rfl

theorem set_golds_bb_sideToMove (p : PositionBase) :
    p.set_golds_bb.sideToMove = p.sideToMove := rfl

theorem set_golds_bb_goldsBB (p : PositionBase) :
    p.set_golds_bb.goldsBB = p.byTypeBB PieceType.GOLD ||| p.byTypeBB PieceType.PRO_PAWN
      ||| p.byTypeBB PieceType.PRO_LANCE ||| p.byTypeBB PieceType.PRO_KNIGHT
      ||| p.byTypeBB PieceType.PRO_SILVER := rfl

theorem pseudo_legal_drop_facts (pos : Position) (s : Bool) (m : Nat)
    (hd : Move.is_drop m = true) (h : pos.pseudo_legal s m = true) :
    colorOf (Move.piece_dropped m) = pos.base.sideToMove
    ∧ (pos.base.hand pos.base.sideToMove).exist (pieceTypeOf (Move.piece_dropped m)) = true
    ∧ pos.base.piece_on (Move.to_ m) = Piece.EMPTY := by
  unfold Position.pseudo_legal at h
  rw [if_pos hd] at h
  simp only [] at h
  by_cases h1 : colorOf (Move.piece_dropped m) ≠ pos.base.sideToMove
  · rw [if_pos h1] at h; cases h
  rw [if_neg h1] at h
  by_cases h2 : (!(pos.base.hand pos.base.sideToMove).exist
      (pieceTypeOf (Move.piece_dropped m))) = true
  · rw [if_pos h2] at h; cases h
  rw [if_neg h2] at h
  by_cases h3 : pos.base.piece_on (Move.to_ m) ≠ Piece.EMPTY
  · rw [if_pos h3] at h; cases h
  refine ⟨not_not.mp h1, ?_, not_not.mp h3⟩
  revert h2
  cases (pos.base.hand pos.base.sideToMove).exist (pieceTypeOf (Move.piece_dropped m)) <;> simp

theorem pseudo_legal_board_facts (pos : Position) (s : Bool) (m : Nat)
    (hd : Move.is_drop m = false) (h : pos.pseudo_legal s m = true) :
    pos.base.piece_on (Move.from_ m) ≠ Piece.EMPTY
    ∧ colorOf (pos.base.piece_on (Move.from_ m)) = pos.base.sideToMove
    ∧ (Move.is_promotion m = true →
        Piece.is_promotable (pos.base.piece_on (Move.from_ m)) = true) := by
  unfold Position.pseudo_legal at h
  rw [if_neg (by simp [hd])] at h
  simp only [] at h
  by_cases h1 : pos.base.piece_on (Move.from_ m) = Piece.EMPTY
      ∨ pos.base.piece_on (Move.from_ m) ≠ Move.piece_moved_before_move m
      ∨ colorOf (pos.base.piece_on (Move.from_ m)) ≠ pos.base.sideToMove
  · rw [if_pos h1] at h; cases h
  rw [if_neg h1] at h
  push_neg at h1
  obtain ⟨hne, hmv, hcol⟩ := h1
  refine ⟨hne, hcol, ?_⟩
  intro hp
  by_cases hb : bbIsSet (pos.base.pieces_c pos.base.sideToMove) (Move.to_ m) = true
  · rw [if_pos hb] at h; cases h
  rw [if_neg hb] at h
  by_cases hr : (!bbIsSet (attackTable (pieceTypeOf (pos.base.piece_on (Move.from_ m)))
      pos.base.sideToMove (Move.from_ m) pos.base.occupied_bb) (Move.to_ m)) = true
  · rw [if_pos hr] at h; cases h
  rw [if_neg hr] at h
  by_cases hpr : Piece.is_promotable (pos.base.piece_on (Move.from_ m)) = true
  · exact hpr
  have hpf : Piece.is_promotable (pos.base.piece_on (Move.from_ m)) = false := by
    revert hpr; cases Piece.is_promotable (pos.base.piece_on (Move.from_ m)) <;> simp
  rw [hp] at h
  simp [hpf] at h

theorem do_move_states_tail (zt : ZTab) (pos : Position) (m : Nat) (g : Bool) :
    (Position.do_move zt pos m g).states.tail = pos.states := by
  unfold Position.do_move
  simp only []
  split
  · rfl
  split <;> rfl

theorem do_move_base_drop (zt : ZTab) (pos : Position) (m : Nat) (g : Bool)
    (hd : Move.is_drop m = true) :
    (Position.do_move zt pos m g).base = doDropResult pos.base m := by
  unfold Position.do_move doDropResult
  rw [if_pos hd]

theorem do_move_base_board (zt : ZTab) (pos : Position) (m : Nat) (g : Bool)
    (hd : Move.is_drop m = false) :
    (Position.do_move zt pos m g).base =
      if (doCaptured pos.base m != Piece.EMPTY) = true then doBoardResultCap pos.base m
      else doBoardResultNoncap pos.base m := by
  unfold Position.do_move
  rw [if_neg (by simp [hd])]
  simp only []
  split
  · rename_i h
    rw [if_pos (show (doCaptured pos.base m != Piece.EMPTY) = true from h)]
    rfl
  · rename_i h
    rw [if_neg (show ¬ (doCaptured pos.base m != Piece.EMPTY) = true from h)]
    rfl

theorem do_move_st_capturedPiece_board (zt : ZTab) (pos : Position) (m : Nat) (g : Bool)
    (hd : Move.is_drop m = false) :
    (Position.do_move zt pos m g).st.capturedPiece =
      if (doCaptured pos.base m != Piece.EMPTY) = true then doCaptured pos.base m
      else Piece.EMPTY := by
  unfold Position.do_move
  rw [if_neg (by simp [hd])]
  simp only []
  split
  · rename_i h
    rw [if_pos (show (doCaptured pos.base m != Piece.EMPTY) = true from h)]
    rfl
  · rename_i h
    rw [if_neg (show ¬ (doCaptured pos.base m != Piece.EMPTY) = true from h)]
    rfl

theorem doKingFix_board (p b3 : PositionBase) (m : Nat) :
    (doKingFix p b3 m).board = b3.board := by
  unfold doKingFix; split <;> rfl

theorem doKingFix_byTypeBB (p b3 : PositionBase) (m : Nat) :
    (doKingFix p b3 m).byTypeBB = b3.byTypeBB := by
  unfold doKingFix; split <;> rfl

theorem doKingFix_byColorBB (p b3 : PositionBase) (m : Nat) :
    (doKingFix p b3 m).byColorBB = b3.byColorBB := by
  unfold doKingFix; split <;> rfl

theorem doKingFix_hands (p b3 : PositionBase) (m : Nat) :
    (doKingFix p b3 m).hands = b3.hands := by
  unfold doKingFix; split <;> rfl

theorem doKingFix_gamePly (p b3 : PositionBase) (m : Nat) :
    (doKingFix p b3 m).gamePly = b3.gamePly := by
  unfold doKingFix; split <;> rfl

theorem doKingFix_goldsBB (p b3 : PositionBase) (m : Nat) :
    (doKingFix p b3 m).goldsBB = b3.goldsBB := by
  unfold doKingFix; split <;> rfl

theorem doKingFix_sideToMove (p b3 : PositionBase) (m : Nat) :
    (doKingFix p b3 m).sideToMove = b3.sideToMove := by
  unfold doKingFix; split <;> rfl

theorem doKingFix_kingSquares (p b3 : PositionBase) (m : Nat) :
    (doKingFix p b3 m).kingSquares =
      if pieceTypeOf (doPcTo p m) = PieceType.KING then
        Function.update b3.kingSquares p.sideToMove
          (bbLsb (b3.pieces_cp p.sideToMove PieceType.KING))
      else b3.kingSquares := by
  unfold doKingFix; split <;> simp_all

theorem demote_promote (pc : Nat) (h32 : pc < 32)
    (hpr : Piece.is_promotable pc = true) :
    Piece.to_demote (Piece.to_promote pc) = pc := by
  revert hpr
  revert h32
  revert pc
  decide

theorem promote_not_king (pc : Nat) (h32 : pc < 32)
    (hpr : Piece.is_promotable pc = true) :
    pieceTypeOf (Piece.to_promote pc) ≠ PieceType.KING := by
  revert hpr
  revert h32
  revert pc
  decide

theorem doBoardResultCap_board (p : PositionBase) (m : Nat) :
    (doBoardResultCap p m).board =
      (doKingFix p ((doBoardBase2 p m).put_piece (doPcTo p m) (Move.to_ m)) m).board := rfl

theorem doBoardResultCap_byTypeBB (p : PositionBase) (m : Nat) :
    (doBoardResultCap p m).byTypeBB =
      (doKingFix p ((doBoardBase2 p m).put_piece (doPcTo p m) (Move.to_ m)) m).byTypeBB := rfl

theorem doBoardResultCap_byColorBB (p : PositionBase) (m : Nat) :
    (doBoardResultCap p m).byColorBB =
      (doKingFix p ((doBoardBase2 p m).put_piece (doPcTo p m) (Move.to_ m)) m).byColorBB := rfl

theorem doBoardResultCap_hands (p : PositionBase) (m : Nat) :
    (doBoardResultCap p m).hands =
      (doKingFix p ((doBoardBase2 p m).put_piece (doPcTo p m) (Move.to_ m)) m).hands := rfl

theorem doBoardResultCap_gamePly (p : PositionBase) (m : Nat) :
    (doBoardResultCap p m).gamePly =
      (doKingFix p ((doBoardBase2 p m).put_piece (doPcTo p m) (Move.to_ m)) m).gamePly := rfl

theorem doBoardResultCap_kingSquares (p : PositionBase) (m : Nat) :
    (doBoardResultCap p m).kingSquares =
      (doKingFix p ((doBoardBase2 p m).put_piece (doPcTo p m) (Move.to_ m)) m).kingSquares := rfl

theorem doBoardResultCap_sideToMove (p : PositionBase) (m : Nat) :
    (doBoardResultCap p m).sideToMove = colorInverse p.sideToMove := rfl

theorem doBoardResultNoncap_board (p : PositionBase) (m : Nat) :
    (doBoardResultNoncap p m).board =
      (doKingFix p ((doBoardBase1 p m).put_piece (doPcTo p m) (Move.to_ m)) m).board := rfl

theorem doBoardResultNoncap_byTypeBB (p : PositionBase) (m : Nat) :
    (doBoardResultNoncap p m).byTypeBB =
      (doKingFix p ((doBoardBase1 p m).put_piece (doPcTo p m) (Move.to_ m)) m).byTypeBB := rfl

theorem doBoardResultNoncap_byColorBB (p : PositionBase) (m : Nat) :
    (doBoardResultNoncap p m).byColorBB =
      (doKingFix p ((doBoardBase1 p m).put_piece (doPcTo p m) (Move.to_ m)) m).byColorBB := rfl

theorem doBoardResultNoncap_hands (p : PositionBase) (m : Nat) :
    (doBoardResultNoncap p m).hands =
      (doKingFix p ((doBoardBase1 p m).put_piece (doPcTo p m) (Move.to_ m)) m).hands := rfl

theorem doBoardResultNoncap_gamePly (p : PositionBase) (m : Nat) :
    (doBoardResultNoncap p m).gamePly =
      (doKingFix p ((doBoardBase1 p m).put_piece (doPcTo p m) (Move.to_ m)) m).gamePly := rfl

theorem doBoardResultNoncap_kingSquares (p : PositionBase) (m : Nat) :
    (doBoardResultNoncap p m).kingSquares =
      (doKingFix p ((doBoardBase1 p m).put_piece (doPcTo p m) (Move.to_ m)) m).kingSquares := rfl

theorem doBoardResultNoncap_sideToMove (p : PositionBase) (m : Nat) :
    (doBoardResultNoncap p m).sideToMove = colorInverse p.sideToMove := rfl

theorem doBoardBase1_board (p : PositionBase) (m : Nat) :
    (doBoardBase1 p m).board = Function.update p.board (Move.from_ m) Piece.EMPTY := rfl

theorem doBoardBase1_byTypeBB (p : PositionBase) (m : Nat) (i : Nat) :
    (doBoardBase1 p m).byTypeBB i =
      if i = pieceTypeOf (p.piece_on (Move.from_ m)) then
        (if pieceTypeOf (p.piece_on (Move.from_ m)) = PieceType.OCCUPIED then
          p.byTypeBB PieceType.OCCUPIED ^^^ squareMask (Move.from_ m)
         else p.byTypeBB (pieceTypeOf (p.piece_on (Move.from_ m))))
          ^^^ squareMask (Move.from_ m)
      else if i = PieceType.OCCUPIED then
        p.byTypeBB PieceType.OCCUPIED ^^^ squareMask (Move.from_ m)
      else p.byTypeBB i :=
  remove_piece_byTypeBB _ _ _ _

theorem doBoardBase1_byColorBB (p : PositionBase) (m : Nat) (i : Nat) :
    (doBoardBase1 p m).byColorBB i =
      if i = colorOf (p.piece_on (Move.from_ m)) then
        p.byColorBB (colorOf (p.piece_on (Move.from_ m))) ^^^ squareMask (Move.from_ m)
      else p.byColorBB i :=
  remove_piece_byColorBB _ _ _ _

theorem doBoardBase1_hands (p : PositionBase) (m : Nat) :
    (doBoardBase1 p m).hands = p.hands := rfl

theorem doBoardBase1_gamePly (p : PositionBase) (m : Nat) :
    (doBoardBase1 p m).gamePly = p.gamePly + 1 := rfl

theorem doBoardBase1_kingSquares (p : PositionBase) (m : Nat) :
    (doBoardBase1 p m).kingSquares = p.kingSquares := rfl

theorem doBoardBase1_sideToMove (p : PositionBase) (m : Nat) :
    (doBoardBase1 p m).sideToMove = p.sideToMove := rfl

theorem doBoardBase2_board (p : PositionBase) (m : Nat) :
    (doBoardBase2 p m).board = Function.update p.board (Move.from_ m) Piece.EMPTY := rfl

theorem doBoardBase2_byTypeBB (p : PositionBase) (m : Nat) (i : Nat) :
    (doBoardBase2 p m).byTypeBB i =
      if i = pieceTypeOf (doCaptured p m) then
        (if pieceTypeOf (doCaptured p m) = PieceType.OCCUPIED then
          (doBoardBase1 p m).byTypeBB PieceType.OCCUPIED ^^^ squareMask (Move.to_ m)
         else (doBoardBase1 p m).byTypeBB (pieceTypeOf (doCaptured p m)))
          ^^^ squareMask (Move.to_ m)
      else if i = PieceType.OCCUPIED then
        (doBoardBase1 p m).byTypeBB PieceType.OCCUPIED ^^^ squareMask (Move.to_ m)
      else (doBoardBase1 p m).byTypeBB i :=
  xor_bbs_byTypeBB (doBoardBase1 p m) (colorInverse p.sideToMove)
    (pieceTypeOf (doCaptured p m)) (Move.to_ m) i

theorem doBoardBase2_byColorBB (p : PositionBase) (m : Nat) (i : Nat) :
    (doBoardBase2 p m).byColorBB i =
      if i = colorInverse p.sideToMove then
        (doBoardBase1 p m).byColorBB (colorInverse p.sideToMove) ^^^ squareMask (Move.to_ m)
      else (doBoardBase1 p m).byColorBB i :=
  xor_bbs_byColorBB (doBoardBase1 p m) (colorInverse p.sideToMove)
    (pieceTypeOf (doCaptured p m)) (Move.to_ m) i

theorem doBoardBase2_hands (p : PositionBase) (m : Nat) :
    (doBoardBase2 p m).hands =
      Function.update p.hands p.sideToMove
        ((p.hands p.sideToMove).plus_one
          (PieceType.to_demote_if_possible (pieceTypeOf (doCaptured p m)))) := rfl

theorem doBoardBase2_gamePly (p : PositionBase) (m : Nat) :
    (doBoardBase2 p m).gamePly = p.gamePly + 1 := rfl

theorem doBoardBase2_kingSquares (p : PositionBase) (m : Nat) :
    (doBoardBase2 p m).kingSquares = p.kingSquares := rfl

theorem doBoardBase2_sideToMove (p : PositionBase) (m : Nat) :
    (doBoardBase2 p m).sideToMove = p.sideToMove := rfl

theorem doCaptured_eq (p : PositionBase) (m : Nat) :
    doCaptured p m = Function.update p.board (Move.from_ m) Piece.EMPTY (Move.to_ m) := rfl

theorem promote_color (pc : Nat) (h32 : pc < 32)
    (hpr : Piece.is_promotable pc = true) :
    colorOf (Piece.to_promote pc) = colorOf pc := by
  revert hpr
  revert h32
  revert pc
  decide


theorem xor_bbs_byTypeBB_x (p : PositionBase) (c pt sq i : Nat) :
    (p.xor_bbs c pt sq).byTypeBB i =
      p.byTypeBB i ^^^ (if i = pt then squareMask sq else 0)
        ^^^ (if i = PieceType.OCCUPIED then squareMask sq else 0) := by
  rw [xor_bbs_byTypeBB]
  split_ifs <;> simp_all [Nat.xor_assoc]

theorem xor_bbs_byColorBB_x (p : PositionBase) (c pt sq i : Nat) :
    (p.xor_bbs c pt sq).byColorBB i =
      p.byColorBB i ^^^ (if i = c then squareMask sq else 0) := by
  rw [xor_bbs_byColorBB]
  split_ifs <;> simp_all

theorem put_piece_byTypeBB_x (p : PositionBase) (pc sq i : Nat) :
    (p.put_piece pc sq).byTypeBB i =
      p.byTypeBB i ^^^ (if i = pieceTypeOf pc then squareMask sq else 0)
        ^^^ (if i = PieceType.OCCUPIED then squareMask sq else 0) :=
  xor_bbs_byTypeBB_x p (colorOf pc) (pieceTypeOf pc) sq i

theorem put_piece_byColorBB_x (p : PositionBase) (pc sq i : Nat) :
    (p.put_piece pc sq).byColorBB i =
      p.byColorBB i ^^^ (if i = colorOf pc then squareMask sq else 0) :=
  xor_bbs_byColorBB_x p (colorOf pc) (pieceTypeOf pc) sq i

theorem remove_piece_byTypeBB_x (p : PositionBase) (pc sq i : Nat) :
    (p.remove_piece pc sq).byTypeBB i =
      p.byTypeBB i ^^^ (if i = pieceTypeOf pc then squareMask sq else 0)
        ^^^ (if i = PieceType.OCCUPIED then squareMask sq else 0) :=
  xor_bbs_byTypeBB_x p (colorOf pc) (pieceTypeOf pc) sq i

theorem remove_piece_byColorBB_x (p : PositionBase) (pc sq i : Nat) :
    (p.remove_piece pc sq).byColorBB i =
      p.byColorBB i ^^^ (if i = colorOf pc then squareMask sq else 0) :=
  xor_bbs_byColorBB_x p (colorOf pc) (pieceTypeOf pc) sq i

theorem exchange_pieces_byTypeBB_x (p : PositionBase) (pc sq i : Nat) :
    (p.exchange_pieces pc sq).byTypeBB i =
      p.byTypeBB i ^^^ (if i = pieceTypeOf (p.piece_on sq) then squareMask sq else 0)
        ^^^ (if i = pieceTypeOf pc then squareMask sq else 0) := by
  rw [exchange_pieces_byTypeBB]
  split_ifs <;> simp_all [Nat.xor_assoc]

theorem exchange_pieces_byColorBB_x (p : PositionBase) (pc sq i : Nat) :
    (p.exchange_pieces pc sq).byColorBB i =
      p.byColorBB i ^^^ (if i = colorOf (p.piece_on sq) then squareMask sq else 0)
        ^^^ (if i = colorInverse (colorOf (p.piece_on sq)) then squareMask sq else 0) := by
  rw [exchange_pieces_byColorBB]
  split_ifs <;> first | simp_all [Nat.xor_assoc, Nat.xor_comm] | omega

theorem doBoardBase1_byTypeBB_x (p : PositionBase) (m : Nat) (i : Nat) :
    (doBoardBase1 p m).byTypeBB i =
      p.byTypeBB i
        ^^^ (if i = pieceTypeOf (p.piece_on (Move.from_ m)) then squareMask (Move.from_ m)
          else 0)
        ^^^ (if i = PieceType.OCCUPIED then squareMask (Move.from_ m) else 0) :=
  remove_piece_byTypeBB_x _ _ _ _

theorem doBoardBase1_byColorBB_x (p : PositionBase) (m : Nat) (i : Nat) :
    (doBoardBase1 p m).byColorBB i =
      p.byColorBB i
        ^^^ (if i = colorOf (p.piece_on (Move.from_ m)) then squareMask (Move.from_ m)
          else 0) :=
  remove_piece_byColorBB_x _ _ _ _

theorem doBoardBase2_byTypeBB_x (p : PositionBase) (m : Nat) (i : Nat) :
    (doBoardBase2 p m).byTypeBB i =
      (doBoardBase1 p m).byTypeBB i
        ^^^ (if i = pieceTypeOf (doCaptured p m) then squareMask (Move.to_ m) else 0)
        ^^^ (if i = PieceType.OCCUPIED then squareMask (Move.to_ m) else 0) :=
  xor_bbs_byTypeBB_x (doBoardBase1 p m) (colorInverse p.sideToMove)
    (pieceTypeOf (doCaptured p m)) (Move.to_ m) i

theorem doBoardBase2_byColorBB_x (p : PositionBase) (m : Nat) (i : Nat) :
    (doBoardBase2 p m).byColorBB i =
      (doBoardBase1 p m).byColorBB i
        ^^^ (if i = colorInverse p.sideToMove then squareMask (Move.to_ m) else 0) :=
  xor_bbs_byColorBB_x (doBoardBase1 p m) (colorInverse p.sideToMove)
    (pieceTypeOf (doCaptured p m)) (Move.to_ m) i

set_option maxHeartbeats 8000000 in
theorem do_undo_eq (zt : ZTab) (pos : Position) (m : Nat) (g : Bool)
    (hus : pos.base.sideToMove < 2)
    (hgold : pos.base.goldsBB = pos.base.byTypeBB PieceType.GOLD
      ||| pos.base.byTypeBB PieceType.PRO_PAWN ||| pos.base.byTypeBB PieceType.PRO_LANCE
      ||| pos.base.byTypeBB PieceType.PRO_KNIGHT ||| pos.base.byTypeBB PieceType.PRO_SILVER)
    (hking : ∀ c, c < 2 → ∀ sq, pos.base.board sq = Piece.new c PieceType.KING →
      sq = pos.base.kingSquares c)
    (hpl : pos.pseudo_legal false m = true) :
    Position.undo_move (Position.do_move zt pos m g) m = pos := by
  have hinv : colorInverse (colorInverse pos.base.sideToMove) = pos.base.sideToMove := by
    unfold colorInverse; omega
  by_cases hd : Move.is_drop m = true
  · obtain ⟨hcol, hex, hemp⟩ := pseudo_legal_drop_facts pos false m hd hpl
    obtain ⟨hpt1, hpt7⟩ := Hand.exist_bounds _ _ hex
    have hpt0 : pieceTypeOf (Move.piece_dropped m) ≠ PieceType.OCCUPIED := by
      unfold PieceType.OCCUPIED; omega
    have hnum : (pos.base.hands pos.base.sideToMove).num
        (pieceTypeOf (Move.piece_dropped m)) ≠ 0 := by
      simpa [Hand.exist, PositionBase.hand] using hex
    simp only [PositionBase.piece_on] at hemp
    have hbase := do_move_base_drop zt pos m g hd
    have htail := do_move_states_tail zt pos m g
    generalize hD : Position.do_move zt pos m g = D
    rw [hD] at hbase htail
    unfold Position.undo_move
    simp only []
    rw [htail]
    rw [if_pos hd]
    rw [hbase]
    unfold doDropResult
    obtain ⟨⟨bd, tbb, cbb, gl, hnds, gp, ks, stm⟩, sts⟩ := pos
    simp only [] at hemp hnum hgold hinv ⊢
    rw [Position.mk.injEq]
    refine ⟨?_, rfl⟩
    rw [PositionBase.mk.injEq]
    refine ⟨?_, ?_, ?_, ?_, ?_, ?_, ?_, ?_⟩
    · simp only [set_golds_bb_board, remove_piece_board, put_piece_board]
      rw [Function.update_idem, ← hemp]
      exact Function.update_eq_self _ _
    · funext i
      simp only [set_golds_bb_byTypeBB, remove_piece_byTypeBB, put_piece_byTypeBB]
      by_cases hi : i = pieceTypeOf (Move.piece_dropped m)
      · subst hi
        simp [hpt0, set_golds_bb_byTypeBB, put_piece_byTypeBB, Nat.xor_cancel_right]
      · by_cases hi0 : i = PieceType.OCCUPIED
        · subst hi0
          simp [hpt0, hi, Ne.symm hpt0, set_golds_bb_byTypeBB, put_piece_byTypeBB,
            Nat.xor_cancel_right]
        · simp [hi, hi0, set_golds_bb_byTypeBB, put_piece_byTypeBB]
    · funext i
      simp only [set_golds_bb_byColorBB, remove_piece_byColorBB, put_piece_byColorBB]
      by_cases hi : i = colorOf (Move.piece_dropped m)
      · subst hi
        simp [set_golds_bb_byColorBB, put_piece_byColorBB, Nat.xor_cancel_right]
      · simp [hi, set_golds_bb_byColorBB, put_piece_byColorBB]
    · have h9 : PieceType.PRO_PAWN ≠ pieceTypeOf (Move.piece_dropped m) := by
        unfold PieceType.PRO_PAWN; omega
      have h10 : PieceType.PRO_LANCE ≠ pieceTypeOf (Move.piece_dropped m) := by
        unfold PieceType.PRO_LANCE; omega
      have h11 : PieceType.PRO_KNIGHT ≠ pieceTypeOf (Move.piece_dropped m) := by
        unfold PieceType.PRO_KNIGHT; omega
      have h12 : PieceType.PRO_SILVER ≠ pieceTypeOf (Move.piece_dropped m) := by
        unfold PieceType.PRO_SILVER; omega
      have hgo : PieceType.GOLD ≠ PieceType.OCCUPIED := by decide
      have h9o : PieceType.PRO_PAWN ≠ PieceType.OCCUPIED := by decide
      have h10o : PieceType.PRO_LANCE ≠ PieceType.OCCUPIED := by decide
      have h11o : PieceType.PRO_KNIGHT ≠ PieceType.OCCUPIED := by decide
      have h12o : PieceType.PRO_SILVER ≠ PieceType.OCCUPIED := by decide
      simp only [set_golds_bb_goldsBB, set_golds_bb_byTypeBB, remove_piece_byTypeBB,
        put_piece_byTypeBB]
      rw [hgold]
      by_cases hg : PieceType.GOLD = pieceTypeOf (Move.piece_dropped m)
      · simp [hg, h9, h10, h11, h12, hpt0, hgo, h9o, h10o, h11o, h12o,
          set_golds_bb_byTypeBB, put_piece_byTypeBB, Nat.xor_cancel_right]
      · simp [hg, h9, h10, h11, h12, hgo, h9o, h10o, h11o, h12o,
          set_golds_bb_byTypeBB, put_piece_byTypeBB, Nat.xor_cancel_right]
    · simp only [set_golds_bb_hands, remove_piece_hands, put_piece_hands, hinv,
        Function.update_same]
      rw [Function.update_idem, Hand.minus_plus _ _ hnum]
      exact Function.update_eq_self _ _
    · simp only [set_golds_bb_gamePly, remove_piece_gamePly, put_piece_gamePly]
      omega
    · simp only [set_golds_bb_kingSquares, remove_piece_kingSquares, put_piece_kingSquares]
    · exact hinv
  · have hd' : Move.is_drop m = false := by
      revert hd; cases Move.is_drop m <;> simp
    obtain ⟨hne, hcol, hprom⟩ := pseudo_legal_board_facts pos false m hd' hpl
    have h32 : pos.base.piece_on (Move.from_ m) < 32 := by
      unfold colorOf at hcol; omega
    have hbase := do_move_base_board zt pos m g hd'
    have hcapP := do_move_st_capturedPiece_board zt pos m g hd'
    have htail := do_move_states_tail zt pos m g
    generalize hD : Position.do_move zt pos m g = D
    rw [hD] at hbase hcapP htail
    unfold Position.undo_move
    simp only []
    rw [htail]
    rw [if_neg (by simp [hd'])]
    rw [hcapP, hbase]
    by_cases hcb : (doCaptured pos.base m != Piece.EMPTY) = true
    · simp only [if_pos hcb]
      have hcne : doCaptured pos.base m ≠ Piece.EMPTY := by simpa using hcb
      rw [if_pos hcne]
      have htf : Move.to_ m ≠ Move.from_ m := by
        intro h
        apply hcne
        rw [doCaptured_eq, h, Function.update_same]
      have hpcTo : (doBoardResultCap pos.base m).piece_on (Move.to_ m) = doPcTo pos.base m := by
        simp [PositionBase.piece_on, doBoardResultCap_board, doKingFix_board, put_piece_board,
          doBoardBase2_board]
      have hpcFrom : (if Move.is_promotion m = true then Piece.to_demote (doPcTo pos.base m)
          else doPcTo pos.base m) = pos.base.piece_on (Move.from_ m) := by
        by_cases hp : Move.is_promotion m = true
        · rw [if_pos hp]
          unfold doPcTo
          rw [if_pos hp, demote_promote _ h32 (hprom hp)]
        · rw [if_neg hp]
          unfold doPcTo
          rw [if_neg hp]
      have hcolTo : colorOf (doPcTo pos.base m) = pos.base.sideToMove := by
        unfold doPcTo
        by_cases hp : Move.is_promotion m = true
        · rw [if_pos hp, promote_color _ h32 (hprom hp)]
          exact hcol
        · rw [if_neg hp]
          exact hcol
      rw [hpcTo, hpcFrom, doBoardResultCap_sideToMove, hinv]
      clear hpl hD htail hcapP hbase hd hd' hcb
      rw [Position.mk.injEq]
      refine ⟨?_, rfl⟩
      rw [PositionBase.mk.injEq]
      refine ⟨?_, ?_, ?_, ?_, ?_, ?_, ?_, ?_⟩
      · simp only [set_golds_bb_board, apply_ite PositionBase.board, ite_self,
          put_piece_board, exchange_pieces_board, doBoardResultCap_board, doKingFix_board,
          doBoardBase2_board]
        rw [Function.update_idem]
        funext sq
        rcases eq_or_ne sq (Move.from_ m) with hsf | hsf
        · subst hsf
          rw [Function.update_same]
          simp [PositionBase.piece_on]
        · rw [Function.update_noteq hsf]
          rcases eq_or_ne sq (Move.to_ m) with hst | hst
          · subst hst
            rw [Function.update_same, doCaptured_eq, Function.update_noteq htf]
          · rw [Function.update_noteq hst, Function.update_noteq hsf]
      · funext i
        simp only [set_golds_bb_byTypeBB, apply_ite PositionBase.byTypeBB, ite_self,
          exchange_pieces_byTypeBB_x, put_piece_byTypeBB_x, doBoardResultCap_byTypeBB,
          doKingFix_byTypeBB, doBoardBase2_byTypeBB_x, doBoardBase1_byTypeBB_x,
          hpcTo, hpcFrom]
        simp only [Nat.xor_assoc, Nat.xor_comm, xor_left_comm, Nat.xor_cancel_left,
          Nat.xor_self, Nat.xor_zero, Nat.zero_xor]
      · funext i
        simp only [set_golds_bb_byColorBB, apply_ite PositionBase.byColorBB, ite_self,
          exchange_pieces_byColorBB_x, put_piece_byColorBB_x, doBoardResultCap_byColorBB,
          doKingFix_byColorBB, doBoardBase2_byColorBB_x, doBoardBase1_byColorBB_x,
          hpcTo, hpcFrom, hcolTo, hcol]
        simp only [Nat.xor_assoc, Nat.xor_comm, xor_left_comm, Nat.xor_cancel_left,
          Nat.xor_self, Nat.xor_zero, Nat.zero_xor]
      · simp only [set_golds_bb_goldsBB, set_golds_bb_byTypeBB, apply_ite PositionBase.byTypeBB,
          ite_self, exchange_pieces_byTypeBB_x, put_piece_byTypeBB_x, doBoardResultCap_byTypeBB,
          doKingFix_byTypeBB, doBoardBase2_byTypeBB_x, doBoardBase1_byTypeBB_x,
          hpcTo, hpcFrom]
        rw [hgold]
        simp only [Nat.xor_assoc, Nat.xor_comm, xor_left_comm, Nat.xor_cancel_left,
          Nat.xor_self, Nat.xor_zero, Nat.zero_xor]
      · simp only [set_golds_bb_hands, apply_ite PositionBase.hands, ite_self,
          put_piece_hands, exchange_pieces_hands, doBoardResultCap_hands, doKingFix_hands,
          doBoardBase2_hands, Function.update_same]
        rw [Function.update_idem, Hand.plus_minus]
        exact Function.update_eq_self _ _
      · simp only [set_golds_bb_gamePly, apply_ite PositionBase.gamePly, ite_self,
          put_piece_gamePly, exchange_pieces_gamePly, doBoardResultCap_gamePly,
          doKingFix_gamePly, doBoardBase2_gamePly]
        show pos.base.gamePly + 1 - 1 = pos.base.gamePly
        omega
      · simp only [set_golds_bb_kingSquares, apply_ite PositionBase.kingSquares, ite_self,
          put_piece_kingSquares, exchange_pieces_kingSquares, doBoardResultCap_kingSquares,
          doKingFix_kingSquares, doBoardBase2_kingSquares, Piece.is_king]
        by_cases hk : pieceTypeOf (doPcTo pos.base m) = PieceType.KING
        · rw [if_pos hk]
          rw [if_pos (by simpa using hk)]
          rw [Function.update_idem]
          have hpnp : Move.is_promotion m = false := by
            by_cases hp : Move.is_promotion m = true
            · exfalso
              apply promote_not_king _ h32 (hprom hp)
              unfold doPcTo at hk
              rw [if_pos hp] at hk
              exact hk
            · revert hp; cases Move.is_promotion m <;> simp
          have hkf : pieceTypeOf (pos.base.piece_on (Move.from_ m)) = PieceType.KING := by
            unfold doPcTo at hk
            rw [hpnp] at hk
            simpa using hk
          have hpcval : pos.base.piece_on (Move.from_ m)
              = Piece.new pos.base.sideToMove PieceType.KING := by
            unfold Piece.new PieceType.KING
            unfold pieceTypeOf PieceType.KING at hkf
            unfold colorOf at hcol
            omega
          have := hking pos.base.sideToMove hus (Move.from_ m) (by
            simpa [PositionBase.piece_on] using hpcval)
          rw [this]
          exact Function.update_eq_self _ _
        · rw [if_neg hk]
          rw [if_neg (by simpa using hk)]
      · rfl
    · simp only [if_neg hcb]
      have hceq : doCaptured pos.base m = Piece.EMPTY := by
        revert hcb
        cases hdc : doCaptured pos.base m == Piece.EMPTY <;> simp_all
      rw [if_neg (show ¬ (Piece.EMPTY ≠ Piece.EMPTY) from by simp)]
      have hpcTo : (doBoardResultNoncap pos.base m).piece_on (Move.to_ m)
          = doPcTo pos.base m := by
        simp [PositionBase.piece_on, doBoardResultNoncap_board, doKingFix_board,
          put_piece_board, doBoardBase1_board]
      have hpcFrom : (if Move.is_promotion m = true then Piece.to_demote (doPcTo pos.base m)
          else doPcTo pos.base m) = pos.base.piece_on (Move.from_ m) := by
        by_cases hp : Move.is_promotion m = true
        · rw [if_pos hp]
          unfold doPcTo
          rw [if_pos hp, demote_promote _ h32 (hprom hp)]
        · rw [if_neg hp]
          unfold doPcTo
          rw [if_neg hp]
      have hcolTo : colorOf (doPcTo pos.base m) = pos.base.sideToMove := by
        unfold doPcTo
        by_cases hp : Move.is_promotion m = true
        · rw [if_pos hp, promote_color _ h32 (hprom hp)]
          exact hcol
        · rw [if_neg hp]
          exact hcol
      rw [hpcTo, hpcFrom, doBoardResultNoncap_sideToMove, hinv]
      clear hpl hD htail hcapP hbase hd hd' hcb
      rw [Position.mk.injEq]
      refine ⟨?_, rfl⟩
      rw [PositionBase.mk.injEq]
      refine ⟨?_, ?_, ?_, ?_, ?_, ?_, ?_, ?_⟩
      · simp only [set_golds_bb_board, apply_ite PositionBase.board, ite_self,
          put_piece_board, remove_piece_board, doBoardResultNoncap_board, doKingFix_board,
          doBoardBase1_board]
        rw [Function.update_idem]
        funext sq
        rcases eq_or_ne sq (Move.from_ m) with hsf | hsf
        · subst hsf
          rw [Function.update_same]
          simp [PositionBase.piece_on]
        · rw [Function.update_noteq hsf]
          rcases eq_or_ne sq (Move.to_ m) with hst | hst
          · subst hst
            rw [Function.update_same]
            rw [doCaptured_eq] at hceq
            rw [Function.update_noteq hsf] at hceq
            exact hceq.symm
          · rw [Function.update_noteq hst, Function.update_noteq hsf]
      · funext i
        simp only [set_golds_bb_byTypeBB, apply_ite PositionBase.byTypeBB, ite_self,
          remove_piece_byTypeBB_x, put_piece_byTypeBB_x, doBoardResultNoncap_byTypeBB,
          doKingFix_byTypeBB, doBoardBase1_byTypeBB_x,
          hpcTo, hpcFrom]
        simp only [Nat.xor_assoc, Nat.xor_comm, xor_left_comm, Nat.xor_cancel_left,
          Nat.xor_self, Nat.xor_zero, Nat.zero_xor]
      · funext i
        simp only [set_golds_bb_byColorBB, apply_ite PositionBase.byColorBB, ite_self,
          remove_piece_byColorBB_x, put_piece_byColorBB_x, doBoardResultNoncap_byColorBB,
          doKingFix_byColorBB, doBoardBase1_byColorBB_x,
          hpcTo, hpcFrom, hcolTo, hcol]
        simp only [Nat.xor_assoc, Nat.xor_comm, xor_left_comm, Nat.xor_cancel_left,
          Nat.xor_self, Nat.xor_zero, Nat.zero_xor]
      · simp only [set_golds_bb_goldsBB, set_golds_bb_byTypeBB, apply_ite PositionBase.byTypeBB,
          ite_self, remove_piece_byTypeBB_x, put_piece_byTypeBB_x, doBoardResultNoncap_byTypeBB,
          doKingFix_byTypeBB, doBoardBase1_byTypeBB_x,
          hpcTo, hpcFrom]
        rw [hgold]
        simp only [Nat.xor_assoc, Nat.xor_comm, xor_left_comm, Nat.xor_cancel_left,
          Nat.xor_self, Nat.xor_zero, Nat.zero_xor]
      · simp only [set_golds_bb_hands, apply_ite PositionBase.hands, ite_self,
          put_piece_hands, remove_piece_hands, doBoardResultNoncap_hands, doKingFix_hands,
          doBoardBase1_hands]
      · simp only [set_golds_bb_gamePly, apply_ite PositionBase.gamePly, ite_self,
          put_piece_gamePly, remove_piece_gamePly, doBoardResultNoncap_gamePly,
          doKingFix_gamePly, doBoardBase1_gamePly]
        show pos.base.gamePly + 1 - 1 = pos.base.gamePly
        omega
      · simp only [set_golds_bb_kingSquares, apply_ite PositionBase.kingSquares, ite_self,
          put_piece_kingSquares, remove_piece_kingSquares, doBoardResultNoncap_kingSquares,
          doKingFix_kingSquares, doBoardBase1_kingSquares, Piece.is_king]
        by_cases hk : pieceTypeOf (doPcTo pos.base m) = PieceType.KING
        · rw [if_pos hk]
          rw [if_pos (by simpa using hk)]
          rw [Function.update_idem]
          have hpnp : Move.is_promotion m = false := by
            by_cases hp : Move.is_promotion m = true
            · exfalso
              apply promote_not_king _ h32 (hprom hp)
              unfold doPcTo at hk
              rw [if_pos hp] at hk
              exact hk
            · revert hp; cases Move.is_promotion m <;> simp
          have hkf : pieceTypeOf (pos.base.piece_on (Move.from_ m)) = PieceType.KING := by
            unfold doPcTo at hk
            rw [hpnp] at hk
            simpa using hk
          have hpcval : pos.base.piece_on (Move.from_ m)
              = Piece.new pos.base.sideToMove PieceType.KING := by
            unfold Piece.new PieceType.KING
            unfold pieceTypeOf PieceType.KING at hkf
            unfold colorOf at hcol
            omega
          have := hking pos.base.sideToMove hus (Move.from_ m) (by
            simpa [PositionBase.piece_on] using hpcval)
          rw [this]
          exact Function.update_eq_self _ _
        · rw [if_neg hk]
          rw [if_neg (by simpa using hk)]
      · rfl


/-- C2: for a well-formed position and a move accepted as pseudo-legal
and legal, do_move followed by undo_move restores the position exactly:
the board array, every bitboard, the hands, the king squares, the side to
move, the game ply (the whole PositionBase) and the state stack - hence
the top StateInfo and the Zobrist board and hand keys - are all
bit-identical to their pre-move values. -/
theorem c2_do_undo_roundtrip (zt : ZTab) (pos : Position) (m : Nat) (g : Bool)
    (hwf : pos.base.WellFormed)
    (hpl : pos.pseudo_legal false m = true)
    (hlg : pos.legal m = true) :
    Position.undo_move (Position.do_move zt pos m g) m = pos := by
  obtain ⟨h1, _, _, _, _, h6, h7⟩ := hwf
  exact do_undo_eq zt pos m g h1 h6 h7 hpl

/-- Witness for c2_do_undo_roundtrip: the pawn-takes-pawn move on the
concrete position c2Pos round-trips exactly. -/
theorem c2_do_undo_roundtrip_witness :
    c2Pos.base.WellFormed
    ∧ c2Pos.pseudo_legal false c2m = true
    ∧ c2Pos.legal c2m = true
    ∧ Position.undo_move (Position.do_move ztTest c2Pos c2m false) c2m = c2Pos := by
  have hwf : c2Pos.base.WellFormed := by
    refine ⟨by decide, by decide, by decide, by decide, by decide, by decide, ?_⟩
    intro c hc sq h
    simp only [c2Base, c2Pos, Piece.new, Piece.B_PAWN, Piece.W_PAWN, Piece.B_KING,
      Piece.W_KING, PieceType.KING, PieceType.GOLD, Color.WHITE, Color.BLACK,
      Piece.EMPTY] at h ⊢
    split_ifs at h ⊢ <;> omega
  exact ⟨hwf, by decide, by decide,
    c2_do_undo_roundtrip ztTest c2Pos c2m false hwf (by decide) (by decide)⟩

/-! Fold algebra for the Zobrist scratch keys: xor-accumulating folds are
equivariant in their initial value, congruent in the table function, and
toggling one occupancy bit adds or removes exactly that square's key. -/

theorem foldl_xor_init (f : Nat → Nat) : ∀ (l : List Nat) (a d : Nat),
    l.foldl (fun k x => k ^^^ f x) (a ^^^ d) = l.foldl (fun k x => k ^^^ f x) a ^^^ d := by
  intro l
  induction l with
  | nil => intro a d; rfl
  | cons x l ih =>
    intro a d
    simp only [List.foldl_cons]
    rw [show a ^^^ d ^^^ f x = (a ^^^ f x) ^^^ d by
      rw [Nat.xor_assoc, Nat.xor_comm d (f x), ← Nat.xor_assoc]]
    exact ih (a ^^^ f x) d

theorem foldl_xor_congr (f g : Nat → Nat) : ∀ (l : List Nat) (a : Nat),
    (∀ x ∈ l, f x = g x) →
    l.foldl (fun k x => k ^^^ f x) a = l.foldl (fun k x => k ^^^ g x) a := by
  intro l
  induction l with
  | nil => intro a _; rfl
  | cons x l ih =>
    intro a h
    simp only [List.foldl_cons]
    rw [h x (List.mem_cons_self x l)]
    exact ih (a ^^^ g x) (fun y hy => h y (List.mem_cons_of_mem x hy))

theorem testBit_squareMask_eq (t0 t : Nat) :
    (squareMask t0).testBit t = decide (t = t0) := by
  unfold squareMask
  rw [Nat.shiftLeft_eq, one_mul]
  rcases eq_or_ne t t0 with rfl | h
  · simp [Nat.testBit_two_pow_self]
  · simp [h, Nat.testBit_two_pow_of_ne (Ne.symm h)]

theorem foldl_key_toggle_aux (f : Nat → Nat) (occ t : Nat) :
    ∀ n, t < n →
    ((List.range n).filter (fun sq => (occ ^^^ squareMask t).testBit sq)).foldl
        (fun k x => k ^^^ f x) 0
      = ((List.range n).filter (fun sq => occ.testBit sq)).foldl (fun k x => k ^^^ f x) 0
        ^^^ f t := by
  intro n
  induction n with
  | zero => omega
  | succ n ih =>
    intro ht
    rw [List.range_succ, List.filter_append, List.filter_append, List.foldl_append,
      List.foldl_append]
    rcases eq_or_ne t n with rfl | htn
    · have hlow : (List.range t).filter (fun sq => (occ ^^^ squareMask t).testBit sq)
          = (List.range t).filter (fun sq => occ.testBit sq) := by
        apply List.filter_congr
        intro x hx
        have hxt : x ≠ t := by
          have := List.mem_range.mp hx
          omega
        rw [Nat.testBit_xor, testBit_squareMask_eq]
        simp [hxt]
      rw [hlow]
      have hbit : (occ ^^^ squareMask t).testBit t = !occ.testBit t := by
        rw [Nat.testBit_xor, testBit_squareMask_eq]
        simp
      rw [List.filter_singleton, List.filter_singleton, hbit]
      cases hb : occ.testBit t with
      | true =>
        simp only [hb, Bool.not_true, cond_false, cond_true]
        simp only [List.foldl_nil, List.foldl_cons]
        rw [Nat.xor_assoc, Nat.xor_self, Nat.xor_zero]
      | false =>
        simp only [hb, Bool.not_false, cond_false, cond_true]
        simp only [List.foldl_nil, List.foldl_cons]
    · have ht' : t < n := by omega
      have hbit : (occ ^^^ squareMask t).testBit n = occ.testBit n := by
        rw [Nat.testBit_xor, testBit_squareMask_eq]
        simp [Ne.symm htn]
      rw [List.filter_singleton, List.filter_singleton, hbit]
      cases hb : occ.testBit n with
      | true =>
        simp only [hb, cond_true]
        simp only [List.foldl_cons, List.foldl_nil]
        rw [ih ht']
        rw [Nat.xor_assoc, Nat.xor_comm (f t) (f n), ← Nat.xor_assoc]
      | false =>
        simp only [hb, cond_false]
        simp only [List.foldl_nil]
        exact ih ht'

theorem boardFold_toggle (zt : ZTab) (b : Nat → Nat) (occ t : Nat) (ht : t < 81) :
    (bbSquares (occ ^^^ squareMask t)).foldl
        (fun k sq => k ^^^ zt.field (pieceTypeOf (b sq)) sq (colorOf (b sq))) 0
      = (bbSquares occ).foldl
          (fun k sq => k ^^^ zt.field (pieceTypeOf (b sq)) sq (colorOf (b sq))) 0
        ^^^ zt.field (pieceTypeOf (b t)) t (colorOf (b t)) :=
  foldl_key_toggle_aux (fun sq => zt.field (pieceTypeOf (b sq)) sq (colorOf (b sq))) occ t 81 ht

theorem boardFold_congr (zt : ZTab) (b1 b2 : Nat → Nat) (occ : Nat)
    (h : ∀ sq, sq < 81 → occ.testBit sq = true → b1 sq = b2 sq) :
    (bbSquares occ).foldl
        (fun k sq => k ^^^ zt.field (pieceTypeOf (b1 sq)) sq (colorOf (b1 sq))) 0
      = (bbSquares occ).foldl
          (fun k sq => k ^^^ zt.field (pieceTypeOf (b2 sq)) sq (colorOf (b2 sq))) 0 := by
  apply foldl_xor_congr
  intro x hx
  obtain ⟨hx81, hxb⟩ := mem_bbSquares.mp hx
  rw [h x hx81 hxb]

theorem boardFold_update_out (zt : ZTab) (b : Nat → Nat) (occ t pc : Nat)
    (hocc : occ.testBit t = false) :
    (bbSquares occ).foldl
        (fun k sq => k ^^^ zt.field (pieceTypeOf (Function.update b t pc sq)) sq
          (colorOf (Function.update b t pc sq))) 0
      = (bbSquares occ).foldl
          (fun k sq => k ^^^ zt.field (pieceTypeOf (b sq)) sq (colorOf (b sq))) 0 := by
  apply foldl_xor_congr
  intro x hx
  obtain ⟨hx81, hxb⟩ := mem_bbSquares.mp hx
  have hxt : x ≠ t := by
    intro h
    rw [h] at hxb
    rw [hocc] at hxb
    cases hxb
  rw [Function.update_noteq hxt]

theorem boardFold_update_in (zt : ZTab) (b : Nat → Nat) (occ t pc : Nat) (ht : t < 81)
    (hocc : occ.testBit t = true) :
    (bbSquares occ).foldl
        (fun k sq => k ^^^ zt.field (pieceTypeOf (Function.update b t pc sq)) sq
          (colorOf (Function.update b t pc sq))) 0
      = (bbSquares occ).foldl
          (fun k sq => k ^^^ zt.field (pieceTypeOf (b sq)) sq (colorOf (b sq))) 0
        ^^^ zt.field (pieceTypeOf (b t)) t (colorOf (b t))
        ^^^ zt.field (pieceTypeOf pc) t (colorOf pc) := by
  have h1 : occ = (occ ^^^ squareMask t) ^^^ squareMask t := by
    rw [Nat.xor_assoc, Nat.xor_self, Nat.xor_zero]
  have hout : (occ ^^^ squareMask t).testBit t = false := by
    rw [Nat.testBit_xor, testBit_squareMask_eq]
    simp [hocc]
  conv_lhs => rw [h1]
  rw [boardFold_toggle zt (Function.update b t pc) (occ ^^^ squareMask t) t ht]
  rw [boardFold_update_out zt b (occ ^^^ squareMask t) t pc hout]
  conv_rhs => rw [h1]
  rw [boardFold_toggle zt b (occ ^^^ squareMask t) t ht]
  rw [Function.update_same]
  rw [Nat.xor_assoc _ (zt.field (pieceTypeOf (b t)) t (colorOf (b t)))
    (zt.field (pieceTypeOf (b t)) t (colorOf (b t))), Nat.xor_self, Nat.xor_zero]

theorem foldl_fun_congr {α : Type} (F G : Nat → α → Nat) :
    ∀ (l : List α), (∀ a x, x ∈ l → F a x = G a x) → ∀ a, l.foldl F a = l.foldl G a := by
  intro l
  induction l with
  | nil => intro _ a; rfl
  | cons y l ih =>
    intro h a
    simp only [List.foldl_cons]
    rw [h a y (List.mem_cons_self y l)]
    exact ih (fun b x hx => h b x (List.mem_cons_of_mem y hx)) (G a y)

theorem foldl_equivariant_lift {α : Type} (F : Nat → α → Nat)
    (hF : ∀ a d x, F (a ^^^ d) x = F a x ^^^ d) :
    ∀ (l : List α) (a d : Nat), l.foldl F (a ^^^ d) = l.foldl F a ^^^ d := by
  intro l
  induction l with
  | nil => intro a d; rfl
  | cons y l ih =>
    intro a d
    simp only [List.foldl_cons]
    rw [hF a d y]
    exact ih (F a y) d

theorem foldl_single_diff {α : Type} (F G : Nat → α → Nat) (x0 : α) (d : Nat)
    (hF : ∀ a d x, F (a ^^^ d) x = F a x ^^^ d)
    (hx0 : ∀ a, G a x0 = F a x0 ^^^ d)
    (hsame : ∀ a x, x ≠ x0 → G a x = F a x) :
    ∀ (l : List α), x0 ∈ l → l.Nodup → ∀ a, l.foldl G a = l.foldl F a ^^^ d := by
  intro l
  induction l with
  | nil => intro h; cases h
  | cons y l ih =>
    intro hmem hnd a
    rcases List.mem_cons.mp hmem with rfl | hmem'
    · have hnot : x0 ∉ l := (List.nodup_cons.mp hnd).1
      simp only [List.foldl_cons]
      rw [hx0 a]
      have hcongr : ∀ b, l.foldl G b = l.foldl F b := by
        intro b
        apply foldl_fun_congr
        intro b' x hx
        exact hsame b' x (fun h => hnot (h ▸ hx))
      rw [hcongr]
      exact foldl_equivariant_lift F hF l (F a x0) d
    · have hyx : y ≠ x0 := by
        intro h
        exact (List.nodup_cons.mp hnd).1 (h ▸ hmem')
      simp only [List.foldl_cons]
      rw [hsame a y hyx]
      exact ih hmem' (List.nodup_cons.mp hnd).2 (F a y)

set_option maxHeartbeats 1600000 in
theorem Hand.num_minus_one (h : Hand) (pt pt' : Nat) :
    (h.minus_one pt).num pt' = if pt' = pt then h.num pt - 1 else h.num pt' := by
  by_cases hq : pt' = pt
  · subst hq
    rw [if_pos rfl]
    unfold Hand.minus_one Hand.num
    simp only [PieceType.PAWN, PieceType.LANCE, PieceType.KNIGHT, PieceType.SILVER,
      PieceType.BISHOP, PieceType.ROOK, PieceType.GOLD]
    split_ifs <;> simp
  · rw [if_neg hq]
    unfold Hand.minus_one
    simp only [PieceType.PAWN, PieceType.LANCE, PieceType.KNIGHT, PieceType.SILVER,
      PieceType.BISHOP, PieceType.ROOK, PieceType.GOLD] at hq ⊢
    split_ifs with p1 p2 p3 p4 p5 p6 p7
    all_goals
      unfold Hand.num
    all_goals
      simp only [PieceType.PAWN, PieceType.LANCE, PieceType.KNIGHT, PieceType.SILVER,
        PieceType.BISHOP, PieceType.ROOK, PieceType.GOLD]
    all_goals
      split_ifs <;> first | rfl | omega

set_option maxHeartbeats 1600000 in
theorem Hand.num_plus_one (h : Hand) (pt pt' : Nat) (hpt1 : 1 ≤ pt) (hpt7 : pt ≤ 7) :
    (h.plus_one pt).num pt' = if pt' = pt then h.num pt + 1 else h.num pt' := by
  by_cases hq : pt' = pt
  · subst hq
    rw [if_pos rfl]
    unfold Hand.plus_one Hand.num
    simp only [PieceType.PAWN, PieceType.LANCE, PieceType.KNIGHT, PieceType.SILVER,
      PieceType.BISHOP, PieceType.ROOK, PieceType.GOLD]
    split_ifs <;> first | simp | omega
  · rw [if_neg hq]
    unfold Hand.plus_one
    simp only [PieceType.PAWN, PieceType.LANCE, PieceType.KNIGHT, PieceType.SILVER,
      PieceType.BISHOP, PieceType.ROOK, PieceType.GOLD] at hq ⊢
    split_ifs with p1 p2 p3 p4 p5 p6 p7
    all_goals
      unfold Hand.num
    all_goals
      simp only [PieceType.PAWN, PieceType.LANCE, PieceType.KNIGHT, PieceType.SILVER,
        PieceType.BISHOP, PieceType.ROOK, PieceType.GOLD]
    all_goals
      split_ifs <;> first | rfl | omega

theorem new_board_key_eq (zt : ZTab) (p : PositionBase) :
    StateInfo.new_board_key zt p =
      if p.sideToMove = Color.WHITE then
        (bbSquares p.occupied_bb).foldl
          (fun k sq => k ^^^ zt.field (pieceTypeOf (p.board sq)) sq (colorOf (p.board sq))) 0
          ^^^ Zobrist.COLOR
      else
        (bbSquares p.occupied_bb).foldl
          (fun k sq => k ^^^ zt.field (pieceTypeOf (p.board sq)) sq (colorOf (p.board sq))) 0 := by
  rfl

theorem new_hand_key_congr (zt : ZTab) (p p' : PositionBase) (hh : p'.hands = p.hands) :
    StateInfo.new_hand_key zt p' = StateInfo.new_hand_key zt p := by
  unfold StateInfo.new_hand_key PositionBase.hand
  rw [hh]

theorem new_hand_key_minus (zt : ZTab) (p p' : PositionBase) (us pt0 : Nat)
    (hus : us < 2) (hpt1 : 1 ≤ pt0) (hpt7 : pt0 ≤ 7)
    (hnum : 1 ≤ (p.hands us).num pt0)
    (hh : p'.hands = Function.update p.hands us ((p.hands us).minus_one pt0)) :
    StateInfo.new_hand_key zt p'
      = StateInfo.new_hand_key zt p ^^^ zt.handK pt0 ((p.hands us).num pt0) us := by
  have husmem : us ∈ [Color.BLACK, Color.WHITE] := by
    have h2 : us = 0 ∨ us = 1 := by omega
    rcases h2 with rfl | rfl <;> decide
  have hptmem : pt0 ∈ PieceType.ALL_HAND := by
    interval_cases pt0 <;> decide
  obtain ⟨k, hk⟩ : ∃ k, (p.hands us).num pt0 = k + 1 :=
    ⟨(p.hands us).num pt0 - 1, by omega⟩
  have hk' : (p.hand us).num pt0 = k + 1 := hk
  unfold StateInfo.new_hand_key
  refine foldl_single_diff _ _ pt0 _ ?_ ?_ ?_ PieceType.ALL_HAND hptmem (by decide) 0
  · intro a d pt
    try simp only []
    exact foldl_equivariant_lift _
      (fun a d c => foldl_xor_init (fun i => zt.handK pt (i + 1) c)
        (List.range ((p.hand c).num pt)) a d) [Color.BLACK, Color.WHITE] a d
  · intro a
    try simp only []
    refine foldl_single_diff _ _ us _ ?_ ?_ ?_ [Color.BLACK, Color.WHITE] husmem (by decide) a
    · intro a d c
      try simp only []
      exact foldl_xor_init (fun i => zt.handK pt0 (i + 1) c)
        (List.range ((p.hand c).num pt0)) a d
    · intro a
      try simp only []
      have hnum' : (p'.hand us).num pt0 = k := by
        show (p'.hands us).num pt0 = k
        rw [hh, Function.update_same, Hand.num_minus_one, if_pos rfl]
        show (p.hand us).num pt0 - 1 = k
        omega
      rw [hnum', hk', hk]
      rw [List.range_succ, List.foldl_append]
      simp only [List.foldl_cons, List.foldl_nil]
      rw [Nat.xor_assoc, Nat.xor_self, Nat.xor_zero]
    · intro a c hc
      try simp only []
      have hcc : (p'.hand c).num pt0 = (p.hand c).num pt0 := by
        show (p'.hands c).num pt0 = (p.hands c).num pt0
        rw [hh, Function.update_noteq hc]
      rw [hcc]
  · intro a pt hpt
    try simp only []
    refine foldl_fun_congr _ _ [Color.BLACK, Color.WHITE] ?_ a
    intro b c _
    have hcc : (p'.hand c).num pt = (p.hand c).num pt := by
      show (p'.hands c).num pt = (p.hands c).num pt
      rw [hh]
      by_cases hcu : c = us
      · subst hcu
        rw [Function.update_same, Hand.num_minus_one, if_neg hpt]
      · rw [Function.update_noteq hcu]
    rw [hcc]

theorem new_hand_key_plus (zt : ZTab) (p p' : PositionBase) (us pt0 : Nat)
    (hus : us < 2) (hpt1 : 1 ≤ pt0) (hpt7 : pt0 ≤ 7)
    (hh : p'.hands = Function.update p.hands us ((p.hands us).plus_one pt0)) :
    StateInfo.new_hand_key zt p'
      = StateInfo.new_hand_key zt p ^^^ zt.handK pt0 ((p.hands us).num pt0 + 1) us := by
  have husmem : us ∈ [Color.BLACK, Color.WHITE] := by
    have h2 : us = 0 ∨ us = 1 := by omega
    rcases h2 with rfl | rfl <;> decide
  have hptmem : pt0 ∈ PieceType.ALL_HAND := by
    interval_cases pt0 <;> decide
  have hk' : (p.hand us).num pt0 = (p.hands us).num pt0 := rfl
  unfold StateInfo.new_hand_key
  refine foldl_single_diff _ _ pt0 _ ?_ ?_ ?_ PieceType.ALL_HAND hptmem (by decide) 0
  · intro a d pt
    try simp only []
    exact foldl_equivariant_lift _
      (fun a d c => foldl_xor_init (fun i => zt.handK pt (i + 1) c)
        (List.range ((p.hand c).num pt)) a d) [Color.BLACK, Color.WHITE] a d
  · intro a
    try simp only []
    refine foldl_single_diff _ _ us _ ?_ ?_ ?_ [Color.BLACK, Color.WHITE] husmem (by decide) a
    · intro a d c
      try simp only []
      exact foldl_xor_init (fun i => zt.handK pt0 (i + 1) c)
        (List.range ((p.hand c).num pt0)) a d
    · intro a
      try simp only []
      have hnum' : (p'.hand us).num pt0 = (p.hands us).num pt0 + 1 := by
        show (p'.hands us).num pt0 = (p.hands us).num pt0 + 1
        rw [hh, Function.update_same, Hand.num_plus_one _ _ _ hpt1 hpt7, if_pos rfl]
      rw [hnum', ← hk']
      rw [List.range_succ, List.foldl_append]
      simp only [List.foldl_cons, List.foldl_nil]
    · intro a c hc
      try simp only []
      have hcc : (p'.hand c).num pt0 = (p.hand c).num pt0 := by
        show (p'.hands c).num pt0 = (p.hands c).num pt0
        rw [hh, Function.update_noteq hc]
      rw [hcc]
  · intro a pt hpt
    try simp only []
    refine foldl_fun_congr _ _ [Color.BLACK, Color.WHITE] ?_ a
    intro b c _
    have hcc : (p'.hand c).num pt = (p.hand c).num pt := by
      show (p'.hands c).num pt = (p.hands c).num pt
      rw [hh]
      by_cases hcu : c = us
      · subst hcu
        rw [Function.update_same, Hand.num_plus_one _ _ _ hpt1 hpt7, if_neg hpt]
      · rw [Function.update_noteq hcu]
    rw [hcc]

theorem promote_pt_ne_occupied (pc : Nat) (h32 : pc < 32) :
    pieceTypeOf (Piece.to_promote pc) ≠ PieceType.OCCUPIED := by
  revert h32
  revert pc
  decide

theorem pseudo_legal_board_to_fact (pos : Position) (s : Bool) (m : Nat)
    (hd : Move.is_drop m = false) (h : pos.pseudo_legal s m = true) :
    bbIsSet (pos.base.pieces_c pos.base.sideToMove) (Move.to_ m) = false := by
  unfold Position.pseudo_legal at h
  rw [if_neg (by simp [hd])] at h
  simp only [] at h
  by_cases h1 : pos.base.piece_on (Move.from_ m) = Piece.EMPTY
      ∨ pos.base.piece_on (Move.from_ m) ≠ Move.piece_moved_before_move m
      ∨ colorOf (pos.base.piece_on (Move.from_ m)) ≠ pos.base.sideToMove
  · rw [if_pos h1] at h; cases h
  rw [if_neg h1] at h
  by_cases hb : bbIsSet (pos.base.pieces_c pos.base.sideToMove) (Move.to_ m) = true
  · rw [if_pos hb] at h; cases h
  · revert hb
    cases bbIsSet (pos.base.pieces_c pos.base.sideToMove) (Move.to_ m) <;> simp

theorem do_move_st_boardKey_drop (zt : ZTab) (pos : Position) (m : Nat) (g : Bool)
    (hd : Move.is_drop m = true) :
    (Position.do_move zt pos m g).st.boardKey
      = pos.st.boardKey ^^^ Zobrist.COLOR
        ^^^ zt.field (pieceTypeOf (Move.piece_dropped m)) (Move.to_ m)
          pos.base.sideToMove := by
  unfold Position.do_move
  rw [if_pos hd]
  rfl

theorem do_move_st_handKey_drop (zt : ZTab) (pos : Position) (m : Nat) (g : Bool)
    (hd : Move.is_drop m = true) :
    (Position.do_move zt pos m g).st.handKey
      = pos.st.handKey
        ^^^ zt.handK (pieceTypeOf (Move.piece_dropped m))
          ((pos.base.hands pos.base.sideToMove).num (pieceTypeOf (Move.piece_dropped m)))
          pos.base.sideToMove := by
  unfold Position.do_move
  rw [if_pos hd]
  rfl

theorem do_move_st_boardKey_board (zt : ZTab) (pos : Position) (m : Nat) (g : Bool)
    (hd : Move.is_drop m = false) :
    (Position.do_move zt pos m g).st.boardKey =
      if (doCaptured pos.base m != Piece.EMPTY) = true then
        pos.st.boardKey ^^^ Zobrist.COLOR
          ^^^ zt.field (pieceTypeOf (doCaptured pos.base m)) (Move.to_ m)
            (colorInverse pos.base.sideToMove)
          ^^^ zt.field (pieceTypeOf (pos.base.piece_on (Move.from_ m))) (Move.from_ m)
            pos.base.sideToMove
          ^^^ zt.field (pieceTypeOf (doPcTo pos.base m)) (Move.to_ m) pos.base.sideToMove
      else
        pos.st.boardKey ^^^ Zobrist.COLOR
          ^^^ zt.field (pieceTypeOf (pos.base.piece_on (Move.from_ m))) (Move.from_ m)
            pos.base.sideToMove
          ^^^ zt.field (pieceTypeOf (doPcTo pos.base m)) (Move.to_ m) pos.base.sideToMove := by
  unfold Position.do_move
  rw [if_neg (by simp [hd])]
  simp only []
  split
  · rename_i h
    rw [if_pos (show (doCaptured pos.base m != Piece.EMPTY) = true from h)]
    rfl
  · rename_i h
    rw [if_neg (show ¬ (doCaptured pos.base m != Piece.EMPTY) = true from h)]
    rfl

theorem do_move_st_handKey_board (zt : ZTab) (pos : Position) (m : Nat) (g : Bool)
    (hd : Move.is_drop m = false) :
    (Position.do_move zt pos m g).st.handKey =
      if (doCaptured pos.base m != Piece.EMPTY) = true then
        pos.st.handKey
          ^^^ zt.handK (PieceType.to_demote_if_possible (pieceTypeOf (doCaptured pos.base m)))
            (((doBoardBase2 pos.base m).hand pos.base.sideToMove).num
              (PieceType.to_demote_if_possible (pieceTypeOf (doCaptured pos.base m))))
            pos.base.sideToMove
      else pos.st.handKey := by
  unfold Position.do_move
  rw [if_neg (by simp [hd])]
  simp only []
  split
  · rename_i h
    rw [if_pos (show (doCaptured pos.base m != Piece.EMPTY) = true from h)]
    rfl
  · rename_i h
    rw [if_neg (show ¬ (doCaptured pos.base m != Piece.EMPTY) = true from h)]
    rfl

theorem doDropResult_board (p : PositionBase) (m : Nat) :
    (doDropResult p m).board
      = Function.update p.board (Move.to_ m) (Move.piece_dropped m) := rfl

theorem doDropResult_hands (p : PositionBase) (m : Nat) :
    (doDropResult p m).hands
      = Function.update p.hands p.sideToMove
          ((p.hands p.sideToMove).minus_one (pieceTypeOf (Move.piece_dropped m))) := rfl

theorem doDropResult_sideToMove (p : PositionBase) (m : Nat) :
    (doDropResult p m).sideToMove = colorInverse p.sideToMove := rfl

theorem doDropResult_byTypeBB (p : PositionBase) (m : Nat) (i : Nat) :
    (doDropResult p m).byTypeBB i =
      p.byTypeBB i
        ^^^ (if i = pieceTypeOf (Move.piece_dropped m) then squareMask (Move.to_ m) else 0)
        ^^^ (if i = PieceType.OCCUPIED then squareMask (Move.to_ m) else 0) :=
  put_piece_byTypeBB_x _ _ _ _

theorem doDropResult_occupied (p : PositionBase) (m : Nat)
    (hpt : pieceTypeOf (Move.piece_dropped m) ≠ PieceType.OCCUPIED) :
    (doDropResult p m).occupied_bb = p.occupied_bb ^^^ squareMask (Move.to_ m) := by
  show (doDropResult p m).byTypeBB PieceType.OCCUPIED = _
  rw [doDropResult_byTypeBB]
  rw [if_neg (fun h => hpt h.symm), if_pos rfl, Nat.xor_zero]
  rfl

theorem doBoardResultCap_board2 (p : PositionBase) (m : Nat) :
    (doBoardResultCap p m).board
      = Function.update (Function.update p.board (Move.from_ m) Piece.EMPTY)
          (Move.to_ m) (doPcTo p m) := by
  rw [doBoardResultCap_board, doKingFix_board, put_piece_board, doBoardBase2_board]

theorem doBoardResultNoncap_board2 (p : PositionBase) (m : Nat) :
    (doBoardResultNoncap p m).board
      = Function.update (Function.update p.board (Move.from_ m) Piece.EMPTY)
          (Move.to_ m) (doPcTo p m) := by
  rw [doBoardResultNoncap_board, doKingFix_board, put_piece_board, doBoardBase1_board]

theorem doBoardResultCap_hands2 (p : PositionBase) (m : Nat) :
    (doBoardResultCap p m).hands
      = Function.update p.hands p.sideToMove
          ((p.hands p.sideToMove).plus_one
            (PieceType.to_demote_if_possible (pieceTypeOf (doCaptured p m)))) := by
  rw [doBoardResultCap_hands, doKingFix_hands, put_piece_hands, doBoardBase2_hands]

theorem doBoardResultNoncap_hands2 (p : PositionBase) (m : Nat) :
    (doBoardResultNoncap p m).hands = p.hands := by
  rw [doBoardResultNoncap_hands, doKingFix_hands, put_piece_hands, doBoardBase1_hands]

theorem doBoardResultCap_occupied (p : PositionBase) (m : Nat)
    (hptF : pieceTypeOf (p.piece_on (Move.from_ m)) ≠ PieceType.OCCUPIED)
    (hptC : pieceTypeOf (doCaptured p m) ≠ PieceType.OCCUPIED)
    (hptT : pieceTypeOf (doPcTo p m) ≠ PieceType.OCCUPIED) :
    (doBoardResultCap p m).occupied_bb = p.occupied_bb ^^^ squareMask (Move.from_ m) := by
  show (doBoardResultCap p m).byTypeBB PieceType.OCCUPIED = _
  rw [doBoardResultCap_byTypeBB, doKingFix_byTypeBB]
  rw [put_piece_byTypeBB_x, doBoardBase2_byTypeBB_x, doBoardBase1_byTypeBB_x]
  rw [if_neg (show ¬ PieceType.OCCUPIED = pieceTypeOf (doPcTo p m) from fun h => hptT h.symm),
    if_neg (show ¬ PieceType.OCCUPIED = pieceTypeOf (doCaptured p m) from fun h => hptC h.symm),
    if_neg (show ¬ PieceType.OCCUPIED = pieceTypeOf (p.piece_on (Move.from_ m)) from
      fun h => hptF h.symm)]
  rw [if_pos rfl, if_pos rfl]
  simp only [Nat.xor_zero]
  rw [Nat.xor_assoc (p.byTypeBB PieceType.OCCUPIED ^^^ squareMask (Move.from_ m)),
    Nat.xor_self, Nat.xor_zero]
  rfl

theorem doBoardResultNoncap_occupied (p : PositionBase) (m : Nat)
    (hptF : pieceTypeOf (p.piece_on (Move.from_ m)) ≠ PieceType.OCCUPIED)
    (hptT : pieceTypeOf (doPcTo p m) ≠ PieceType.OCCUPIED) :
    (doBoardResultNoncap p m).occupied_bb
      = p.occupied_bb ^^^ squareMask (Move.from_ m) ^^^ squareMask (Move.to_ m) := by
  show (doBoardResultNoncap p m).byTypeBB PieceType.OCCUPIED = _
  rw [doBoardResultNoncap_byTypeBB, doKingFix_byTypeBB]
  rw [put_piece_byTypeBB_x, doBoardBase1_byTypeBB_x]
  rw [if_neg (show ¬ PieceType.OCCUPIED = pieceTypeOf (doPcTo p m) from fun h => hptT h.symm),
    if_neg (show ¬ PieceType.OCCUPIED = pieceTypeOf (p.piece_on (Move.from_ m)) from
      fun h => hptF h.symm)]
  rw [if_pos rfl, if_pos rfl]
  simp only [Nat.xor_zero]
  rfl

theorem do_null_move_base_board (pos : Position) :
    (Position.do_null_move pos).base.board = pos.base.board := rfl

theorem do_null_move_base_occupied (pos : Position) :
    (Position.do_null_move pos).base.occupied_bb = pos.base.occupied_bb := rfl

theorem do_null_move_base_sideToMove (pos : Position) :
    (Position.do_null_move pos).base.sideToMove = colorInverse pos.base.sideToMove := rfl

theorem do_null_move_base_hands (pos : Position) :
    (Position.do_null_move pos).base.hands = pos.base.hands := rfl

theorem do_null_move_st_boardKey (pos : Position) :
    (Position.do_null_move pos).st.boardKey = pos.st.boardKey ^^^ Zobrist.COLOR := rfl

theorem do_null_move_st_handKey (pos : Position) :
    (Position.do_null_move pos).st.handKey = pos.st.handKey := rfl

theorem keys_null (zt : ZTab) (pos : Position) (hus : pos.base.sideToMove < 2)
    (hinv : Position.KeysFromScratch zt pos) :
    Position.KeysFromScratch zt (Position.do_null_move pos) := by
  obtain ⟨hbk, hhk⟩ := hinv
  constructor
  · rw [do_null_move_st_boardKey, hbk, new_board_key_eq, new_board_key_eq,
      do_null_move_base_sideToMove]
    simp only [do_null_move_base_board, do_null_move_base_occupied]
    have h2 : pos.base.sideToMove = 0 ∨ pos.base.sideToMove = 1 := by omega
    rcases h2 with h0 | h0 <;> rw [h0] <;>
      simp [colorInverse, Color.WHITE, Nat.xor_assoc, Nat.xor_self, Nat.xor_zero]
  · rw [do_null_move_st_handKey, hhk]
    exact (new_hand_key_congr zt pos.base _ (do_null_move_base_hands pos)).symm

theorem keys_drop (zt : ZTab) (pos : Position) (m : Nat) (g : Bool)
    (hwf : pos.base.WellFormed)
    (hpl : pos.pseudo_legal false m = true)
    (hto : Move.to_ m < 81)
    (hd : Move.is_drop m = true)
    (hinv : Position.KeysFromScratch zt pos) :
    Position.KeysFromScratch zt (Position.do_move zt pos m g) := by
  obtain ⟨hbk, hhk⟩ := hinv
  obtain ⟨hus2, hreal, hoccB, hcolB, htypB, hgoldE, hkingE⟩ := hwf
  obtain ⟨hcol, hex, hemp⟩ := pseudo_legal_drop_facts pos false m hd hpl
  obtain ⟨hpt1, hpt7⟩ := Hand.exist_bounds _ _ hex
  have hbase := do_move_base_drop zt pos m g hd
  have hptne : pieceTypeOf (Move.piece_dropped m) ≠ PieceType.OCCUPIED := by
    unfold PieceType.OCCUPIED; omega
  simp only [PositionBase.piece_on] at hemp
  have hoccto : pos.base.occupied_bb.testBit (Move.to_ m) = false := by
    cases h : pos.base.occupied_bb.testBit (Move.to_ m)
    · rfl
    · exact absurd ((hoccB (Move.to_ m) hto).mp h) (by simp [hemp])
  constructor
  · rw [do_move_st_boardKey_drop zt pos m g hd, hbase, hbk]
    rw [new_board_key_eq, new_board_key_eq]
    rw [doDropResult_sideToMove, doDropResult_occupied pos.base m hptne]
    simp only [doDropResult_board]
    rw [boardFold_toggle zt (Function.update pos.base.board (Move.to_ m) (Move.piece_dropped m))
      pos.base.occupied_bb (Move.to_ m) hto]
    rw [boardFold_update_out zt pos.base.board pos.base.occupied_bb (Move.to_ m)
      (Move.piece_dropped m) hoccto]
    rw [Function.update_same]
    rw [hcol]
    have h2 : pos.base.sideToMove = 0 ∨ pos.base.sideToMove = 1 := by omega
    rcases h2 with h0 | h0 <;> rw [h0] <;>
      simp [colorInverse, Color.WHITE, Nat.xor_assoc, Nat.xor_comm, xor_left_comm,
        Nat.xor_self, Nat.xor_zero, Nat.zero_xor, Nat.xor_cancel_left]
  · rw [do_move_st_handKey_drop zt pos m g hd, hbase, hhk]
    have hnum : 1 ≤ (pos.base.hands pos.base.sideToMove).num
        (pieceTypeOf (Move.piece_dropped m)) := by
      have hne : (pos.base.hand pos.base.sideToMove).num
          (pieceTypeOf (Move.piece_dropped m)) ≠ 0 := by
        simpa [Hand.exist] using hex
      have hne' : (pos.base.hands pos.base.sideToMove).num
          (pieceTypeOf (Move.piece_dropped m)) ≠ 0 := hne
      omega
    exact (new_hand_key_minus zt pos.base (doDropResult pos.base m) pos.base.sideToMove
      (pieceTypeOf (Move.piece_dropped m)) hus2 hpt1 hpt7 hnum
      (doDropResult_hands pos.base m)).symm

set_option maxHeartbeats 1600000 in
theorem keys_board (zt : ZTab) (pos : Position) (m : Nat) (g : Bool)
    (hwf : pos.base.WellFormed)
    (hpl : pos.pseudo_legal false m = true)
    (hto : Move.to_ m < 81)
    (hfrom : Move.from_ m < 81)
    (hd : Move.is_drop m = false)
    (hkc : (doCaptured pos.base m != Piece.EMPTY) = true →
      pieceTypeOf (doCaptured pos.base m) ≠ PieceType.KING)
    (hinv : Position.KeysFromScratch zt pos) :
    Position.KeysFromScratch zt (Position.do_move zt pos m g) := by
  obtain ⟨hbk, hhk⟩ := hinv
  obtain ⟨hus2, hreal, hoccB, hcolB, htypB, hgoldE, hkingE⟩ := hwf
  obtain ⟨hfne, hfcol, hfpr⟩ := pseudo_legal_board_facts pos false m hd hpl
  have htous := pseudo_legal_board_to_fact pos false m hd hpl
  simp only [PositionBase.piece_on] at hfne hfcol hfpr
  have hbase := do_move_base_board zt pos m g hd
  have hQ := do_move_st_boardKey_board zt pos m g hd
  have hH := do_move_st_handKey_board zt pos m g hd
  have hfreal : isRealPiece (pos.base.board (Move.from_ m)) := by
    rcases hreal (Move.from_ m) hfrom with h | h
    · exact absurd h hfne
    · exact h
  have hf32 : pos.base.board (Move.from_ m) < 32 := hfreal.1
  have hptFne : pieceTypeOf (pos.base.board (Move.from_ m)) ≠ PieceType.OCCUPIED := by
    have h1 := hfreal.2.1
    unfold PieceType.OCCUPIED
    unfold pieceTypeOf
    unfold pieceTypeOf at h1
    omega
  have hoccF : pos.base.occupied_bb.testBit (Move.from_ m) = true := (hoccB _ hfrom).mpr hfne
  have hTne : pieceTypeOf (doPcTo pos.base m) ≠ PieceType.OCCUPIED := by
    unfold doPcTo
    split
    · exact promote_pt_ne_occupied _ hf32
    · exact hptFne
  have hTcol : colorOf (doPcTo pos.base m) = pos.base.sideToMove := by
    unfold doPcTo
    split
    · rename_i hpm
      rw [show colorOf (Piece.to_promote (pos.base.piece_on (Move.from_ m)))
          = colorOf (pos.base.piece_on (Move.from_ m)) from
        promote_color _ hf32 (hfpr hpm)]
      exact hfcol
    · exact hfcol
  by_cases hcap : (doCaptured pos.base m != Piece.EMPTY) = true
  · -- capture path
    rw [if_pos hcap] at hbase hQ hH
    have htf : Move.to_ m ≠ Move.from_ m := by
      intro h
      have hce : doCaptured pos.base m = Piece.EMPTY := by
        rw [doCaptured_eq, h, Function.update_same]
      simp [hce] at hcap
    have hcapeq : doCaptured pos.base m = pos.base.board (Move.to_ m) := by
      rw [doCaptured_eq, Function.update_noteq htf]
    have hcne : pos.base.board (Move.to_ m) ≠ Piece.EMPTY := by
      rw [← hcapeq]
      simpa using hcap
    have hcreal : isRealPiece (pos.base.board (Move.to_ m)) := by
      rcases hreal (Move.to_ m) hto with h | h
      · exact absurd h hcne
      · exact h
    have hc32 : pos.base.board (Move.to_ m) < 32 := hcreal.1
    have hoccT : pos.base.occupied_bb.testBit (Move.to_ m) = true := (hoccB _ hto).mpr hcne
    have hptCne : pieceTypeOf (doCaptured pos.base m) ≠ PieceType.OCCUPIED := by
      rw [hcapeq]
      have h1 := hcreal.2.1
      unfold PieceType.OCCUPIED
      unfold pieceTypeOf
      unfold pieceTypeOf at h1
      omega
    have hccol : colorOf (pos.base.board (Move.to_ m)) = colorInverse pos.base.sideToMove := by
      have hbit : (pos.base.byColorBB pos.base.sideToMove).testBit (Move.to_ m) = false := by
        simpa [bbIsSet, PositionBase.pieces_c] using htous
      have hiff := hcolB pos.base.sideToMove hus2 (Move.to_ m) hto
      have hc2 : colorOf (pos.base.board (Move.to_ m)) < 2 := by
        unfold colorOf
        omega
      have hcolne : colorOf (pos.base.board (Move.to_ m)) ≠ pos.base.sideToMove := by
        intro h
        rw [hiff.mpr ⟨hcne, h⟩] at hbit
        cases hbit
      unfold colorInverse
      omega
    have hRocc := doBoardResultCap_occupied pos.base m hptFne hptCne hTne
    have hRb := doBoardResultCap_board2 pos.base m
    constructor
    · rw [hQ, hbase, hbk]
      rw [new_board_key_eq, new_board_key_eq]
      rw [doBoardResultCap_sideToMove, hRocc]
      simp only [hRb]
      have hbitT : (pos.base.occupied_bb ^^^ squareMask (Move.from_ m)).testBit
          (Move.to_ m) = true := by
        rw [Nat.testBit_xor, testBit_squareMask_eq]
        simp [hoccT, htf]
      have hbitF : (pos.base.occupied_bb ^^^ squareMask (Move.from_ m)).testBit
          (Move.from_ m) = false := by
        rw [Nat.testBit_xor, testBit_squareMask_eq]
        simp [hoccF]
      rw [boardFold_update_in zt (Function.update pos.base.board (Move.from_ m) Piece.EMPTY)
        (pos.base.occupied_bb ^^^ squareMask (Move.from_ m)) (Move.to_ m) (doPcTo pos.base m)
        hto hbitT]
      rw [boardFold_update_out zt pos.base.board
        (pos.base.occupied_bb ^^^ squareMask (Move.from_ m)) (Move.from_ m) Piece.EMPTY hbitF]
      rw [boardFold_toggle zt pos.base.board pos.base.occupied_bb (Move.from_ m) hfrom]
      rw [Function.update_noteq htf]
      rw [hcapeq, hccol, hfcol, hTcol]
      have h2 : pos.base.sideToMove = 0 ∨ pos.base.sideToMove = 1 := by omega
      rcases h2 with h0 | h0 <;> rw [h0] <;>
        simp [colorInverse, Color.WHITE, PositionBase.piece_on, Nat.xor_assoc, Nat.xor_comm,
          xor_left_comm, Nat.xor_self, Nat.xor_zero, Nat.zero_xor, Nat.xor_cancel_left]
    · rw [hH, hbase, hhk]
      have hpt8 : pieceTypeOf (pos.base.board (Move.to_ m)) ≠ 8 := by
        have hk8 := hkc hcap
        rw [hcapeq] at hk8
        simpa [PieceType.KING] using hk8
      have hcd : 1 ≤ PieceType.to_demote_if_possible (pieceTypeOf (pos.base.board (Move.to_ m)))
          ∧ PieceType.to_demote_if_possible (pieceTypeOf (pos.base.board (Move.to_ m))) ≤ 7 := by
        have h14 := hcreal.2.2
        have h1 := hcreal.2.1
        unfold pieceTypeOf at h14 h1 hpt8 ⊢
        unfold PieceType.to_demote_if_possible
        split_ifs <;> omega
      have hn : ((doBoardBase2 pos.base m).hand pos.base.sideToMove).num
            (PieceType.to_demote_if_possible (pieceTypeOf (doCaptured pos.base m)))
          = (pos.base.hands pos.base.sideToMove).num
              (PieceType.to_demote_if_possible (pieceTypeOf (doCaptured pos.base m))) + 1 := by
        show ((doBoardBase2 pos.base m).hands pos.base.sideToMove).num _ = _
        rw [doBoardBase2_hands, Function.update_same,
          Hand.num_plus_one _ _ _ (by rw [hcapeq]; exact hcd.1) (by rw [hcapeq]; exact hcd.2),
          if_pos rfl]
      rw [hn]
      exact (new_hand_key_plus zt pos.base (doBoardResultCap pos.base m)
        pos.base.sideToMove
        (PieceType.to_demote_if_possible (pieceTypeOf (doCaptured pos.base m)))
        hus2 (by rw [hcapeq]; exact hcd.1) (by rw [hcapeq]; exact hcd.2)
        (doBoardResultCap_hands2 pos.base m)).symm
  · -- non-capture path
    rw [if_neg hcap] at hbase hQ hH
    have hcEMP : doCaptured pos.base m = Piece.EMPTY := by
      by_contra hne
      exact hcap (by simpa using hne)
    have hRb := doBoardResultNoncap_board2 pos.base m
    have hRocc := doBoardResultNoncap_occupied pos.base m hptFne hTne
    refine ⟨?_, ?_⟩
    · rw [hQ, hbase, hbk, new_board_key_eq, new_board_key_eq,
        doBoardResultNoncap_sideToMove, hRocc]
      simp only [hRb]
      by_cases htf : Move.to_ m = Move.from_ m
      · rw [htf]
        rw [show pos.base.occupied_bb ^^^ squareMask (Move.from_ m) ^^^ squareMask (Move.from_ m)
            = pos.base.occupied_bb from by
          rw [Nat.xor_assoc, Nat.xor_self, Nat.xor_zero]]
        simp only [Function.update_idem]
        rw [boardFold_update_in zt pos.base.board pos.base.occupied_bb (Move.from_ m)
          (doPcTo pos.base m) hfrom hoccF]
        rw [hfcol, hTcol]
        have h2 : pos.base.sideToMove = 0 ∨ pos.base.sideToMove = 1 := by omega
        rcases h2 with h0 | h0 <;> rw [h0] <;>
          simp [colorInverse, Color.WHITE, PositionBase.piece_on, Nat.xor_assoc, Nat.xor_comm,
            xor_left_comm, Nat.xor_self, Nat.xor_zero, Nat.zero_xor, Nat.xor_cancel_left]
      · have hemp2 : pos.base.board (Move.to_ m) = Piece.EMPTY := by
          have h0 := hcEMP
          rwa [doCaptured_eq, Function.update_noteq htf] at h0
        have hoccT : pos.base.occupied_bb.testBit (Move.to_ m) = false := by
          cases h : pos.base.occupied_bb.testBit (Move.to_ m)
          · rfl
          · exact absurd ((hoccB _ hto).mp h) (by simp [hemp2])
        have hbitT2 : (pos.base.occupied_bb ^^^ squareMask (Move.from_ m)).testBit
            (Move.to_ m) = false := by
          rw [Nat.testBit_xor, testBit_squareMask_eq]
          simp [hoccT, htf]
        have hbitF : (pos.base.occupied_bb ^^^ squareMask (Move.from_ m)).testBit
            (Move.from_ m) = false := by
          rw [Nat.testBit_xor, testBit_squareMask_eq]
          simp [hoccF]
        rw [boardFold_toggle zt
          (Function.update (Function.update pos.base.board (Move.from_ m) Piece.EMPTY)
            (Move.to_ m) (doPcTo pos.base m))
          (pos.base.occupied_bb ^^^ squareMask (Move.from_ m)) (Move.to_ m) hto]
        rw [Function.update_same]
        rw [boardFold_update_out zt
          (Function.update pos.base.board (Move.from_ m) Piece.EMPTY)
          (pos.base.occupied_bb ^^^ squareMask (Move.from_ m)) (Move.to_ m)
          (doPcTo pos.base m) hbitT2]
        rw [boardFold_update_out zt pos.base.board
          (pos.base.occupied_bb ^^^ squareMask (Move.from_ m)) (Move.from_ m)
          Piece.EMPTY hbitF]
        rw [boardFold_toggle zt pos.base.board pos.base.occupied_bb (Move.from_ m) hfrom]
        rw [hfcol, hTcol]
        have h2 : pos.base.sideToMove = 0 ∨ pos.base.sideToMove = 1 := by omega
        rcases h2 with h0 | h0 <;> rw [h0] <;>
          simp [colorInverse, Color.WHITE, PositionBase.piece_on, Nat.xor_assoc, Nat.xor_comm,
            xor_left_comm, Nat.xor_self, Nat.xor_zero, Nat.zero_xor, Nat.xor_cancel_left]
    · rw [hH, hbase, hhk]
      exact (new_hand_key_congr zt pos.base _ (doBoardResultNoncap_hands2 pos.base m)).symm

/-- C3: the incrementally maintained Zobrist keys always equal the keys
rebuilt from scratch, and the generated table entries have their lowest
bit cleared so the side-to-move flip key Zobrist::COLOR = 1 never
collides with them.  Conjuncts: (1) a freshly constructed position
satisfies the invariant; (2) do_move preserves it for any pseudo-legal
move on a well-formed base whose squares are on the board and that does
not capture a king; (3) do_null_move preserves it; (4) undo_move after
do_move preserves it; (5) every generated Zobrist entry has lowest bit 0
and differs from Zobrist::COLOR. -/
theorem c3_zobrist_key_invariant :
    (∀ (zt : ZTab) (base : PositionBase),
      Position.KeysFromScratch zt
        { base := base, states := [StateInfo.new_from_position zt base] })
    ∧ (∀ (zt : ZTab) (pos : Position) (m : Nat) (g : Bool),
        pos.base.WellFormed →
        pos.pseudo_legal false m = true →
        Move.to_ m < 81 →
        (Move.is_drop m = false → Move.from_ m < 81) →
        (Move.is_drop m = false → (doCaptured pos.base m != Piece.EMPTY) = true →
          pieceTypeOf (doCaptured pos.base m) ≠ PieceType.KING) →
        Position.KeysFromScratch zt pos →
        Position.KeysFromScratch zt (Position.do_move zt pos m g))
    ∧ (∀ (zt : ZTab) (pos : Position),
        pos.base.sideToMove < 2 →
        Position.KeysFromScratch zt pos →
        Position.KeysFromScratch zt (Position.do_null_move pos))
    ∧ (∀ (zt : ZTab) (pos : Position) (m : Nat) (g : Bool),
        pos.base.WellFormed →
        pos.pseudo_legal false m = true →
        Position.KeysFromScratch zt pos →
        Position.KeysFromScratch zt (Position.undo_move (Position.do_move zt pos m g) m))
    ∧ (∀ r : Nat, genZobristEntry r &&& 1 = 0 ∧ genZobristEntry r ≠ Zobrist.COLOR) := by
  refine ⟨?_, ?_, ?_, ?_, ?_⟩
  · intro zt base
    exact ⟨rfl, rfl⟩
  · intro zt pos m g hwf hpl hto hfrom hkc hinv
    by_cases hd : Move.is_drop m = true
    · exact keys_drop zt pos m g hwf hpl hto hd hinv
    · have hd' : Move.is_drop m = false := by
        revert hd
        cases Move.is_drop m <;> simp
      exact keys_board zt pos m g hwf hpl hto (hfrom hd') hd' (hkc hd') hinv
  · intro zt pos hus hinv
    exact keys_null zt pos hus hinv
  · intro zt pos m g hwf hpl hinv
    obtain ⟨h1, _, _, _, _, h6, h7⟩ := hwf
    rw [do_undo_eq zt pos m g h1 h6 h7 hpl]
    exact hinv
  · intro r
    have hand : genZobristEntry r &&& 1 = 0 := by
      show r &&& (2 ^ 64 - 2) &&& 1 = 0
      rw [Nat.and_assoc]
      rw [show (2 ^ 64 - 2) &&& 1 = 0 from by decide]
      exact Nat.and_zero r
    refine ⟨hand, fun he => ?_⟩
    rw [he] at hand
    exact absurd hand (by decide)

/-- Witness for c3_zobrist_key_invariant: on the concrete pawn-takes-pawn
position c2Pos with the concrete even Zobrist table ztTest, the invariant
holds after construction and is preserved by do_move, do_null_move and
the do/undo round trip, and a concrete generated entry is even. -/
theorem c3_zobrist_key_invariant_witness :
    c2Pos.base.WellFormed
    ∧ c2Pos.pseudo_legal false c2m = true
    ∧ Position.KeysFromScratch ztTest c2Pos
    ∧ Position.KeysFromScratch ztTest (Position.do_move ztTest c2Pos c2m false)
    ∧ Position.KeysFromScratch ztTest (Position.do_null_move c2Pos)
    ∧ Position.KeysFromScratch ztTest
        (Position.undo_move (Position.do_move ztTest c2Pos c2m false) c2m)
    ∧ genZobristEntry 3 &&& 1 = 0 ∧ genZobristEntry 3 ≠ Zobrist.COLOR := by
  have hwf : c2Pos.base.WellFormed := by
    refine ⟨by decide, by decide, by decide, by decide, by decide, by decide, ?_⟩
    intro c hc sq h
    simp only [c2Base, c2Pos, Piece.new, Piece.B_PAWN, Piece.W_PAWN, Piece.B_KING,
      Piece.W_KING, PieceType.KING, PieceType.GOLD, Color.WHITE, Color.BLACK,
      Piece.EMPTY] at h ⊢
    split_ifs at h ⊢ <;> omega
  have hinv : Position.KeysFromScratch ztTest c2Pos :=
    c3_zobrist_key_invariant.1 ztTest c2Base
  refine ⟨hwf, by decide, hinv, ?_, ?_, ?_, ?_⟩
  · exact c3_zobrist_key_invariant.2.1 ztTest c2Pos c2m false hwf (by decide) (by decide)
      (by decide) (by decide) hinv
  · exact c3_zobrist_key_invariant.2.2.1 ztTest c2Pos (by decide) hinv
  · exact c3_zobrist_key_invariant.2.2.2.1 ztTest c2Pos c2m false hwf (by decide) hinv
  · exact c3_zobrist_key_invariant.2.2.2.2 3
